import Mathlib

/-!
DragonEyes: eye compositor and animation core.

A shallow embedding of `src/main.cpp` (with the constants of `src/config.h`)
and of the colour and drawing functions of `src/SSD1351/SSD1351.cpp`.

* Machine integers are `Nat`/`Int` with explicit wrap-around at each typed
  assignment (`wrapU`, `wrapS16`, `wrapS32`, `% 2 ^ w`); a 32-bit signed
  product that may overflow wraps as on the ARM target.
* A division by zero, a read outside the `ease` table and a loop that never
  exits have no defined result: the enclosing function returns `none`.
* `rand()` and `g_timer.read_us()` are lists of the values that successive
  calls return; a function returns `none` when it needs more values than the
  list holds.
* The graphics header selected by `config.h` is a parameter (`Graphics`); its
  tables are total functions of row and column.
-/

namespace DragonEyes

/-! ## Machine integers -/

/-- Conversion of an integer to an unsigned `w`-bit variable. -/
def wrapU (w : Nat) (x : Int) : Nat := (x % (2 : Int) ^ w).toNat

/-- Conversion of an integer to a signed 16-bit variable (`int16_t`). -/
def wrapS16 (x : Int) : Int := (x + 32768) % 65536 - 32768

/-- Conversion of an integer to a signed 32-bit variable (`int32_t`). -/
def wrapS32 (x : Int) : Int := (x + 2147483648) % 4294967296 - 2147483648

/-! ## Graphics header

`config.h` includes `graphics/dragonEye.h`, which declares the dimensions and
the bitmap tables used by `drawEye` and `frame`. They are parameters here. -/

/-- Dimensions and bitmap tables of the selected graphics header. Table
element types follow the source: colours and polar values are read into
`uint16_t p`, eyelid maps are compared with `uint8_t` thresholds. A table is
indexed `[row][column]`. -/
structure Graphics where
  SCREEN_WIDTH : Nat
  SCREEN_HEIGHT : Nat
  SCLERA_WIDTH : Nat
  SCLERA_HEIGHT : Nat
  IRIS_WIDTH : Nat
  IRIS_HEIGHT : Nat
  IRIS_MAP_WIDTH : Nat
  IRIS_MAP_HEIGHT : Nat
  sclera : Nat → Nat → Fin 65536
  iris : Nat → Nat → Fin 65536
  polar : Nat → Nat → Fin 65536
  upper : Nat → Nat → Fin 256
  lower : Nat → Nat → Fin 256

/-- `#define SCREEN_X_START 0` -/
def SCREEN_X_START : Nat := 0

/-- `#define SCREEN_Y_START 0` -/
def SCREEN_Y_START : Nat := 0

/-- `#define SCREEN_X_END SCREEN_WIDTH` -/
def SCREEN_X_END (g : Graphics) : Nat := g.SCREEN_WIDTH

/-- `#define SCREEN_Y_END SCREEN_HEIGHT` -/
def SCREEN_Y_END (g : Graphics) : Nat := g.SCREEN_HEIGHT

/-! ## config.h -/

/-- `#define IRIS_MIN 120` (iris size in brightest light). -/
def IRIS_MIN : Nat := 120

/-- `#define IRIS_MAX 720` (iris size in darkest light). -/
def IRIS_MAX : Nat := 720

/-- Number of entries of `eyeInfo[]` in `config.h` (left and right eye). -/
def NUM_EYES : Nat := 2

/-! ## Display calls made by the renderer -/

/-- Calls that `drawEye` makes on `g_eye[e].display`. -/
inductive DisplayCall where
  | setAddrWindow (e x0 y0 x1 y1 : Nat)
  | pushColor (e color : Nat)
  deriving DecidableEq, Repr

/-! ## drawEye -/

/-- `uint8_t irisThreshold = (128 * (1023 - iScale) + 512) / 1024;`
(`int` arithmetic, division truncating toward zero, stored in 8 bits). -/
def irisThreshold (iScale : Nat) : Nat :=
  wrapU 8 (Int.tdiv (128 * (1023 - (iScale : Int)) + 512) 1024)

/-- `uint32_t irisScale = IRIS_MAP_HEIGHT * 65536 / irisThreshold;`
for a non-zero divisor. -/
def irisScaleOf (g : Graphics) (irisThreshold : Nat) : Nat :=
  (g.IRIS_MAP_HEIGHT * 65536 / irisThreshold) % 2 ^ 32

/-- Body of the inner loop of `drawEye`: the value of `p` handed to
`pushColor` for the current loop variables. -/
def pixel (g : Graphics) (irisThreshold irisScale uT lT : Nat)
    (screenX screenY scleraX scleraY : Nat) (irisX irisY : Int) : Nat :=
  if (g.lower screenY screenX).val ≤ lT ∨ (g.upper screenY screenX).val ≤ uT then
    0
  else if irisY < 0 ∨ irisY ≥ (g.IRIS_HEIGHT : Int) ∨
      irisX < 0 ∨ irisX ≥ (g.IRIS_WIDTH : Int) then
    (g.sclera scleraY scleraX).val
  else
    let p := (g.polar irisY.toNat irisX.toNat).val
    let d := p &&& 0x7F
    if d < irisThreshold then
      let d := (d * irisScale) % 2 ^ 32 / 65536
      let a := ((g.IRIS_MAP_WIDTH * (p >>> 7)) / 512) % 65536
      (g.iris d a).val
    else
      (g.sclera scleraY scleraX).val

/-- Inner loop of `drawEye`
(`for(screenX=SCREEN_X_START; screenX<SCREEN_X_END; screenX++, scleraX++, irisX++)`).
`screenX` and `scleraX` are `uint8_t`, `irisX` is `int16_t`. The loop has
at most 256 distinct counter values, so `fuel` bounds the iterations and
`none` stands for a loop that never exits. -/
def drawColumns (g : Graphics) (e irisThreshold irisScale uT lT : Nat)
    (screenY scleraY : Nat) (irisY : Int) :
    Nat → Nat → Nat → Int → Option (List DisplayCall)
  | 0, _, _, _ => none
  | fuel + 1, screenX, scleraX, irisX =>
    if screenX < SCREEN_X_END g then
      (drawColumns g e irisThreshold irisScale uT lT screenY scleraY irisY fuel
          ((screenX + 1) % 256) ((scleraX + 1) % 256) (wrapS16 (irisX + 1))).map
        (fun rest =>
          DisplayCall.pushColor e
            (pixel g irisThreshold irisScale uT lT screenX screenY scleraX scleraY
              irisX irisY) :: rest)
    else some []

/-- Outer loop of `drawEye`
(`for(screenY=SCREEN_Y_START; screenY<SCREEN_Y_END; screenY++, scleraY++, irisY++)`). -/
def drawRows (g : Graphics) (e irisThreshold irisScale uT lT : Nat)
    (scleraXsave : Nat) :
    Nat → Nat → Nat → Int → Option (List DisplayCall)
  | 0, _, _, _ => none
  | fuel + 1, screenY, scleraY, irisY =>
    if screenY < SCREEN_Y_END g then
      let scleraX := scleraXsave
      let irisX := wrapS16 ((scleraXsave : Int) -
        Int.tdiv ((g.SCLERA_WIDTH : Int) - (g.IRIS_WIDTH : Int)) 2)
      match drawColumns g e irisThreshold irisScale uT lT screenY scleraY irisY 257
          SCREEN_X_START scleraX irisX with
      | none => none
      | some row =>
        (drawRows g e irisThreshold irisScale uT lT scleraXsave fuel
            ((screenY + 1) % 256) ((scleraY + 1) % 256) (wrapS16 (irisY + 1))).map
          (fun rest => row ++ rest)
    else some []

/-- `static void drawEye(uint8_t e, uint16_t iScale, uint8_t scleraX,
uint8_t scleraY, uint8_t uT, uint8_t lT)`: the sequence of display calls of
one rendered frame. Arguments are reduced to the width of their parameter
type on entry. The result is `none` when `irisThreshold` is zero (the division
computing `irisScale` is then undefined) or when a loop does not exit. -/
def drawEye (g : Graphics) (e iScale scleraX scleraY uT lT : Nat) :
    Option (List DisplayCall) :=
  let e := e % 256
  let iScale := iScale % 65536
  let scleraX := scleraX % 256
  let scleraY := scleraY % 256
  let uT := uT % 256
  let lT := lT % 256
  let irisThreshold := irisThreshold iScale
  if irisThreshold = 0 then none
  else
    let irisScale := irisScaleOf g irisThreshold
    let window := DisplayCall.setAddrWindow e 0 0
      (wrapU 16 ((g.SCREEN_WIDTH : Int) - 1)) (wrapU 16 ((g.SCREEN_HEIGHT : Int) - 1))
    let scleraXsave := (scleraX + SCREEN_X_START) % 256
    let irisY := wrapS16 ((scleraY : Int) -
      Int.tdiv ((g.SCLERA_HEIGHT : Int) - (g.IRIS_HEIGHT : Int)) 2)
    (drawRows g e irisThreshold irisScale uT lT scleraXsave 257
        SCREEN_Y_START scleraY irisY).map
      (fun pixels => window :: pixels)

/-! ## Closed forms of the loop variables of drawEye -/

/-- Value of the `uint8_t` counter `scleraX` at screen column `x`. -/
def scleraXAt (scleraX x : Nat) : Nat := (scleraX + x) % 256

/-- Value of the `uint8_t` counter `scleraY` at screen row `y`. -/
def scleraYAt (scleraY y : Nat) : Nat := (scleraY + y) % 256

/-- Value of the `int16_t` counter `irisX` at screen column `x`. -/
def irisXAt (g : Graphics) (scleraX x : Nat) : Int :=
  wrapS16 (((scleraX % 256 : Nat) : Int) -
    Int.tdiv ((g.SCLERA_WIDTH : Int) - (g.IRIS_WIDTH : Int)) 2 + (x : Int))

/-- Value of the `int16_t` counter `irisY` at screen row `y`. -/
def irisYAt (g : Graphics) (scleraY y : Nat) : Int :=
  wrapS16 (((scleraY % 256 : Nat) : Int) -
    Int.tdiv ((g.SCLERA_HEIGHT : Int) - (g.IRIS_HEIGHT : Int)) 2 + (y : Int))

/-- Colour selected by `drawEye` for screen position `(x, y)`: the loop body
at the values the loop variables have there. -/
def colourAt (g : Graphics) (iScale scleraX scleraY uT lT x y : Nat) : Nat :=
  pixel g (irisThreshold (iScale % 65536))
    (irisScaleOf g (irisThreshold (iScale % 65536))) (uT % 256) (lT % 256)
    x y (scleraXAt scleraX x) (scleraYAt scleraY y)
    (irisXAt g scleraX x) (irisYAt g scleraY y)

/-- Small graphics set used to evaluate the definitions on concrete inputs. -/
def demoGraphics : Graphics :=
  { SCREEN_WIDTH := 2, SCREEN_HEIGHT := 2, SCLERA_WIDTH := 4, SCLERA_HEIGHT := 4,
    IRIS_WIDTH := 2, IRIS_HEIGHT := 2, IRIS_MAP_WIDTH := 4, IRIS_MAP_HEIGHT := 4,
    sclera := fun r c => ⟨(10 * r + c) % 65536, Nat.mod_lt _ (by decide)⟩,
    iris := fun r c => ⟨(1000 + 10 * r + c) % 65536, Nat.mod_lt _ (by decide)⟩,
    polar := fun r c => ⟨(128 * r + c) % 65536, Nat.mod_lt _ (by decide)⟩,
    upper := fun _ _ => 255,
    lower := fun _ _ => 255 }

/-- Polar value `p = polar[irisY][irisX]` read at screen position `(x, y)`. -/
def polarAt (g : Graphics) (scleraX scleraY x y : Nat) : Nat :=
  (g.polar (irisYAt g scleraY y).toNat (irisXAt g scleraX x).toNat).val

/-- Graphics set with a 300x300 sclera map on a 128x128 screen; the sclera
table is 1 from column 256 on and 0 before. -/
def wideGraphics : Graphics :=
  { SCREEN_WIDTH := 128, SCREEN_HEIGHT := 128, SCLERA_WIDTH := 300, SCLERA_HEIGHT := 300,
    IRIS_WIDTH := 80, IRIS_HEIGHT := 80, IRIS_MAP_WIDTH := 256, IRIS_MAP_HEIGHT := 64,
    sclera := fun _ c => if c < 256 then 0 else 1,
    iris := fun _ _ => 7,
    polar := fun _ _ => 0,
    upper := fun _ _ => 255,
    lower := fun _ _ => 255 }

/-! ## Eye animation: state -/

/-- `const uint8_t ease[]`: ease in/out curve for eye movements, `3*t^2-2*t^3`. -/
def ease : List Nat := [
    0,  0,  0,  0,  0,  0,  0,  1,  1,  1,  1,  1,  2,  2,  2,  3,
    3,  3,  4,  4,  4,  5,  5,  6,  6,  7,  7,  8,  9,  9, 10, 10,
   11, 12, 12, 13, 14, 15, 15, 16, 17, 18, 18, 19, 20, 21, 22, 23,
   24, 25, 26, 27, 27, 28, 29, 30, 31, 33, 34, 35, 36, 37, 38, 39,
   40, 41, 42, 44, 45, 46, 47, 48, 50, 51, 52, 53, 54, 56, 57, 58,
   60, 61, 62, 63, 65, 66, 67, 69, 70, 72, 73, 74, 76, 77, 78, 80,
   81, 83, 84, 85, 87, 88, 90, 91, 93, 94, 96, 97, 98,100,101,103,
  104,106,107,109,110,112,113,115,116,118,119,121,122,124,125,127,
  128,130,131,133,134,136,137,139,140,142,143,145,146,148,149,151,
  152,154,155,157,158,159,161,162,164,165,167,168,170,171,172,174,
  175,177,178,179,181,182,183,185,186,188,189,190,192,193,194,195,
  197,198,199,201,202,203,204,205,207,208,209,210,211,213,214,215,
  216,217,218,219,220,221,222,224,225,226,227,228,228,229,230,231,
  232,233,234,235,236,237,237,238,239,240,240,241,242,243,243,244,
  245,245,246,246,247,248,248,249,249,250,250,251,251,251,252,252,
  252,253,253,253,254,254,254,254,254,255,255,255,255,255,255,255 ]

/-- Read of `ease[i]` for an `int` index; `none` outside the table. -/
def easeAt (i : Int) : Option Nat :=
  if 0 ≤ i then ease[i.toNat]? else none

/-- `#define NOBLINK 0`: not currently engaged in a blink. -/
def NOBLINK : Nat := 0

/-- `#define ENBLINK 1`: eyelid is currently closing. -/
def ENBLINK : Nat := 1

/-- `#define DEBLINK 2`: eyelid is currently opening. -/
def DEBLINK : Nat := 2

/-- `typedef struct { uint8_t state; uint32_t duration; uint32_t startTime; } eyeBlink;` -/
structure EyeBlink where
  state : Nat
  duration : Nat
  startTime : Nat
  deriving DecidableEq, Repr

/-- Globals and function-local statics read and written by `frame`. `blink e`
is `g_eye[e].blink`. -/
structure AnimState where
  frames : Nat
  eyeIndex : Nat
  eyeInMotion : Bool
  eyeOldX : Int
  eyeOldY : Int
  eyeNewX : Int
  eyeNewY : Int
  eyeMoveStartTime : Nat
  eyeMoveDuration : Int
  timeOfLastBlink : Nat
  timeToNextBlink : Nat
  blink : Nat → EyeBlink
  uThreshold : Nat

/-- State after `setup()`: the static initialisers of `frame`, zero-initialised
globals, and `g_eye[e].blink.state = NOBLINK`. -/
def AnimState.init : AnimState :=
  { frames := 0, eyeIndex := 0, eyeInMotion := false,
    eyeOldX := 512, eyeOldY := 512, eyeNewX := 512, eyeNewY := 512,
    eyeMoveStartTime := 0, eyeMoveDuration := 0,
    timeOfLastBlink := 0, timeToNextBlink := 0,
    blink := fun _ => { state := NOBLINK, duration := 0, startTime := 0 },
    uThreshold := 128 }

/-- Arguments of one `drawEye(e, iScale, scleraX, scleraY, uT, lT)` call. -/
structure DrawArgs where
  e : Nat
  iScale : Nat
  scleraX : Nat
  scleraY : Nat
  uT : Nat
  lT : Nat
  deriving DecidableEq, Repr

/-! ## Eye animation: frame -/

/-- `static int map(int val, int fromLow, int fromHigh, int toLow, int toHigh)`;
callers pass `fromHigh ≠ fromLow` (1023 and 0 in `frame`). -/
def map (val fromLow fromHigh toLow toHigh : Int) : Int :=
  Int.tdiv ((val - fromLow) * (toHigh - toLow)) (fromHigh - fromLow) + toLow

/-- The `do { ... } while(d > 1023 * 1023)` loop of `frame` that picks a new
destination in the circle. Each round takes two values of `rand()`; `none`
when the supplied values run out before a point is accepted. -/
def pickTarget : List Nat → Option (Int × Int × List Nat)
  | rx :: ry :: rands =>
    let eyeNewX : Int := ((rx % 1024 : Nat) : Int)
    let eyeNewY : Int := ((ry % 1024 : Nat) : Int)
    let dx := wrapS16 (eyeNewX * 2 - 1023)
    let dy := wrapS16 (eyeNewY * 2 - 1023)
    let d := wrapU 32 (dx * dx + dy * dy)
    if d > 1023 * 1023 then pickTarget rands
    else some (eyeNewX, eyeNewY, rands)
  | _ => none

/-- Autonomous X/Y eye motion block of `frame`: returns the updated statics,
the unused `rand()` values and the local `eyeX`, `eyeY`. `none` when `rand()`
values run out, on a division by a zero `eyeMoveDuration`, or on a read outside
`ease`. -/
def gazeStep (st : AnimState) (rands : List Nat) (t : Nat) :
    Option (AnimState × List Nat × Int × Int) :=
  let dt := wrapS32 ((t : Int) - (st.eyeMoveStartTime : Int))
  if st.eyeInMotion then
    if dt ≥ st.eyeMoveDuration then
      match rands with
      | [] => none
      | r :: rands =>
        some ({ st with
                eyeInMotion := false
                eyeMoveDuration := ((r % 3000000 : Nat) : Int)
                eyeMoveStartTime := t
                eyeOldX := st.eyeNewX
                eyeOldY := st.eyeNewY },
              rands, st.eyeNewX, st.eyeNewY)
    else if st.eyeMoveDuration = 0 then none
    else
      match easeAt (Int.tdiv (wrapS32 (255 * dt)) st.eyeMoveDuration) with
      | none => none
      | some v =>
        let e := wrapS16 ((v : Int) + 1)
        let eyeX := wrapS16 (st.eyeOldX + Int.tdiv ((st.eyeNewX - st.eyeOldX) * e) 256)
        let eyeY := wrapS16 (st.eyeOldY + Int.tdiv ((st.eyeNewY - st.eyeOldY) * e) 256)
        some (st, rands, eyeX, eyeY)
  else
    if dt > st.eyeMoveDuration then
      match pickTarget rands with
      | none => none
      | some (eyeNewX, eyeNewY, rands) =>
        match rands with
        | [] => none
        | r :: rands =>
          some ({ st with
                  eyeNewX := eyeNewX
                  eyeNewY := eyeNewY
                  eyeMoveDuration := ((r % (144000 - 72000) + 72000 : Nat) : Int)
                  eyeMoveStartTime := t
                  eyeInMotion := true },
                rands, st.eyeOldX, st.eyeOldY)
    else some (st, rands, st.eyeOldX, st.eyeOldY)

/-- Body of `for(uint8_t e=0; e<NUM_EYES; e++)` in the autoblink block. -/
def startBlink (t blinkDuration : Nat) (blink : Nat → EyeBlink) (e : Nat) : Nat → EyeBlink :=
  if (blink e).state = NOBLINK then
    Function.update blink e { state := ENBLINK, duration := blinkDuration, startTime := t }
  else blink

/-- The `#ifdef AUTOBLINK` block of `frame` (`AUTOBLINK` is defined in
`config.h`). -/
def blinkTrigger (st : AnimState) (rands : List Nat) (t : Nat) :
    Option (AnimState × List Nat) :=
  if wrapU 32 ((t : Int) - (st.timeOfLastBlink : Int)) ≥ st.timeToNextBlink then
    match rands with
    | r1 :: r2 :: rands =>
      let blinkDuration := r1 % (72000 - 36000) + 36000
      some ({ st with
              timeOfLastBlink := t
              blink := (List.range NUM_EYES).foldl (startBlink t blinkDuration) st.blink
              timeToNextBlink := (blinkDuration * 3 + r2 % 4000000) % 2 ^ 32 },
            rands)
    | _ => none
  else some (st, rands)

/-- The `if(g_eye[eyeIndex].blink.state) { ... }` block of `frame` that
advances the blink state of the eye being rendered. -/
def blinkAdvance (st : AnimState) (t : Nat) : AnimState :=
  let b := st.blink st.eyeIndex
  if b.state ≠ 0 then
    if wrapU 32 ((t : Int) - (b.startTime : Int)) ≥ b.duration then
      let state := (b.state + 1) % 256
      let idle : EyeBlink := { b with state := NOBLINK }
      let next : EyeBlink :=
        { state := state, duration := (b.duration * 2) % 2 ^ 32, startTime := t }
      if state > DEBLINK then
        { st with blink := Function.update st.blink st.eyeIndex idle }
      else
        { st with blink := Function.update st.blink st.eyeIndex next }
    else st
  else st

/-- Mounting correction for eye 1, scaling of the gaze (0-1023) to sclera pixel
units, mirroring of eye 1 and the final clamp of `eyeX` in `frame`. -/
def gazeToSclera (g : Graphics) (eyeIndex : Nat) (eyeX eyeY : Int) : Int × Int :=
  let adjusted : Int × Int :=
    if eyeIndex = 1 then
      let eyeX := wrapS16 (eyeX - 128)
      let eyeY := wrapS16 (eyeY + 224)
      let eyeX := if eyeX > 1023 then 1023 else eyeX
      let eyeX := if eyeX < 0 then 0 else eyeX
      let eyeY := if eyeY > 1023 then 1023 else eyeY
      let eyeY := if eyeY < 0 then 0 else eyeY
      (eyeX, eyeY)
    else (eyeX, eyeY)
  let eyeX := wrapS16 (map adjusted.1 0 1023 0 ((g.SCLERA_WIDTH : Int) - 128))
  let eyeY := wrapS16 (map adjusted.2 0 1023 0 ((g.SCLERA_HEIGHT : Int) - 128))
  let eyeX := if eyeIndex = 1 then wrapS16 (((g.SCLERA_WIDTH : Int) - 128) - eyeX) else eyeX
  let eyeX := if eyeX > (g.SCLERA_WIDTH : Int) - 128 then
    wrapS16 ((g.SCLERA_WIDTH : Int) - 128) else eyeX
  (eyeX, eyeY)

/-- The `#ifdef TRACKING` block of `frame` (`TRACKING` is defined in
`config.h`): the new `uThreshold` and the nominal `lThreshold`. Table reads
use the non-negative part of an index. -/
def trackLids (g : Graphics) (uThreshold : Nat) (eyeX eyeY : Int) : Nat × Nat :=
  let sampleX := wrapS16 (Int.tdiv (g.SCLERA_WIDTH : Int) 2 - Int.tdiv eyeX 2)
  let sampleY := wrapS16 (Int.tdiv (g.SCLERA_HEIGHT : Int) 2 -
    (eyeY + Int.tdiv (g.IRIS_HEIGHT : Int) 4))
  let n : Nat :=
    if sampleY < 0 then 0
    else ((g.upper sampleY.toNat sampleX.toNat).val +
      (g.upper sampleY.toNat ((g.SCREEN_WIDTH : Int) - 1 - sampleX).toNat).val) / 2 % 256
  let uThreshold := (uThreshold * 3 + n) / 4 % 256
  let lThreshold := wrapU 8 (254 - (uThreshold : Int))
  (uThreshold, lThreshold)

/-- Scaling of the thresholds relative to the current blink position at the end
of `frame`: the values `n` and `lThreshold` passed to `drawEye`. -/
def blinkBlend (b : EyeBlink) (t uThreshold lThreshold : Nat) : Nat × Nat :=
  if b.state ≠ 0 then
    let s : Nat := wrapU 32 ((t : Int) - (b.startTime : Int))
    let s : Nat := if s ≥ b.duration then 255 else (255 * s) % 2 ^ 32 / b.duration
    let s : Nat := if b.state = DEBLINK then (1 + s) % 2 ^ 32 else wrapU 32 (256 - (s : Int))
    let n : Nat := wrapU 32 ((uThreshold : Int) * (s : Int) + 254 * (257 - (s : Int))) / 256 % 256
    let lThreshold : Nat :=
      wrapU 32 ((lThreshold : Int) * (s : Int) + 254 * (257 - (s : Int))) / 256 % 256
    (n, lThreshold)
  else (uThreshold, lThreshold)

/-- Start of `frame`: `++frames` and
`if(++eyeIndex >= NUM_EYES) eyeIndex = 0;` (cycle through eyes, one per call). -/
def nextEye (st : AnimState) : AnimState :=
  { st with
    frames := (st.frames + 1) % 2 ^ 32
    eyeIndex := if (st.eyeIndex + 1) % 256 ≥ NUM_EYES then 0 else (st.eyeIndex + 1) % 256 }

/-- `static void frame(uint16_t iScale)`: one animation tick at timer reading
`t = g_timer.read_us()`, drawing values of `rand()` from `rands`. Returns the
updated state, the unused `rand()` values and the arguments of the single
`drawEye` call. The frame-rate `printf` is left out. -/
def frame (g : Graphics) (st : AnimState) (rands : List Nat) (t iScale : Nat) :
    Option (AnimState × List Nat × DrawArgs) :=
  let t := t % 2 ^ 32
  let iScale := iScale % 65536
  let st := nextEye st
  match gazeStep st rands t with
  | none => none
  | some (st, rands, eyeX, eyeY) =>
    match blinkTrigger st rands t with
    | none => none
    | some (st, rands) =>
      let st := blinkAdvance st t
      let eye := gazeToSclera g st.eyeIndex eyeX eyeY
      let lids := trackLids g st.uThreshold eye.1 eye.2
      let st := { st with uThreshold := lids.1 }
      let blend := blinkBlend (st.blink st.eyeIndex) t lids.1 lids.2
      some (st, rands,
        { e := st.eyeIndex, iScale := iScale, scleraX := wrapU 8 eye.1,
          scleraY := wrapU 8 eye.2, uT := blend.1, lT := blend.2 })

/-! ## Autonomous iris scaling -/

/-- Everything outside `split` that its run depends on: the animation state,
the values that successive `rand()` calls return and the values that
successive `g_timer.read_us()` calls return. -/
structure World where
  anim : AnimState
  rands : List Nat
  clock : List Nat

/-- One `frame(v)` call made by `split`: the iris value passed and the
`drawEye` arguments of that frame (`none` if the frame did not complete). -/
structure FrameCall where
  iScale : Int
  draw : Option DrawArgs
  deriving DecidableEq, Repr

/-- Interim value `v` of the leaf loop of `split`, after the clip to
`[IRIS_MIN, IRIS_MAX]`, for `duration ≠ 0`. -/
def leafValue (startValue endValue dt duration : Int) : Int :=
  let v := wrapS16 (startValue + Int.tdiv (wrapS32 ((endValue - startValue) * dt)) duration)
  if v < (IRIS_MIN : Int) then (IRIS_MIN : Int)
  else if v > (IRIS_MAX : Int) then (IRIS_MAX : Int)
  else v

/-- The `else` branch of `split` (no more subdivisions):
`while((dt = (g_timer.read_us() - startTime)) < duration) { ... frame(v); }`.
Every round takes one timer reading for the loop test and one inside `frame`.
The outcome is `none` when the timer readings run out, on a division by a zero
`duration`, or when `frame` does not complete. -/
def splitLeaf (g : Graphics) (startValue endValue : Int) (startTime : Nat) (duration : Int) :
    List Nat → AnimState → List Nat → List FrameCall × Option World
  | [], _, _ => ([], none)
  | [c1], anim, rands =>
    let dt := wrapS32 (((c1 % 2 ^ 32 : Nat) : Int) - (startTime : Int))
    if dt < duration then
      if duration = 0 then ([], none)
      else ([{ iScale := leafValue startValue endValue dt duration, draw := none }], none)
    else ([], some { anim := anim, rands := rands, clock := [] })
  | c1 :: c2 :: clock, anim, rands =>
    let dt := wrapS32 (((c1 % 2 ^ 32 : Nat) : Int) - (startTime : Int))
    if dt < duration then
      if duration = 0 then ([], none)
      else
        let v := leafValue startValue endValue dt duration
        match frame g anim rands c2 (wrapU 16 v) with
        | none => ([{ iScale := v, draw := none }], none)
        | some (anim, rands, args) =>
          let rest := splitLeaf g startValue endValue startTime duration clock anim rands
          ({ iScale := v, draw := some args } :: rest.1, rest.2)
    else ([], some { anim := anim, rands := rands, clock := c2 :: clock })

/-- Random centre point of a subdivision:
`(startValue + endValue - range) / 2 + rand() % range`, stored in `int16_t`. -/
def midValue (startValue endValue range : Int) (r : Nat) : Int :=
  wrapS16 (Int.tdiv (startValue + endValue - range) 2 + Int.tmod (r : Int) range)

/-- `void split(int16_t startValue, int16_t endValue, uint32_t startTime,
int32_t duration, int16_t range)`: the `frame` calls made, in order, and the
world afterwards. The first argument bounds the recursion depth. -/
def split (g : Graphics) :
    Nat → Int → Int → Nat → Int → Int → World → List FrameCall × Option World
  | 0, _, _, _, _, _, _ => ([], none)
  | fuel + 1, startValue, endValue, startTime, duration, range, w =>
    if range ≥ 8 then
      let range := wrapS16 (Int.tdiv range 2)
      let duration := Int.tdiv duration 2
      match w.rands with
      | [] => ([], none)
      | r :: rands =>
        let midValue := midValue startValue endValue range r
        let midTime := wrapU 32 ((startTime : Int) + duration)
        let first := split g fuel startValue midValue startTime duration range
          { w with rands := rands }
        match first.2 with
        | none => first
        | some w1 =>
          let second := split g fuel midValue endValue midTime duration range w1
          (first.1 ++ second.1, second.2)
    else splitLeaf g startValue endValue startTime duration w.clock w.anim w.rands

/-- `uint16_t oldIris = (IRIS_MIN + IRIS_MAX) / 2` before the first `loop()`. -/
def oldIrisInit : Nat := (IRIS_MIN + IRIS_MAX) / 2

/-- `void loop()` in the autonomous configuration (`LIGHT_PIN` undefined):
picks `newIris`, runs `split(oldIris, newIris, g_timer.read_us(), 10000000L,
IRIS_MAX - IRIS_MIN)` and returns the `frame` calls with the new `oldIris`. -/
def loop (g : Graphics) (oldIris : Nat) (w : World) : List FrameCall × Option (Nat × World) :=
  match w.rands, w.clock with
  | r :: rands, c :: clock =>
    let newIris := (r % (IRIS_MAX - IRIS_MIN) + IRIS_MIN) % 65536
    let run := split g 16 (wrapS16 oldIris) (wrapS16 newIris) (c % 2 ^ 32) 10000000
      (wrapS16 ((IRIS_MAX : Int) - (IRIS_MIN : Int))) { w with rands := rands, clock := clock }
    (run.1, run.2.map (fun w => (newIris, w)))
  | _, _ => ([], none)

/-- A short `split` run: start value 100 (below `IRIS_MIN`), end value 900
(above `IRIS_MAX`), one subdivision. -/
def demoSplit : List FrameCall × Option World :=
  split demoGraphics 3 100 900 0 100 8
    { anim := AnimState.init, rands := [3, 1, 2, 5, 6, 7, 8, 9, 10],
      clock := [0, 0, 10, 11, 49, 50, 60, 60, 70, 70, 99, 100, 120] }

/-- First `frame` call of `demoSplit`: the start value 100 clipped to 120. -/
def demoCall : FrameCall :=
  ⟨120, some ⟨1, 120, 132, 167, 159, 95⟩⟩

/-! ## Reachable animation states -/

/-- States that `frame` can be in: the state after `setup()` and every state
that a completed tick leads to, for any timer readings, `rand()` values and
iris scales. -/
inductive Reachable (g : Graphics) : AnimState → Prop where
  | init : Reachable g AnimState.init
  | tick {st st' : AnimState} {rands rands' : List Nat} {t iScale : Nat} {args : DrawArgs} :
      Reachable g st → frame g st rands t iScale = some (st', rands', args) →
      Reachable g st'

/-- A gaze point lies in the square `0..1023` and passes the circle test of
the rejection loop. -/
def inDisk (x y : Int) : Prop :=
  0 ≤ x ∧ x ≤ 1023 ∧ 0 ≤ y ∧ y ≤ 1023 ∧
    (2 * x - 1023) ^ 2 + (2 * y - 1023) ^ 2 ≤ 1023 ^ 2

/-- Successor in the blink cycle NOBLINK -> ENBLINK -> DEBLINK -> NOBLINK. -/
def blinkSucc (state : Nat) : Nat :=
  if state = NOBLINK then ENBLINK else if state = ENBLINK then DEBLINK else NOBLINK

/-- A first tick after `setup()` at `t = 10`: the gaze picks the target
`(300, 700)` and the autoblink trigger fires. -/
def demoTick : Option (AnimState × List Nat × DrawArgs) :=
  frame demoGraphics AnimState.init [300, 700, 5, 1, 2] 10 420

/-- State after `demoTick`. -/
def demoState : AnimState :=
  match demoTick with
  | some r => r.1
  | none => AnimState.init

/-! ## SSD1351 driver: colours -/

/-- `#define TFT_WHITE 0xFFFF` -/
def TFT_WHITE : Nat := 0xFFFF

/-- `#define TFT_RED 0xF800` -/
def TFT_RED : Nat := 0xF800

/-- `#define TFT_GREEN 0x07E0` -/
def TFT_GREEN : Nat := 0x07E0

/-- `#define TFT_BLUE 0x001F` -/
def TFT_BLUE : Nat := 0x001F

/-- `#define RGBto565(r,g,b) ((((r) & 0xF8) << 8) | (((g) & 0xFC) << 3) | ((b) >> 3))`
on non-negative `int` operands. -/
def RGBto565 (r g b : Nat) : Nat :=
  (((r &&& 0xF8) <<< 8) ||| ((g &&& 0xFC) <<< 3)) ||| (b >>> 3)

/-- `uint16_t SSD1351::Color565(uint8_t r, uint8_t g, uint8_t b)`:
`return ((r & 0xF8) << 8) | ((g & 0xFC) << 3) | (b >> 3);` with the arguments
reduced to 8 bits and the result to 16 bits. -/
def Color565 (r g b : Nat) : Nat :=
  let r := r % 256
  let g := g % 256
  let b := b % 256
  ((((r &&& 0xF8) <<< 8) ||| ((g &&& 0xFC) <<< 3)) ||| (b >>> 3)) % 65536

/-! ## SSD1351 driver: transport and drawing -/

/-- One byte sent over SPI: with the D/C line low (`writeCmd`) or high
(`writeData`, and the pixel bytes written under `DC_DATA`). -/
inductive SpiByte where
  | command (c : Nat)
  | data (d : Nat)
  deriving DecidableEq, Repr

/-- Members of `Adafruit_GFX` that the driver reads and writes: the native
size `WIDTH`, `HEIGHT`, the logical size `_width`, `_height` (all `int16_t`)
and `rotation` (`uint8_t`). -/
structure Display where
  WIDTH : Int
  HEIGHT : Int
  _width : Int
  _height : Int
  rotation : Nat
  deriving DecidableEq, Repr

/-- Display object as `setup()` creates and initialises it:
`SSD1351(OLED_WIDTH, OLED_HEIGHT, ...)` with `OLED_WIDTH = OLED_HEIGHT = 128`,
rotation 0. -/
def oled : Display :=
  { WIDTH := 128, HEIGHT := 128, _width := 128, _height := 128, rotation := 0 }

/-- `#define SSD1351_CMD_SETCOLUMN 0x15` -/
def SSD1351_CMD_SETCOLUMN : Nat := 0x15

/-- `#define SSD1351_CMD_SETROW 0x75` -/
def SSD1351_CMD_SETROW : Nat := 0x75

/-- `#define SSD1351_CMD_WRITERAM 0x5C` -/
def SSD1351_CMD_WRITERAM : Nat := 0x5C

/-- `void SSD1351::writeCmd(uint8_t c)` -/
def writeCmd (c : Nat) : List SpiByte := [SpiByte.command (c % 256)]

/-- `void SSD1351::writeData(uint8_t d)` -/
def writeData (d : Nat) : List SpiByte := [SpiByte.data (d % 256)]

/-- `void SSD1351::setAddrWindow(uint16_t x1, uint16_t y1, uint16_t x2, uint16_t y2)` -/
def setAddrWindow (d : Display) (x1 y1 x2 y2 : Nat) : List SpiByte :=
  let x1 := x1 % 65536
  let y1 := y1 % 65536
  let x2 := x2 % 65536
  let y2 := y2 % 65536
  let swap := d.rotation &&& 1 ≠ 0
  let cx1 := if swap then y1 else x1
  let cy1 := if swap then x1 else y1
  let cx2 := if swap then y2 else x2
  let cy2 := if swap then x2 else y2
  writeCmd SSD1351_CMD_SETCOLUMN ++ writeData cx1 ++ writeData cx2 ++
    writeCmd SSD1351_CMD_SETROW ++ writeData cy1 ++ writeData cy2 ++
    writeCmd SSD1351_CMD_WRITERAM

/-- `while(n--) { writeSPI(hi); writeSPI(lo); }` -/
def writePixels (hi lo : Nat) : Nat → List SpiByte
  | 0 => []
  | n + 1 => SpiByte.data hi :: SpiByte.data lo :: writePixels hi lo n

/-- `while(n--) { ... }` with the pixel write unrolled 8 times in the body. -/
def writePixels8 (hi lo : Nat) : Nat → List SpiByte
  | 0 => []
  | n + 1 => writePixels hi lo 8 ++ writePixels8 hi lo n

/-- `while(n--) { ... }` with the pixel write unrolled 16 times in the body. -/
def writePixels16 (hi lo : Nat) : Nat → List SpiByte
  | 0 => []
  | n + 1 => writePixels hi lo 16 ++ writePixels16 hi lo n

/-- `void SSD1351::fillRect(int16_t x, int16_t y, int16_t w, int16_t h, uint16_t color)`:
the bytes transmitted. -/
def fillRect (d : Display) (x y w h : Int) (color : Nat) : List SpiByte :=
  let x := wrapS16 x
  let y := wrapS16 y
  let w := wrapS16 w
  let h := wrapS16 h
  let color := color % 65536
  if x ≥ d._width ∨ y ≥ d._height ∨ w ≤ 0 ∨ h ≤ 0 then []
  else
    let w := if x + w - 1 ≥ d._width then wrapS16 (d._width - x) else w
    let h := if y + h - 1 ≥ d._height then wrapS16 (d._height - y) else h
    let hi := (color >>> 8) % 256
    let lo := color % 256
    let num := wrapU 32 (w * h)
    let num16 := (num >>> 4) % 65536
    let num8 := (num &&& 0xf) % 256
    setAddrWindow d (wrapU 16 x) (wrapU 16 y) (wrapU 16 (x + w - 1)) (wrapU 16 (y + h - 1)) ++
      writePixels16 hi lo num16 ++ writePixels hi lo num8

/-- `void SSD1351::drawFastVLine(int16_t x, int16_t y, int16_t h, uint16_t color)`:
the bytes transmitted. -/
def drawFastVLine (d : Display) (x y h : Int) (color : Nat) : List SpiByte :=
  let x := wrapS16 x
  let y := wrapS16 y
  let h := wrapS16 h
  let color := color % 65536
  if x ≥ d._width ∨ y ≥ d._height ∨ h ≤ 0 then []
  else
    let h := if y + h - 1 ≥ d._height then wrapS16 (d._height - y) else h
    let hi := (color >>> 8) % 256
    let lo := color % 256
    let num8 := wrapU 8 (h / 8)
    let rest := wrapU 8 h &&& 7
    setAddrWindow d (wrapU 16 x) (wrapU 16 y) (wrapU 16 x) (wrapU 16 (y + h - 1)) ++
      writePixels8 hi lo num8 ++ writePixels hi lo rest

/-- `void SSD1351::drawFastHLine(int16_t x, int16_t y, int16_t w, uint16_t color)`:
the bytes transmitted. -/
def drawFastHLine (d : Display) (x y w : Int) (color : Nat) : List SpiByte :=
  let x := wrapS16 x
  let y := wrapS16 y
  let w := wrapS16 w
  let color := color % 65536
  if x ≥ d._width ∨ y ≥ d._height ∨ w ≤ 0 then []
  else
    let w := if x + w - 1 ≥ d._width then wrapS16 (d._width - x) else w
    let hi := (color >>> 8) % 256
    let lo := color % 256
    let num8 := wrapU 8 (w / 8)
    let rest := wrapU 8 w &&& 7
    setAddrWindow d (wrapU 16 x) (wrapU 16 y) (wrapU 16 (x + w - 1)) (wrapU 16 y) ++
      writePixels8 hi lo num8 ++ writePixels hi lo rest

/-- State after a tick, or the initial state if the tick did not complete. -/
def tickState (r : Option (AnimState × List Nat × DrawArgs)) : AnimState :=
  match r with
  | some x => x.1
  | none => AnimState.init

/-- A second tick after `demoTick`, at `t = 40000`: eye 0 is rendered and its
closing time (36001 since `t = 10`) has elapsed. -/
def demoTick2 : Option (AnimState × List Nat × DrawArgs) :=
  frame demoGraphics demoState [] 40000 420

/-- State after `demoTick2`. -/
def demoState2 : AnimState := tickState demoTick2

/-- States reached by exactly `n` completed frame ticks after `setup()`. -/
inductive ReachableIn (g : Graphics) : Nat → AnimState → Prop where
  | init : ReachableIn g 0 AnimState.init
  | tick {n : Nat} {st st' : AnimState} {rands rands' : List Nat} {t iScale : Nat}
      {args : DrawArgs} :
      ReachableIn g n st → frame g st rands t iScale = some (st', rands', args) →
      ReachableIn g (n + 1) st'

/-- Scenario run from the state after `setup()`: tick at `t = 0` (eye 1; the
autoblink trigger fires and chooses `14000 % 36000 + 36000 = 50000`). -/
def scenTick0 : Option (AnimState × List Nat × DrawArgs) :=
  frame demoGraphics AnimState.init [14000, 7] 0 420

/-- Scenario run: tick of eye 0 at `t = 25000`. -/
def scenTick1 : Option (AnimState × List Nat × DrawArgs) :=
  frame demoGraphics (tickState scenTick0) [300, 700, 5] 25000 420

/-- Scenario run: tick of eye 1 at `t = 30000`. -/
def scenTick2 : Option (AnimState × List Nat × DrawArgs) :=
  frame demoGraphics (tickState scenTick1) [] 30000 420

/-- Scenario run: tick of eye 0 at `t = 50001`. -/
def scenTick3 : Option (AnimState × List Nat × DrawArgs) :=
  frame demoGraphics (tickState scenTick2) [] 50001 420

/-- Scenario run: tick of eye 1 at `t = 100000`. -/
def scenTick4 : Option (AnimState × List Nat × DrawArgs) :=
  frame demoGraphics (tickState scenTick3) [9] 100000 420

/-- Scenario run: tick of eye 0 at `t = 150002`. -/
def scenTick5 : Option (AnimState × List Nat × DrawArgs) :=
  frame demoGraphics (tickState scenTick4) [400, 400, 6] 150002 420

/-- A first tick after `setup()` with the 300x300 sclera map of
`wideGraphics`, rendering eye 1 with the gaze at the centre `(512, 512)`. -/
def wideTick : Option (AnimState × List Nat × DrawArgs) :=
  frame wideGraphics AnimState.init [300, 700, 5, 1, 2] 10 420

/-- The first `n` rounds of `while(true) { loop(); }` in `main`: the `frame`
calls made, in order, and the value of `oldIris` and the world afterwards. -/
def mainLoop (g : Graphics) : Nat → Nat → World → List FrameCall × Option (Nat × World)
  | 0, oldIris, w => ([], some (oldIris, w))
  | n + 1, oldIris, w =>
    let first := loop g oldIris w
    match first.2 with
    | none => (first.1, none)
    | some next =>
      let rest := mainLoop g n next.1 next.2
      (first.1 ++ rest.1, rest.2)

/-- World of a short autonomous run: the timer reads 0 for the first frame and
jumps past the 10 s interval afterwards, so that one `loop()` round completes
after a single frame. -/
def demoWorld : World :=
  { anim := AnimState.init,
    rands := 100 :: List.replicate 200 3,
    clock := 0 :: 0 :: 0 :: List.replicate 200 20000000 }

/-- One call of `split` that makes no further subdivision (`range < 8`): its
arguments `startValue`, `endValue`, `startTime`, `duration`, and the number
of `split` calls that enclose it. -/
structure Segment where
  startValue : Int
  endValue : Int
  startTime : Nat
  duration : Int
  depth : Nat
  deriving DecidableEq, Repr

/-- `split` with a record of its leaf calls: the same recursion as `split`,
returning in addition the calls that take the `else` branch, in the order in
which they are made. `depth` is the number of enclosing `split` calls. -/
def splitLeaves (g : Graphics) :
    Nat → Nat → Int → Int → Nat → Int → Int → World →
      List Segment × List FrameCall × Option World
  | 0, _, _, _, _, _, _, _ => ([], [], none)
  | fuel + 1, depth, startValue, endValue, startTime, duration, range, w =>
    if range ≥ 8 then
      let range := wrapS16 (Int.tdiv range 2)
      let duration := Int.tdiv duration 2
      match w.rands with
      | [] => ([], [], none)
      | r :: rands =>
        let midValue := midValue startValue endValue range r
        let midTime := wrapU 32 ((startTime : Int) + duration)
        let first := splitLeaves g fuel (depth + 1) startValue midValue startTime duration range
          { w with rands := rands }
        match first.2.2 with
        | none => first
        | some w1 =>
          let second := splitLeaves g fuel (depth + 1) midValue endValue midTime duration range w1
          (first.1 ++ second.1, first.2.1 ++ second.2.1, second.2.2)
    else
      let leaf := splitLeaf g startValue endValue startTime duration w.clock w.anim w.rands
      ([{ startValue := startValue, endValue := endValue, startTime := startTime,
          duration := duration, depth := depth }], leaf.1, leaf.2)

/-- World in which `loop` calls `split` on `demoWorld`, after `loop` has taken
its value of `rand()` and its timer reading. -/
def demoSplitWorld : World :=
  { anim := AnimState.init,
    rands := List.replicate 200 3,
    clock := 0 :: 0 :: List.replicate 200 20000000 }

/-- `#define SSD1351_CMD_SETREMAP 0xA0` -/
def SSD1351_CMD_SETREMAP : Nat := 0xA0

/-- `#define SSD1351_CMD_STARTLINE 0xA1` -/
def SSD1351_CMD_STARTLINE : Nat := 0xA1

/-- Value of the local `madctl` of `setRotation` after its `switch (rotation)`:
`0b01100100` with the bits of the case taken. -/
def madctl (rotation : Nat) : Nat :=
  if rotation = 0 then 0b01100100 ||| 0b00010000
  else if rotation = 1 then 0b01100100 ||| 0b00010011
  else if rotation = 2 then 0b01100100 ||| 0b00000010
  else if rotation = 3 then 0b01100100 ||| 0b00000001
  else 0b01100100

/-- `void SSD1351::setRotation(uint8_t r)`: the display members afterwards and
the bytes transmitted. -/
def setRotation (d : Display) (r : Nat) : Display × List SpiByte :=
  let r := r % 256
  let rotation := (r &&& 3) % 256
  let size : Int × Int :=
    if rotation = 0 then (d.WIDTH, d.HEIGHT)
    else if rotation = 1 then (d.HEIGHT, d.WIDTH)
    else if rotation = 2 then (d.WIDTH, d.HEIGHT)
    else if rotation = 3 then (d.HEIGHT, d.WIDTH)
    else (d._width, d._height)
  let startline := wrapU 8 (if rotation < 2 then d.HEIGHT else 0)
  ({ d with rotation := rotation, _width := size.1, _height := size.2 },
    writeCmd SSD1351_CMD_SETREMAP ++ writeData (madctl rotation) ++
      writeCmd SSD1351_CMD_STARTLINE ++ writeData startline)

/-- `const uint8_t mirrorOLED[]` of `mirrorDisplay`. -/
def mirrorOLED : List Nat := [0b01110110, 0b01100111, 0b01100100, 0b01110101]

/-- `void SSD1351::mirrorDisplay(bool mirror)`: the display members afterwards
and the bytes transmitted; `none` on a read outside `mirrorOLED`. -/
def mirrorDisplay (d : Display) (mirror : Bool) : Option (Display × List SpiByte) :=
  if !mirror then some (setRotation d d.rotation)
  else
    match mirrorOLED[d.rotation]? with
    | none => none
    | some m => some (d, writeCmd SSD1351_CMD_SETREMAP ++ writeData m)

/-- `#define ST_CMD_DELAY 0x80`: if this bit is set in the argument count of
the init list then the last argument is the number of milliseconds to delay
after sending the command. -/
def ST_CMD_DELAY : Nat := 0x80

/-- `#define SSD1351_CMD_DISPLAYOFFSET 0xA2` -/
def SSD1351_CMD_DISPLAYOFFSET : Nat := 0xA2

/-- `#define SSD1351_CMD_NORMALDISPLAY 0xA6` -/
def SSD1351_CMD_NORMALDISPLAY : Nat := 0xA6

/-- `#define SSD1351_CMD_FUNCTIONSELECT 0xAB` -/
def SSD1351_CMD_FUNCTIONSELECT : Nat := 0xAB

/-- `#define SSD1351_CMD_DISPLAYOFF 0xAE` -/
def SSD1351_CMD_DISPLAYOFF : Nat := 0xAE

/-- `#define SSD1351_CMD_DISPLAYON 0xAF` -/
def SSD1351_CMD_DISPLAYON : Nat := 0xAF

/-- `#define SSD1351_CMD_PRECHARGE 0xB1` -/
def SSD1351_CMD_PRECHARGE : Nat := 0xB1

/-- `#define SSD1351_CMD_CLOCKDIV 0xB3` -/
def SSD1351_CMD_CLOCKDIV : Nat := 0xB3

/-- `#define SSD1351_CMD_SETVSL 0xB4` -/
def SSD1351_CMD_SETVSL : Nat := 0xB4

/-- `#define SSD1351_CMD_SETGPIO 0xB5` -/
def SSD1351_CMD_SETGPIO : Nat := 0xB5

/-- `#define SSD1351_CMD_PRECHARGE2 0xB6` -/
def SSD1351_CMD_PRECHARGE2 : Nat := 0xB6

/-- `#define SSD1351_CMD_VCOMH 0xBE` -/
def SSD1351_CMD_VCOMH : Nat := 0xBE

/-- `#define SSD1351_CMD_CONTRASTABC 0xC1` -/
def SSD1351_CMD_CONTRASTABC : Nat := 0xC1

/-- `#define SSD1351_CMD_CONTRASTMASTER 0xC7` -/
def SSD1351_CMD_CONTRASTMASTER : Nat := 0xC7

/-- `#define SSD1351_CMD_MUXRATIO 0xCA` -/
def SSD1351_CMD_MUXRATIO : Nat := 0xCA

/-- `#define SSD1351_CMD_COMMANDLOCK 0xFD` -/
def SSD1351_CMD_COMMANDLOCK : Nat := 0xFD

/-- `static const uint8_t initSSD1351[]` -/
def initSSD1351 : List Nat := [
  16,
  SSD1351_CMD_COMMANDLOCK, 1, 0x12,
  SSD1351_CMD_COMMANDLOCK, 1, 0xB1,
  SSD1351_CMD_DISPLAYOFF, 0,
  SSD1351_CMD_CLOCKDIV, 1, 0xF1,
  SSD1351_CMD_MUXRATIO, 1, 127,
  SSD1351_CMD_DISPLAYOFFSET, 1, 0x0,
  SSD1351_CMD_SETGPIO, 1, 0x00,
  SSD1351_CMD_FUNCTIONSELECT, 1, 0x01,
  SSD1351_CMD_PRECHARGE, 1, 0x32,
  SSD1351_CMD_VCOMH, 1, 0x05,
  SSD1351_CMD_NORMALDISPLAY, 0,
  SSD1351_CMD_CONTRASTABC, 3, 0xC8, 0x80, 0xC8,
  SSD1351_CMD_CONTRASTMASTER, 1, 0x0F,
  SSD1351_CMD_SETVSL, 3, 0xA0, 0xB5, 0x55,
  SSD1351_CMD_PRECHARGE2, 1, 0x01,
  SSD1351_CMD_DISPLAYON, 0 ]

/-- What a run of `displayInit` does: the bytes transmitted, the arguments of
the `wait_ms` calls, and the offset of `addr` from the start of the table
afterwards (the number of table bytes read). -/
structure InitRun where
  sent : List SpiByte
  waits : List Nat
  addr : Nat
  deriving DecidableEq, Repr

/-- `while(numArgs--) writeData(pgm_read_byte(addr++));` reading the table at
offset `addr`; `none` on a read outside the table. -/
def readArgs (table : List Nat) : Nat → Nat → Option (List SpiByte × Nat)
  | 0, addr => some ([], addr)
  | numArgs + 1, addr => do
    let b ← table[addr]?
    let rest ← readArgs table numArgs (addr + 1)
    pure (writeData b ++ rest.1, rest.2)

/-- The loop `while(numCommands--) { ... }` of `displayInit`, reading the
table at offset `addr`; `none` on a read outside the table. -/
def displayCommands (table : List Nat) : Nat → Nat → Option InitRun
  | 0, addr => some { sent := [], waits := [], addr := addr }
  | numCommands + 1, addr => do
    let c ← table[addr]?
    let a ← table[addr + 1]?
    let numArgs := a % 256
    let ms := numArgs &&& ST_CMD_DELAY
    let numArgs := numArgs &&& (255 - ST_CMD_DELAY)
    let args ← readArgs table numArgs (addr + 2)
    if ms ≠ 0 then do
      let m ← table[args.2]?
      let ms := if m % 256 = 255 then 500 else m % 256
      let rest ← displayCommands table numCommands (args.2 + 1)
      pure { sent := writeCmd c ++ args.1 ++ rest.sent, waits := ms :: rest.waits,
             addr := rest.addr }
    else do
      let rest ← displayCommands table numCommands args.2
      pure { sent := writeCmd c ++ args.1 ++ rest.sent, waits := rest.waits,
             addr := rest.addr }

/-- `void SSD1351::displayInit(const uint8_t *addr)` on a table of bytes. -/
def displayInit (table : List Nat) : Option InitRun := do
  let numCommands ← table[0]?
  displayCommands table (numCommands % 256) 1

/-- `void SSD1351::fillScreen(uint16_t color)` -/
def fillScreen (d : Display) (color : Nat) : List SpiByte :=
  fillRect d 0 0 d._width d._height color

/-- `void SSD1351::drawPixel(int16_t x, int16_t y, uint16_t color)`: the bytes
transmitted. -/
def drawPixel (d : Display) (x y : Int) (color : Nat) : List SpiByte :=
  let x := wrapS16 x
  let y := wrapS16 y
  let color := color % 65536
  if x < 0 ∨ x ≥ d._width ∨ y < 0 ∨ y ≥ d._height then []
  else
    setAddrWindow d (wrapU 16 x) (wrapU 16 y) (wrapU 16 (x + 1)) (wrapU 16 (y + 1)) ++
      [SpiByte.data ((color >>> 8) % 256), SpiByte.data (color % 256)]

/-- Graphics set of `wideGraphics` with an upper eyelid map that varies with
row and column: `upper[r][c] = (r + 2*c) mod 256`. -/
def lidGraphics : Graphics :=
  { wideGraphics with upper := fun r c => ⟨(r + 2 * c) % 256, Nat.mod_lt _ (by decide)⟩ }

/-- A first tick after `setup()` on `lidGraphics`, rendering eye 1 with the
gaze at the centre `(512, 512)`. -/
def lidTick : Option (AnimState × List Nat × DrawArgs) :=
  frame lidGraphics AnimState.init [300, 700, 5, 1, 2] 10 420

/-- The gaze block of `lidTick`. -/
def lidGaze : Option (AnimState × List Nat × Int × Int) :=
  gazeStep (nextEye AnimState.init) [300, 700, 5, 1, 2] 10

/-- The animation state with the static `uThreshold` of `frame` (the filtered
upper eyelid threshold) set to `u`. -/
def setLids (u : Nat) (s : AnimState) : AnimState := { s with uThreshold := u }

/-- A world with the `uThreshold` of its animation state set to 0: the world
apart from the eyelid threshold. -/
def World.noLids (w : World) : World := { w with anim := setLids 0 w.anim }

/-- The inputs of `demoWorld` with a different second timer reading: the leaf
loop of `split` reads 40000 instead of 0 before its first frame. -/
def lateWorld : World :=
  { anim := AnimState.init,
    rands := 100 :: List.replicate 200 3,
    clock := 0 :: 40000 :: 0 :: List.replicate 200 20000000 }

/-! ## Theorems: drawEye -/

theorem wrapS16_succ (a : Int) : wrapS16 (wrapS16 a + 1) = wrapS16 (a + 1) := by
  unfold wrapS16; omega

theorem drawColumns_eq (g : Graphics) (e T S uT lT y sY : Nat) (iY : Int)
    (sX0 : Nat) (iX0 : Int) (hW : g.SCREEN_WIDTH ≤ 255) :
    ∀ fuel x, x ≤ g.SCREEN_WIDTH → g.SCREEN_WIDTH - x < fuel →
      drawColumns g e T S uT lT y sY iY fuel x ((sX0 + x) % 256)
          (wrapS16 (iX0 + (x : Int))) =
        some ((List.range' x (g.SCREEN_WIDTH - x)).map (fun i =>
          DisplayCall.pushColor e
            (pixel g T S uT lT i y ((sX0 + i) % 256) sY (wrapS16 (iX0 + (i : Int))) iY))) := by
  intro fuel
  induction fuel with
  | zero => intro x _ h; omega
  | succ fuel ih =>
    intro x hx hf
    unfold drawColumns
    by_cases hlt : x < g.SCREEN_WIDTH
    · have h1 : (x + 1) % 256 = x + 1 := by omega
      have h2 : ((sX0 + x) % 256 + 1) % 256 = (sX0 + (x + 1)) % 256 := by omega
      have h3 : wrapS16 (wrapS16 (iX0 + (x : Int)) + 1) = wrapS16 (iX0 + ((x + 1 : Nat) : Int)) := by
        rw [wrapS16_succ]; congr 1; push_cast; ring
      have h4 : g.SCREEN_WIDTH - x = (g.SCREEN_WIDTH - (x + 1)) + 1 := by omega
      simp only [SCREEN_X_END, hlt, if_true, h1, h2, h3]
      rw [ih (x + 1) (by omega) (by omega), h4, List.range'_succ]
      simp
    · have h0 : g.SCREEN_WIDTH - x = 0 := by omega
      simp [SCREEN_X_END, hlt, h0]


theorem flatMap_rows {α : Type} (f : Nat → Nat → α) (W : Nat) (hW : 0 < W) :
    ∀ n y, (List.range' y n).flatMap (fun j => (List.range' 0 W).map (fun i => f i j)) =
      (List.range' (y * W) (n * W)).map (fun k => f (k % W) (k / W)) := by
  intro n
  induction n with
  | zero => intro y; simp
  | succ n ih =>
    intro y
    have hrow : (List.range' 0 W).map (fun i => f i y) =
        (List.range' (y * W) W).map (fun k => f (k % W) (k / W)) := by
      have h := List.map_add_range' (y * W) 0 W 1
      rw [Nat.add_zero] at h
      rw [← h, List.map_map]
      apply List.map_congr_left
      intro i hi
      have hi2 : i < W := by
        have := (List.mem_range'_1.mp hi).2
        omega
      have h1 : (y * W + i) % W = i := by
        rw [Nat.add_comm, Nat.add_mul_mod_self_right, Nat.mod_eq_of_lt hi2]
      have h2 : (y * W + i) / W = y := by
        rw [Nat.add_comm, Nat.add_mul_div_right _ _ hW, Nat.div_eq_of_lt hi2, Nat.zero_add]
      simp [h1, h2]
    have hsplit : List.range' (y * W) ((n + 1) * W) =
        List.range' (y * W) W ++ List.range' ((y + 1) * W) (n * W) := by
      have h := List.range'_append (y * W) W (n * W) 1
      rw [Nat.one_mul] at h
      have e1 : (n + 1) * W = n * W + W := by ring
      have e2 : (y + 1) * W = y * W + W := by ring
      rw [e1, e2, h]
    rw [List.range'_succ, List.flatMap_cons, ih (y + 1), hrow, hsplit, List.map_append]

theorem drawRows_eq (g : Graphics) (e T S uT lT sXs : Nat) (sY0 : Nat) (iY0 : Int)
    (hW : g.SCREEN_WIDTH ≤ 255) (hH : g.SCREEN_HEIGHT ≤ 255) (hs : sXs < 256) :
    ∀ fuel y, y ≤ g.SCREEN_HEIGHT → g.SCREEN_HEIGHT - y < fuel →
      drawRows g e T S uT lT sXs fuel y ((sY0 + y) % 256) (wrapS16 (iY0 + (y : Int))) =
        some ((List.range' y (g.SCREEN_HEIGHT - y)).flatMap (fun j =>
          (List.range' 0 g.SCREEN_WIDTH).map (fun i =>
            DisplayCall.pushColor e
              (pixel g T S uT lT i j ((sXs + i) % 256) ((sY0 + j) % 256)
                (wrapS16 ((sXs : Int) -
                  Int.tdiv ((g.SCLERA_WIDTH : Int) - (g.IRIS_WIDTH : Int)) 2 + (i : Int)))
                (wrapS16 (iY0 + (j : Int))))))) := by
  intro fuel
  induction fuel with
  | zero => intro y _ h; omega
  | succ fuel ih =>
    intro y hy hf
    unfold drawRows
    by_cases hlt : y < g.SCREEN_HEIGHT
    · have hcols := drawColumns_eq g e T S uT lT y ((sY0 + y) % 256)
        (wrapS16 (iY0 + (y : Int))) sXs
        ((sXs : Int) - Int.tdiv ((g.SCLERA_WIDTH : Int) - (g.IRIS_WIDTH : Int)) 2)
        hW 257 0 (Nat.zero_le _) (by omega)
      have e0 : sXs % 256 = sXs := Nat.mod_eq_of_lt hs
      simp only [Nat.cast_zero, add_zero, e0, Nat.sub_zero] at hcols
      have h1 : (y + 1) % 256 = y + 1 := by omega
      have h2 : ((sY0 + y) % 256 + 1) % 256 = (sY0 + (y + 1)) % 256 := by omega
      have h3 : wrapS16 (wrapS16 (iY0 + (y : Int)) + 1) =
          wrapS16 (iY0 + ((y + 1 : Nat) : Int)) := by
        rw [wrapS16_succ]; congr 1; push_cast; ring
      have h4 : g.SCREEN_HEIGHT - y = (g.SCREEN_HEIGHT - (y + 1)) + 1 := by omega
      simp only [SCREEN_Y_END, hlt, if_true, SCREEN_X_START, hcols, h1, h2, h3]
      rw [ih (y + 1) (by omega) (by omega), h4, List.range'_succ, List.flatMap_cons]
      simp
    · have h0 : g.SCREEN_HEIGHT - y = 0 := by omega
      simp [SCREEN_Y_END, hlt, h0]

/-- Characterisation of a whole `drawEye` run: one window call, then the
colour of every screen position in row-major order. -/
theorem drawEye_eq (g : Graphics) (e iScale scleraX scleraY uT lT : Nat)
    (hW0 : 0 < g.SCREEN_WIDTH) (hW : g.SCREEN_WIDTH ≤ 255)
    (hH0 : 0 < g.SCREEN_HEIGHT) (hH : g.SCREEN_HEIGHT ≤ 255)
    (hT : irisThreshold (iScale % 65536) ≠ 0) :
    drawEye g e iScale scleraX scleraY uT lT =
      some (DisplayCall.setAddrWindow (e % 256) 0 0 (g.SCREEN_WIDTH - 1) (g.SCREEN_HEIGHT - 1) ::
        (List.range (g.SCREEN_WIDTH * g.SCREEN_HEIGHT)).map (fun k =>
          DisplayCall.pushColor (e % 256)
            (colourAt g iScale scleraX scleraY uT lT (k % g.SCREEN_WIDTH)
              (k / g.SCREEN_WIDTH)))) := by
  have hrows := drawRows_eq g (e % 256) (irisThreshold (iScale % 65536))
    (irisScaleOf g (irisThreshold (iScale % 65536))) (uT % 256) (lT % 256)
    ((scleraX % 256 + SCREEN_X_START) % 256) (scleraY % 256)
    (((scleraY % 256 : Nat) : Int) -
      Int.tdiv ((g.SCLERA_HEIGHT : Int) - (g.IRIS_HEIGHT : Int)) 2)
    hW hH (Nat.mod_lt _ (by decide)) 257 0 (Nat.zero_le _) (by omega)
  have e0 : scleraY % 256 % 256 = scleraY % 256 := Nat.mod_mod _ _
  have ex : (scleraX % 256 + SCREEN_X_START) % 256 = scleraX % 256 := by
    simp [SCREEN_X_START]
  simp only [Nat.cast_zero, add_zero, e0, Nat.sub_zero, ex] at hrows
  have hw1 : wrapU 16 ((g.SCREEN_WIDTH : Int) - 1) = g.SCREEN_WIDTH - 1 := by
    unfold wrapU; omega
  have hw2 : wrapU 16 ((g.SCREEN_HEIGHT : Int) - 1) = g.SCREEN_HEIGHT - 1 := by
    unfold wrapU; omega
  unfold drawEye
  simp only [hT, if_false, SCREEN_Y_START, ex, hrows, hw1, hw2, Option.map_some']
  rw [flatMap_rows _ g.SCREEN_WIDTH hW0 g.SCREEN_HEIGHT 0]
  simp only [Nat.zero_mul, ← List.range_eq_range', Nat.mul_comm g.SCREEN_HEIGHT]
  congr 2
  apply List.map_congr_left
  intro k _
  simp only [colourAt, scleraXAt, scleraYAt, irisXAt, irisYAt, Nat.mod_add_mod]


theorem raster_index_lt {W H x y : Nat} (hx : x < W) (hy : y < H) : y * W + x < W * H := by
  have h1 : (y + 1) * W ≤ H * W := Nat.mul_le_mul_right W hy
  have h2 : (y + 1) * W = y * W + W := by ring
  have h3 : H * W = W * H := Nat.mul_comm _ _
  omega

theorem raster_index_mod {W x : Nat} (y : Nat) (hx : x < W) : (y * W + x) % W = x := by
  rw [Nat.add_comm, Nat.add_mul_mod_self_right, Nat.mod_eq_of_lt hx]

theorem raster_index_div {W x : Nat} (y : Nat) (hx : x < W) : (y * W + x) / W = y := by
  have hW : 0 < W := by omega
  rw [Nat.add_comm, Nat.add_mul_div_right _ _ hW, Nat.div_eq_of_lt hx, Nat.zero_add]

/-- The display call that `drawEye` makes for screen position `(x, y)`. -/
theorem drawEye_at (g : Graphics) (e iScale scleraX scleraY uT lT x y : Nat)
    (hW0 : 0 < g.SCREEN_WIDTH) (hW : g.SCREEN_WIDTH ≤ 255)
    (hH0 : 0 < g.SCREEN_HEIGHT) (hH : g.SCREEN_HEIGHT ≤ 255)
    (hx : x < g.SCREEN_WIDTH) (hy : y < g.SCREEN_HEIGHT)
    (tr : List DisplayCall) (htr : drawEye g e iScale scleraX scleraY uT lT = some tr) :
    tr[y * g.SCREEN_WIDTH + x + 1]? =
      some (DisplayCall.pushColor (e % 256) (colourAt g iScale scleraX scleraY uT lT x y)) := by
  have hT : irisThreshold (iScale % 65536) ≠ 0 := by
    intro h0
    simp [drawEye, h0] at htr
  rw [drawEye_eq g e iScale scleraX scleraY uT lT hW0 hW hH0 hH hT] at htr
  have htr2 := Option.some.inj htr
  rw [← htr2, List.getElem?_cons_succ, List.getElem?_map,
    List.getElem?_range (raster_index_lt hx hy)]
  simp only [Option.map_some', raster_index_mod y hx, raster_index_div y hx]


/-- C1: at every screen position whose `lower` or `upper` eyelid value is at
most the matching threshold, the colour selected, and pushed by every run of
`drawEye`, is 0 (black), whatever the maps, `iScale` and the offsets are; the
run exists whenever `irisThreshold` is non-zero. -/
theorem drawEye_eyelid_black (g : Graphics) (e iScale scleraX scleraY uT lT x y : Nat)
    (hW0 : 0 < g.SCREEN_WIDTH) (hW : g.SCREEN_WIDTH ≤ 255)
    (hH0 : 0 < g.SCREEN_HEIGHT) (hH : g.SCREEN_HEIGHT ≤ 255)
    (hx : x < g.SCREEN_WIDTH) (hy : y < g.SCREEN_HEIGHT)
    (hcov : (g.lower y x).val ≤ lT % 256 ∨ (g.upper y x).val ≤ uT % 256) :
    colourAt g iScale scleraX scleraY uT lT x y = 0 ∧
    (irisThreshold (iScale % 65536) ≠ 0 →
      ∃ tr, drawEye g e iScale scleraX scleraY uT lT = some tr) ∧
    (∀ tr, drawEye g e iScale scleraX scleraY uT lT = some tr →
      tr[y * g.SCREEN_WIDTH + x + 1]? = some (DisplayCall.pushColor (e % 256) 0)) := by
  have hc : colourAt g iScale scleraX scleraY uT lT x y = 0 := by
    simp only [colourAt, pixel, hcov, if_true]
  refine ⟨hc, ?_, ?_⟩
  · intro hT
    exact ⟨_, drawEye_eq g e iScale scleraX scleraY uT lT hW0 hW hH0 hH hT⟩
  · intro tr htr
    rw [drawEye_at g e iScale scleraX scleraY uT lT x y hW0 hW hH0 hH hx hy tr htr, hc]

/-- Witness for C1: a fully covered 2x2 screen. -/
theorem drawEye_eyelid_black_witness :
    colourAt demoGraphics 512 1 1 0 255 1 1 = 0 ∧
    (irisThreshold (512 % 65536) ≠ 0 → ∃ tr, drawEye demoGraphics 0 512 1 1 0 255 = some tr) ∧
    (∀ tr, drawEye demoGraphics 0 512 1 1 0 255 = some tr →
      tr[1 * demoGraphics.SCREEN_WIDTH + 1 + 1]? = some (DisplayCall.pushColor (0 % 256) 0)) :=
  drawEye_eyelid_black demoGraphics 0 512 1 1 0 255 1 1 (by decide) (by decide) (by decide)
    (by decide) (by decide) (by decide) (Or.inl (by decide))


theorem colourAt_sclera (g : Graphics) (iScale scleraX scleraY uT lT x y : Nat)
    (hcov : ¬ ((g.lower y x).val ≤ lT % 256 ∨ (g.upper y x).val ≤ uT % 256))
    (hcase : (irisYAt g scleraY y < 0 ∨ irisYAt g scleraY y ≥ (g.IRIS_HEIGHT : Int) ∨
        irisXAt g scleraX x < 0 ∨ irisXAt g scleraX x ≥ (g.IRIS_WIDTH : Int)) ∨
      irisThreshold (iScale % 65536) ≤ polarAt g scleraX scleraY x y &&& 0x7F) :
    colourAt g iScale scleraX scleraY uT lT x y =
      (g.sclera (scleraYAt scleraY y) (scleraXAt scleraX x)).val := by
  unfold colourAt pixel
  rw [if_neg hcov]
  by_cases hout : irisYAt g scleraY y < 0 ∨ irisYAt g scleraY y ≥ (g.IRIS_HEIGHT : Int) ∨
      irisXAt g scleraX x < 0 ∨ irisXAt g scleraX x ≥ (g.IRIS_WIDTH : Int)
  · rw [if_pos hout]
  · rw [if_neg hout]
    rcases hcase with h | h
    · exact absurd h hout
    · have hd : ¬ ((g.polar (irisYAt g scleraY y).toNat (irisXAt g scleraX x).toNat).val &&& 0x7F
          < irisThreshold (iScale % 65536)) := by
        unfold polarAt at h
        exact Nat.not_lt.mpr h
      simp only [hd, if_false]

/-- C2 (counterexample): on a 300-wide sclera map with `scleraX = 172` (the
largest offset, `SCLERA_WIDTH - 128`), the 8-bit counter has wrapped to
`(172 + 127) mod 256 = 43` at column 127, so the uncovered, outside-the-iris
position `(127, 0)` is pushed `sclera[0][43] = 0` and not
`sclera[0 + 0][172 + 127] = 1`. -/
theorem drawEye_sclera_column_wraps :
    (drawEye wideGraphics 0 512 172 0 0 0).map (fun tr => tr[0 * 128 + 127 + 1]?) =
      some (some (DisplayCall.pushColor 0 0)) ∧
    ¬ ((wideGraphics.lower 0 127).val ≤ 0 ∨ (wideGraphics.upper 0 127).val ≤ 0) ∧
    irisXAt wideGraphics 172 127 ≥ (wideGraphics.IRIS_WIDTH : Int) ∧
    (wideGraphics.sclera (0 + 0) (172 + 127)).val = 1 ∧
    (DisplayCall.pushColor 0 0 ≠
      DisplayCall.pushColor 0 (wideGraphics.sclera (0 + 0) (172 + 127)).val) := by
  refine ⟨?_, by decide, by decide, by decide, by decide⟩
  have hrun := drawEye_eq wideGraphics 0 512 172 0 0 0 (by decide) (by decide) (by decide)
    (by decide) (by decide)
  have hat := drawEye_at wideGraphics 0 512 172 0 0 0 127 0 (by decide) (by decide)
    (by decide) (by decide) (by decide) (by decide) _ hrun
  rw [hrun, Option.map_some']
  have hcol : colourAt wideGraphics 512 172 0 0 0 127 0 = 0 := by decide
  rw [hcol] at hat
  exact congrArg some hat

/-- C2 (amended): at an uncovered position whose iris-local coordinates are
outside the polar map, or inside it with polar distance `>= irisThreshold`,
every run of `drawEye` pushes the sclera entry at the 8-bit offsets
`((scleraY + y) mod 256, (scleraX + x) mod 256)`, which is
`sclera[scleraY + y][scleraX + x]` when neither offset exceeds 255. -/
theorem drawEye_sclera_lookup (g : Graphics) (e iScale scleraX scleraY uT lT x y : Nat)
    (hW0 : 0 < g.SCREEN_WIDTH) (hW : g.SCREEN_WIDTH ≤ 255)
    (hH0 : 0 < g.SCREEN_HEIGHT) (hH : g.SCREEN_HEIGHT ≤ 255)
    (hx : x < g.SCREEN_WIDTH) (hy : y < g.SCREEN_HEIGHT)
    (hcov : ¬ ((g.lower y x).val ≤ lT % 256 ∨ (g.upper y x).val ≤ uT % 256))
    (hcase : (irisYAt g scleraY y < 0 ∨ irisYAt g scleraY y ≥ (g.IRIS_HEIGHT : Int) ∨
        irisXAt g scleraX x < 0 ∨ irisXAt g scleraX x ≥ (g.IRIS_WIDTH : Int)) ∨
      irisThreshold (iScale % 65536) ≤ polarAt g scleraX scleraY x y &&& 0x7F) :
    (irisThreshold (iScale % 65536) ≠ 0 →
      ∃ tr, drawEye g e iScale scleraX scleraY uT lT = some tr) ∧
    (∀ tr, drawEye g e iScale scleraX scleraY uT lT = some tr →
      tr[y * g.SCREEN_WIDTH + x + 1]? =
        some (DisplayCall.pushColor (e % 256)
          (g.sclera ((scleraY + y) % 256) ((scleraX + x) % 256)).val) ∧
      (scleraX + x ≤ 255 → scleraY + y ≤ 255 →
        tr[y * g.SCREEN_WIDTH + x + 1]? =
          some (DisplayCall.pushColor (e % 256) (g.sclera (scleraY + y) (scleraX + x)).val))) := by
  have hc := colourAt_sclera g iScale scleraX scleraY uT lT x y hcov hcase
  simp only [scleraXAt, scleraYAt] at hc
  refine ⟨?_, ?_⟩
  · intro hT
    exact ⟨_, drawEye_eq g e iScale scleraX scleraY uT lT hW0 hW hH0 hH hT⟩
  · intro tr htr
    have hat := drawEye_at g e iScale scleraX scleraY uT lT x y hW0 hW hH0 hH hx hy tr htr
    rw [hc] at hat
    refine ⟨hat, ?_⟩
    intro h1 h2
    rw [hat, Nat.mod_eq_of_lt (by omega : scleraX + x < 256),
      Nat.mod_eq_of_lt (by omega : scleraY + y < 256)]

/-- Witness for C2 (amended): position `(1, 1)` of the 2x2 screen, outside the
iris for offsets `(3, 3)`. -/
theorem drawEye_sclera_lookup_witness :
    (irisThreshold (512 % 65536) ≠ 0 → ∃ tr, drawEye demoGraphics 0 512 3 3 0 0 = some tr) ∧
    (∀ tr, drawEye demoGraphics 0 512 3 3 0 0 = some tr →
      tr[1 * demoGraphics.SCREEN_WIDTH + 1 + 1]? =
        some (DisplayCall.pushColor (0 % 256)
          (demoGraphics.sclera ((3 + 1) % 256) ((3 + 1) % 256)).val) ∧
      (3 + 1 ≤ 255 → 3 + 1 ≤ 255 →
        tr[1 * demoGraphics.SCREEN_WIDTH + 1 + 1]? =
          some (DisplayCall.pushColor (0 % 256) (demoGraphics.sclera (3 + 1) (3 + 1)).val))) :=
  drawEye_sclera_lookup demoGraphics 0 512 3 3 0 0 1 1 (by decide) (by decide) (by decide)
    (by decide) (by decide) (by decide) (by decide) (Or.inl (by decide))


theorem irisRow_exact (H T d : Nat) (hH : H < 32768) (hd : d < T) :
    (d * ((H * 65536 / T) % 2 ^ 32)) % 2 ^ 32 / 65536 = (d * (H * 65536 / T)) / 65536 := by
  have h1 : H * 65536 / T ≤ H * 65536 := Nat.div_le_self _ _
  have h2 : T * (H * 65536 / T) ≤ H * 65536 := Nat.mul_div_le _ _
  have h3 : d * (H * 65536 / T) ≤ T * (H * 65536 / T) :=
    Nat.mul_le_mul_right _ (Nat.le_of_lt hd)
  have h4 : (H * 65536 / T) % 2 ^ 32 = H * 65536 / T := Nat.mod_eq_of_lt (by omega)
  rw [h4, Nat.mod_eq_of_lt (by omega)]

theorem irisColumn_exact (Wm p : Nat) (hW : Wm ≤ 65536) (hp : p < 65536) :
    ((Wm * (p >>> 7)) / 512) % 65536 = (Wm * (p >>> 7)) / 512 := by
  have hq : p >>> 7 ≤ 511 := by
    rw [Nat.shiftRight_eq_div_pow]; omega
  have h1 : Wm * (p >>> 7) ≤ Wm * 511 := Nat.mul_le_mul_left _ hq
  apply Nat.mod_eq_of_lt
  omega

theorem colourAt_iris (g : Graphics) (iScale scleraX scleraY uT lT x y : Nat)
    (hMH : g.IRIS_MAP_HEIGHT < 32768) (hMW : g.IRIS_MAP_WIDTH ≤ 65536)
    (hcov : ¬ ((g.lower y x).val ≤ lT % 256 ∨ (g.upper y x).val ≤ uT % 256))
    (hin : 0 ≤ irisYAt g scleraY y ∧ irisYAt g scleraY y < (g.IRIS_HEIGHT : Int) ∧
      0 ≤ irisXAt g scleraX x ∧ irisXAt g scleraX x < (g.IRIS_WIDTH : Int))
    (hd : polarAt g scleraX scleraY x y &&& 0x7F < irisThreshold (iScale % 65536)) :
    colourAt g iScale scleraX scleraY uT lT x y =
      (g.iris
        (((polarAt g scleraX scleraY x y &&& 0x7F) *
          (g.IRIS_MAP_HEIGHT * 65536 / irisThreshold (iScale % 65536))) / 65536)
        ((g.IRIS_MAP_WIDTH * (polarAt g scleraX scleraY x y >>> 7)) / 512)).val := by
  have hout : ¬ (irisYAt g scleraY y < 0 ∨ irisYAt g scleraY y ≥ (g.IRIS_HEIGHT : Int) ∨
      irisXAt g scleraX x < 0 ∨ irisXAt g scleraX x ≥ (g.IRIS_WIDTH : Int)) := by omega
  have hp : polarAt g scleraX scleraY x y < 65536 := by
    unfold polarAt; exact Fin.is_lt _
  have hrow := irisRow_exact g.IRIS_MAP_HEIGHT (irisThreshold (iScale % 65536))
    (polarAt g scleraX scleraY x y &&& 0x7F) hMH hd
  have hcol := irisColumn_exact g.IRIS_MAP_WIDTH (polarAt g scleraX scleraY x y) hMW hp
  unfold polarAt at hd hrow hcol ⊢
  unfold colourAt pixel
  rw [if_neg hcov, if_neg hout]
  simp only [hd, if_true, irisScaleOf, hrow, hcol]

/-- C3: for `irisThreshold >= 1`, at an uncovered position whose iris-local
coordinates are inside the polar map and whose polar value `p` has distance
`d = p & 0x7F < irisThreshold`, `drawEye` pushes
`iris[(d * (IRIS_MAP_HEIGHT*65536 / irisThreshold)) / 65536][(IRIS_MAP_WIDTH * (p >> 7)) / 512]`;
at every other uncovered position it pushes the sclera lookup. -/
theorem drawEye_iris_lookup (g : Graphics) (e iScale scleraX scleraY uT lT x y : Nat)
    (hW0 : 0 < g.SCREEN_WIDTH) (hW : g.SCREEN_WIDTH ≤ 255)
    (hH0 : 0 < g.SCREEN_HEIGHT) (hH : g.SCREEN_HEIGHT ≤ 255)
    (hMH : g.IRIS_MAP_HEIGHT < 32768) (hMW : g.IRIS_MAP_WIDTH ≤ 65536)
    (hT : 1 ≤ irisThreshold (iScale % 65536))
    (hx : x < g.SCREEN_WIDTH) (hy : y < g.SCREEN_HEIGHT)
    (hcov : ¬ ((g.lower y x).val ≤ lT % 256 ∨ (g.upper y x).val ≤ uT % 256)) :
    ∃ tr, drawEye g e iScale scleraX scleraY uT lT = some tr ∧
      ((0 ≤ irisYAt g scleraY y ∧ irisYAt g scleraY y < (g.IRIS_HEIGHT : Int) ∧
          0 ≤ irisXAt g scleraX x ∧ irisXAt g scleraX x < (g.IRIS_WIDTH : Int)) ∧
          polarAt g scleraX scleraY x y &&& 0x7F < irisThreshold (iScale % 65536) →
        tr[y * g.SCREEN_WIDTH + x + 1]? =
          some (DisplayCall.pushColor (e % 256)
            (g.iris
              (((polarAt g scleraX scleraY x y &&& 0x7F) *
                (g.IRIS_MAP_HEIGHT * 65536 / irisThreshold (iScale % 65536))) / 65536)
              ((g.IRIS_MAP_WIDTH * (polarAt g scleraX scleraY x y >>> 7)) / 512)).val)) ∧
      (¬ ((0 ≤ irisYAt g scleraY y ∧ irisYAt g scleraY y < (g.IRIS_HEIGHT : Int) ∧
          0 ≤ irisXAt g scleraX x ∧ irisXAt g scleraX x < (g.IRIS_WIDTH : Int)) ∧
          polarAt g scleraX scleraY x y &&& 0x7F < irisThreshold (iScale % 65536)) →
        tr[y * g.SCREEN_WIDTH + x + 1]? =
          some (DisplayCall.pushColor (e % 256)
            (g.sclera (scleraYAt scleraY y) (scleraXAt scleraX x)).val)) := by
  have hT0 : irisThreshold (iScale % 65536) ≠ 0 := by omega
  have heq := drawEye_eq g e iScale scleraX scleraY uT lT hW0 hW hH0 hH hT0
  refine ⟨_, heq, ?_, ?_⟩
  · rintro ⟨hin, hd⟩
    rw [drawEye_at g e iScale scleraX scleraY uT lT x y hW0 hW hH0 hH hx hy _ heq,
      colourAt_iris g iScale scleraX scleraY uT lT x y hMH hMW hcov hin hd]
  · intro hn
    rw [drawEye_at g e iScale scleraX scleraY uT lT x y hW0 hW hH0 hH hx hy _ heq,
      colourAt_sclera g iScale scleraX scleraY uT lT x y hcov (by omega)]

/-- Witness for C3: the 2x2 screen at offsets `(1, 1)`, where position `(1, 1)`
is inside the iris. -/
theorem drawEye_iris_lookup_witness :
    ∃ tr, drawEye demoGraphics 0 512 1 1 0 0 = some tr ∧
      tr[1 * demoGraphics.SCREEN_WIDTH + 1 + 1]? = some (DisplayCall.pushColor 0 1000) := by
  obtain ⟨tr, htr, hiris, _⟩ := drawEye_iris_lookup demoGraphics 0 512 1 1 0 0 1 1
    (by decide) (by decide) (by decide) (by decide) (by decide) (by decide) (by decide)
    (by decide) (by decide) (by decide)
  exact ⟨tr, htr, hiris (by decide)⟩


/-- C4: a `drawEye` call with non-zero `irisThreshold` terminates and issues
exactly one `setAddrWindow(0, 0, SCREEN_WIDTH-1, SCREEN_HEIGHT-1)` followed by
exactly `SCREEN_WIDTH * SCREEN_HEIGHT` `pushColor` calls, the `k`-th being the
colour selected for screen position `(k mod SCREEN_WIDTH, k div SCREEN_WIDTH)`. -/
theorem drawEye_raster_order (g : Graphics) (e iScale scleraX scleraY uT lT : Nat)
    (hW0 : 0 < g.SCREEN_WIDTH) (hW : g.SCREEN_WIDTH ≤ 255)
    (hH0 : 0 < g.SCREEN_HEIGHT) (hH : g.SCREEN_HEIGHT ≤ 255)
    (hT : irisThreshold (iScale % 65536) ≠ 0) :
    drawEye g e iScale scleraX scleraY uT lT =
      some (DisplayCall.setAddrWindow (e % 256) 0 0 (g.SCREEN_WIDTH - 1) (g.SCREEN_HEIGHT - 1) ::
        (List.range (g.SCREEN_WIDTH * g.SCREEN_HEIGHT)).map (fun k =>
          DisplayCall.pushColor (e % 256)
            (colourAt g iScale scleraX scleraY uT lT (k % g.SCREEN_WIDTH)
              (k / g.SCREEN_WIDTH)))) ∧
    ((List.range (g.SCREEN_WIDTH * g.SCREEN_HEIGHT)).map (fun k =>
          DisplayCall.pushColor (e % 256)
            (colourAt g iScale scleraX scleraY uT lT (k % g.SCREEN_WIDTH)
              (k / g.SCREEN_WIDTH)))).length = g.SCREEN_WIDTH * g.SCREEN_HEIGHT :=
  ⟨drawEye_eq g e iScale scleraX scleraY uT lT hW0 hW hH0 hH hT, by simp⟩

/-- Witness for C4: the 2x2 screen receives one window call and four pixels. -/
theorem drawEye_raster_order_witness :
    drawEye demoGraphics 0 512 1 1 0 0 =
      some [DisplayCall.setAddrWindow 0 0 0 1 1, DisplayCall.pushColor 0 1000,
        DisplayCall.pushColor 0 1000, DisplayCall.pushColor 0 1000,
        DisplayCall.pushColor 0 1000] :=
  (drawEye_raster_order demoGraphics 0 512 1 1 0 0 (by decide) (by decide) (by decide)
    (by decide) (by decide)).1.trans (by decide)

/-- C5 (counterexample): for `iScale = 1023` the formula
`(128 * (1023 - iScale) + 512) / 1024` does not yield 64. -/
theorem irisThreshold_1023_ne_64 : irisThreshold 1023 ≠ 64 := by decide

/-- C5 (amended): for `iScale = 1023` the formula yields `irisThreshold = 0`, so
that `drawEye` has no defined `irisScale`; the value 64 is the one of the
mid-scale `iScale = 512`. -/
theorem irisThreshold_full_scale (g : Graphics) (e scleraX scleraY uT lT : Nat) :
    irisThreshold 1023 = 0 ∧ drawEye g e 1023 scleraX scleraY uT lT = none ∧
      irisThreshold 512 = 64 := by
  have h0 : irisThreshold 1023 = 0 := by decide
  refine ⟨h0, ?_, by decide⟩
  simp [drawEye, h0]

theorem irisThreshold_eq (iScale : Nat) (h : iScale ≤ 1023) :
    irisThreshold iScale = (128 * (1023 - iScale) + 512) / 1024 := by
  unfold irisThreshold wrapU
  rw [Int.tdiv_eq_ediv (by omega) (by omega)]
  norm_num
  omega

/-- C7: for every `iScale` in `0..1023` the quotient fits in 8 bits, is at most
128 and is zero exactly for `iScale` in `1020..1023`; for `iScale` in
`IRIS_MIN..IRIS_MAX` it lies in `[38, 113]`, so the divisor of
`IRIS_MAP_HEIGHT * 65536 / irisThreshold` is never zero there. -/
theorem irisThreshold_bounds (iScale : Nat) (h : iScale ≤ 1023) :
    Int.tdiv (128 * (1023 - (iScale : Int)) + 512) 1024 = (irisThreshold iScale : Int) ∧
    irisThreshold iScale ≤ 128 ∧ irisThreshold 0 = 128 ∧
    (irisThreshold iScale = 0 ↔ 1020 ≤ iScale) ∧
    (IRIS_MIN ≤ iScale → iScale ≤ IRIS_MAX →
      38 ≤ irisThreshold iScale ∧ irisThreshold iScale ≤ 113 ∧ irisThreshold iScale ≠ 0) := by
  have heq := irisThreshold_eq iScale h
  refine ⟨?_, by omega, by decide, by omega, ?_⟩
  · rw [Int.tdiv_eq_ediv (by omega) (by omega), heq]
    omega
  · unfold IRIS_MIN IRIS_MAX
    intro h1 h2
    omega

/-- Witness for C7: the two ends of the configured iris range. -/
theorem irisThreshold_bounds_witness :
    (38 ≤ irisThreshold 720 ∧ irisThreshold 720 ≤ 113 ∧ irisThreshold 720 ≠ 0) ∧
    (38 ≤ irisThreshold 120 ∧ irisThreshold 120 ≤ 113 ∧ irisThreshold 120 ≠ 0) :=
  ⟨(irisThreshold_bounds 720 (by decide)).2.2.2.2 (by decide) (by decide),
   (irisThreshold_bounds 120 (by decide)).2.2.2.2 (by decide) (by decide)⟩



/-! ## Theorems: ease table -/

set_option maxRecDepth 100000 in
/-- C8: the ease table has exactly 256 entries, starts at 0, ends at 255 and
is monotonically non-decreasing: `ease[i] <= ease[i+1]` for every `i` in
`0..254`. -/
theorem ease_monotone :
    ease.length = 256 ∧ ease[0]? = some 0 ∧ ease[255]? = some 255 ∧
    ∀ i : Fin 255, ease.getD i.val 0 ≤ ease.getD (i.val + 1) 0 := by
  refine ⟨by decide, by decide, by decide, ?_⟩
  decide


/-! ## Theorems: frame -/

/-- Decomposition of a completed tick into the blocks of `frame`. -/
theorem frame_some {g : Graphics} {st st' : AnimState} {rands rands' : List Nat}
    {t iScale : Nat} {args : DrawArgs}
    (h : frame g st rands t iScale = some (st', rands', args)) :
    ∃ st1 rands1 eyeX eyeY st2,
      gazeStep (nextEye st) rands (t % 2 ^ 32) = some (st1, rands1, eyeX, eyeY) ∧
      blinkTrigger st1 rands1 (t % 2 ^ 32) = some (st2, rands') ∧
      st' = { blinkAdvance st2 (t % 2 ^ 32) with
        uThreshold := (trackLids g (blinkAdvance st2 (t % 2 ^ 32)).uThreshold
          (gazeToSclera g (blinkAdvance st2 (t % 2 ^ 32)).eyeIndex eyeX eyeY).1
          (gazeToSclera g (blinkAdvance st2 (t % 2 ^ 32)).eyeIndex eyeX eyeY).2).1 } ∧
      args.e = (blinkAdvance st2 (t % 2 ^ 32)).eyeIndex ∧ args.iScale = iScale % 65536 := by
  unfold frame at h
  generalize t % 2 ^ 32 = t' at h ⊢
  simp only [] at h
  cases hg : gazeStep (nextEye st) rands t' with
  | none => simp [hg] at h
  | some r1 =>
    obtain ⟨st1, rands1, eyeX, eyeY⟩ := r1
    simp only [hg] at h
    cases hb : blinkTrigger st1 rands1 t' with
    | none => simp [hb] at h
    | some r2 =>
      obtain ⟨st2, rands2⟩ := r2
      simp only [hb, Option.some.injEq, Prod.mk.injEq] at h
      obtain ⟨h1, h2, h3⟩ := h
      subst h2
      refine ⟨st1, rands1, eyeX, eyeY, st2, rfl, hb, h1.symm, ?_, ?_⟩
      · rw [← h3]
      · rw [← h3]


theorem circleTest_inDisk (rx ry : Nat)
    (h : ¬ wrapU 32 (wrapS16 (((rx % 1024 : Nat) : Int) * 2 - 1023) *
          wrapS16 (((rx % 1024 : Nat) : Int) * 2 - 1023) +
        wrapS16 (((ry % 1024 : Nat) : Int) * 2 - 1023) *
          wrapS16 (((ry % 1024 : Nat) : Int) * 2 - 1023)) > 1023 * 1023) :
    inDisk ((rx % 1024 : Nat) : Int) ((ry % 1024 : Nat) : Int) := by
  have hx0 : (0 : Int) ≤ ((rx % 1024 : Nat) : Int) := Int.ofNat_nonneg _
  have hy0 : (0 : Int) ≤ ((ry % 1024 : Nat) : Int) := Int.ofNat_nonneg _
  have hx1 : ((rx % 1024 : Nat) : Int) ≤ 1023 := by omega
  have hy1 : ((ry % 1024 : Nat) : Int) ≤ 1023 := by omega
  generalize ((rx % 1024 : Nat) : Int) = a at h hx0 hx1 ⊢
  generalize ((ry % 1024 : Nat) : Int) = b at h hy0 hy1 ⊢
  have ea : wrapS16 (a * 2 - 1023) = 2 * a - 1023 := by unfold wrapS16; omega
  have eb : wrapS16 (b * 2 - 1023) = 2 * b - 1023 := by unfold wrapS16; omega
  rw [ea, eb] at h
  have ha2 : 0 ≤ (2 * a - 1023) * (2 * a - 1023) := mul_self_nonneg _
  have hb2 : 0 ≤ (2 * b - 1023) * (2 * b - 1023) := mul_self_nonneg _
  have ha3 : (2 * a - 1023) * (2 * a - 1023) ≤ 1023 * 1023 := by nlinarith
  have hb3 : (2 * b - 1023) * (2 * b - 1023) ≤ 1023 * 1023 := by nlinarith
  refine ⟨hx0, hx1, hy0, hy1, ?_⟩
  rw [pow_two, pow_two]
  unfold wrapU at h
  norm_num at h
  omega

theorem pickTarget_inDisk :
    ∀ (rands : List Nat) (x y : Int) (rest : List Nat),
      pickTarget rands = some (x, y, rest) → inDisk x y := by
  intro rands
  induction rands using pickTarget.induct with
  | case1 rx ry rands nx ny dx dy d hd ih =>
    intro x y rest h
    rw [pickTarget] at h
    rw [if_pos hd] at h
    exact ih x y rest h
  | case2 rx ry rands nx ny dx dy d hd =>
    intro x y rest h
    rw [pickTarget] at h
    rw [if_neg hd] at h
    simp only [Option.some.injEq, Prod.mk.injEq] at h
    obtain ⟨h1, h2, _⟩ := h
    rw [← h1, ← h2]
    exact circleTest_inDisk rx ry hd
  | case3 rands hne =>
    intro x y rest h
    rw [pickTarget] at h
    · exact absurd h (by simp)
    · exact hne


/-- Invariant of the gaze statics: target and source both pass the circle test. -/
theorem gazeStep_inDisk {st st1 : AnimState} {rands rands1 : List Nat} {t : Nat}
    {eyeX eyeY : Int}
    (h : gazeStep st rands t = some (st1, rands1, eyeX, eyeY))
    (hn : inDisk st.eyeNewX st.eyeNewY) (ho : inDisk st.eyeOldX st.eyeOldY) :
    inDisk st1.eyeNewX st1.eyeNewY ∧ inDisk st1.eyeOldX st1.eyeOldY := by
  unfold gazeStep at h
  simp only [] at h
  split at h
  · split at h
    · split at h
      · exact absurd h (by simp)
      · simp only [Option.some.injEq, Prod.mk.injEq] at h
        obtain ⟨h1, -⟩ := h
        subst h1
        exact ⟨hn, hn⟩
    · split at h
      · exact absurd h (by simp)
      · split at h
        · exact absurd h (by simp)
        · simp only [Option.some.injEq, Prod.mk.injEq] at h
          obtain ⟨h1, -⟩ := h
          subst h1
          exact ⟨hn, ho⟩
  · split at h
    · split at h
      · exact absurd h (by simp)
      · rename_i nx ny rest hp
        split at h
        · exact absurd h (by simp)
        · simp only [Option.some.injEq, Prod.mk.injEq] at h
          obtain ⟨h1, -⟩ := h
          subst h1
          exact ⟨pickTarget_inDisk _ _ _ _ hp, ho⟩
    · simp only [Option.some.injEq, Prod.mk.injEq] at h
      obtain ⟨h1, -⟩ := h
      subst h1
      exact ⟨hn, ho⟩

theorem gazeStep_blink {st st1 : AnimState} {rands rands1 : List Nat} {t : Nat}
    {eyeX eyeY : Int}
    (h : gazeStep st rands t = some (st1, rands1, eyeX, eyeY)) :
    st1.blink = st.blink ∧ st1.eyeIndex = st.eyeIndex := by
  unfold gazeStep at h
  simp only [] at h
  split at h
  · split at h
    · split at h
      · exact absurd h (by simp)
      · simp only [Option.some.injEq, Prod.mk.injEq] at h
        obtain ⟨h1, -⟩ := h
        subst h1
        exact ⟨rfl, rfl⟩
    · split at h
      · exact absurd h (by simp)
      · split at h
        · exact absurd h (by simp)
        · simp only [Option.some.injEq, Prod.mk.injEq] at h
          obtain ⟨h1, -⟩ := h
          subst h1
          exact ⟨rfl, rfl⟩
  · split at h
    · split at h
      · exact absurd h (by simp)
      · split at h
        · exact absurd h (by simp)
        · simp only [Option.some.injEq, Prod.mk.injEq] at h
          obtain ⟨h1, -⟩ := h
          subst h1
          exact ⟨rfl, rfl⟩
    · simp only [Option.some.injEq, Prod.mk.injEq] at h
      obtain ⟨h1, -⟩ := h
      subst h1
      exact ⟨rfl, rfl⟩

theorem startBlink_fold (t d : Nat) (blink : Nat → EyeBlink) (e : Nat) :
    (List.range NUM_EYES).foldl (startBlink t d) blink e =
      if e < NUM_EYES ∧ (blink e).state = NOBLINK then
        { state := ENBLINK, duration := d, startTime := t }
      else blink e := by
  have hr : List.range NUM_EYES = [0, 1] := by decide
  rw [hr]
  simp only [List.foldl_cons, List.foldl_nil, NUM_EYES, startBlink]
  by_cases e0 : e = 0
  · subst e0
    split_ifs <;> simp_all [Function.update]
  · by_cases e1 : e = 1
    · subst e1
      split_ifs <;> simp_all [Function.update]
    · have h2 : ¬ e < 2 := by omega
      split_ifs <;> simp_all [Function.update]

theorem blinkTrigger_spec {st st2 : AnimState} {rands rands2 : List Nat} {t : Nat}
    (h : blinkTrigger st rands t = some (st2, rands2)) :
    st2.eyeIndex = st.eyeIndex ∧ st2.eyeNewX = st.eyeNewX ∧ st2.eyeNewY = st.eyeNewY ∧
    st2.eyeOldX = st.eyeOldX ∧ st2.eyeOldY = st.eyeOldY ∧
    ∀ e, st2.blink e = st.blink e ∨
      ((st.blink e).state = NOBLINK ∧ ∃ d, 36000 ≤ d ∧
        st2.blink e = { state := ENBLINK, duration := d, startTime := t }) := by
  unfold blinkTrigger at h
  split at h
  · split at h
    · rename_i r1 r2 rest
      simp only [Option.some.injEq, Prod.mk.injEq] at h
      obtain ⟨h1, -⟩ := h
      subst h1
      refine ⟨rfl, rfl, rfl, rfl, rfl, ?_⟩
      intro e
      simp only [startBlink_fold]
      by_cases hc : e < NUM_EYES ∧ (st.blink e).state = NOBLINK
      · right
        rw [if_pos hc]
        exact ⟨hc.2, _, by omega, rfl⟩
      · left
        rw [if_neg hc]
    · exact absurd h (by simp)
  · simp only [Option.some.injEq, Prod.mk.injEq] at h
    obtain ⟨h1, -⟩ := h
    subst h1
    exact ⟨rfl, rfl, rfl, rfl, rfl, fun e => Or.inl rfl⟩


theorem blinkAdvance_spec (st : AnimState) (t : Nat) :
    (blinkAdvance st t).eyeIndex = st.eyeIndex ∧
    (blinkAdvance st t).eyeNewX = st.eyeNewX ∧ (blinkAdvance st t).eyeNewY = st.eyeNewY ∧
    (blinkAdvance st t).eyeOldX = st.eyeOldX ∧ (blinkAdvance st t).eyeOldY = st.eyeOldY ∧
    ∀ e, (blinkAdvance st t).blink e = st.blink e ∨
      ((st.blink e).state ≠ 0 ∧
        wrapU 32 ((t : Int) - ((st.blink e).startTime : Int)) ≥ (st.blink e).duration ∧
        ((blinkAdvance st t).blink e).state =
          if ((st.blink e).state + 1) % 256 > DEBLINK then NOBLINK
          else ((st.blink e).state + 1) % 256) := by
  unfold blinkAdvance
  simp only []
  by_cases h0 : (st.blink st.eyeIndex).state ≠ 0
  · by_cases h1 : wrapU 32 ((t : Int) - ((st.blink st.eyeIndex).startTime : Int)) ≥
        (st.blink st.eyeIndex).duration
    · by_cases h2 : ((st.blink st.eyeIndex).state + 1) % 256 > DEBLINK
      · rw [if_pos h0, if_pos h1, if_pos h2]
        refine ⟨rfl, rfl, rfl, rfl, rfl, ?_⟩
        intro e
        by_cases he : e = st.eyeIndex
        · subst he
          right
          exact ⟨h0, h1, by simp [Function.update, h2]⟩
        · left
          simp [Function.update, he]
      · rw [if_pos h0, if_pos h1, if_neg h2]
        refine ⟨rfl, rfl, rfl, rfl, rfl, ?_⟩
        intro e
        by_cases he : e = st.eyeIndex
        · subst he
          right
          exact ⟨h0, h1, by simp [Function.update, h2]⟩
        · left
          simp [Function.update, he]
    · rw [if_pos h0, if_neg h1]
      exact ⟨rfl, rfl, rfl, rfl, rfl, fun e => Or.inl rfl⟩
  · rw [if_neg h0]
    exact ⟨rfl, rfl, rfl, rfl, rfl, fun e => Or.inl rfl⟩

/-- One tick moves the blink state of an eye along the cycle by at most one
step. -/
theorem frame_blink_step {g : Graphics} {st st' : AnimState} {rands rands' : List Nat}
    {t iScale : Nat} {args : DrawArgs}
    (h : frame g st rands t iScale = some (st', rands', args)) (e : Nat)
    (hs : (st.blink e).state ≤ DEBLINK) :
    (st'.blink e).state = (st.blink e).state ∨
      (st'.blink e).state = blinkSucc (st.blink e).state := by
  obtain ⟨st1, rands1, eyeX, eyeY, st2, hg, hb, hst', -, -⟩ := frame_some h
  have hg1 := (gazeStep_blink hg).1
  have hb6 := (blinkTrigger_spec hb).2.2.2.2.2 e
  have ha6 := (blinkAdvance_spec st2 (t % 2 ^ 32)).2.2.2.2.2 e
  have hfin : st'.blink e = (blinkAdvance st2 (t % 2 ^ 32)).blink e := by rw [hst']
  have h1 : st1.blink e = st.blink e := by rw [hg1]; rfl
  rw [hfin]
  unfold DEBLINK at hs ha6
  unfold blinkSucc NOBLINK ENBLINK DEBLINK
  unfold NOBLINK at hb6 ha6
  rcases hb6 with hsame | ⟨hidle, d, hd, hnew⟩
  · rw [h1] at hsame
    rcases ha6 with hkeep | ⟨hne, -, hadv⟩
    · left; rw [hkeep, hsame]
    · right
      rw [hsame] at hne hadv
      rw [hadv]
      split_ifs <;> omega
  · rw [h1] at hidle
    rcases ha6 with hkeep | ⟨-, hel, -⟩
    · right
      rw [hkeep, hnew, hidle]
      simp [ENBLINK]
    · rw [hnew] at hel
      simp only [sub_self] at hel
      have : wrapU 32 0 = 0 := by decide
      omega


theorem frame_inDisk {g : Graphics} {st st' : AnimState} {rands rands' : List Nat}
    {t iScale : Nat} {args : DrawArgs}
    (h : frame g st rands t iScale = some (st', rands', args))
    (hn : inDisk st.eyeNewX st.eyeNewY) (ho : inDisk st.eyeOldX st.eyeOldY) :
    inDisk st'.eyeNewX st'.eyeNewY ∧ inDisk st'.eyeOldX st'.eyeOldY := by
  obtain ⟨st1, rands1, eyeX, eyeY, st2, hg, hb, hst', -, -⟩ := frame_some h
  have h1 := gazeStep_inDisk hg hn ho
  obtain ⟨-, b1, b2, b3, b4, -⟩ := blinkTrigger_spec hb
  obtain ⟨-, a1, a2, a3, a4, -⟩ := blinkAdvance_spec st2 (t % 2 ^ 32)
  have e1 : st'.eyeNewX = st1.eyeNewX := by rw [hst']; exact a1.trans b1
  have e2 : st'.eyeNewY = st1.eyeNewY := by rw [hst']; exact a2.trans b2
  have e3 : st'.eyeOldX = st1.eyeOldX := by rw [hst']; exact a3.trans b3
  have e4 : st'.eyeOldY = st1.eyeOldY := by rw [hst']; exact a4.trans b4
  rw [e1, e2, e3, e4]
  exact h1

theorem inDisk_centre : inDisk 512 512 := by
  unfold inDisk; norm_num

theorem reachable_inDisk {g : Graphics} {st : AnimState} (h : Reachable g st) :
    inDisk st.eyeNewX st.eyeNewY ∧ inDisk st.eyeOldX st.eyeOldY := by
  induction h with
  | init => exact ⟨inDisk_centre, inDisk_centre⟩
  | tick _ hf ih => exact frame_inDisk hf ih.1 ih.2

theorem blinkSucc_le (s : Nat) : blinkSucc s ≤ DEBLINK := by
  unfold blinkSucc NOBLINK ENBLINK DEBLINK
  split_ifs <;> omega

theorem reachable_blink_state {g : Graphics} {st : AnimState} (h : Reachable g st) (e : Nat) :
    (st.blink e).state ≤ DEBLINK := by
  induction h with
  | init => exact Nat.zero_le _
  | tick _ hf ih =>
    rcases frame_blink_step hf e ih with h1 | h1
    · rw [h1]; exact ih
    · rw [h1]; exact blinkSucc_le _

theorem demoTick_isSome : demoTick.isSome = true := by decide

theorem demoState_reachable : Reachable demoGraphics demoState :=
  @Reachable.tick demoGraphics AnimState.init demoState [300, 700, 5, 1, 2] _ 10 420 _
    Reachable.init (Option.some_get demoTick_isSome).symm

/-- C9: in every state reachable from the initial gaze state by completed
ticks, the gaze target `(eyeNewX, eyeNewY)` and the gaze source
`(eyeOldX, eyeOldY)` lie in `0..1023` and satisfy
`(2*tx - 1023)^2 + (2*ty - 1023)^2 <= 1023^2`; every point on which the
rejection loop exits satisfies the same. -/
theorem gaze_within_disk (g : Graphics) (st : AnimState) (h : Reachable g st) :
    inDisk st.eyeNewX st.eyeNewY ∧ inDisk st.eyeOldX st.eyeOldY ∧
    ∀ (rands : List Nat) (x y : Int) (rest : List Nat),
      pickTarget rands = some (x, y, rest) → inDisk x y :=
  ⟨(reachable_inDisk h).1, (reachable_inDisk h).2, pickTarget_inDisk⟩

/-- Witness for C9: after `demoTick` the target is `(300, 700)` and the source
is still the centre. -/
theorem gaze_within_disk_witness :
    (demoState.eyeNewX = 300 ∧ demoState.eyeNewY = 700 ∧ demoState.eyeInMotion = true) ∧
    inDisk demoState.eyeNewX demoState.eyeNewY ∧ inDisk demoState.eyeOldX demoState.eyeOldY ∧
    inDisk 300 700 :=
  ⟨by decide, (gaze_within_disk demoGraphics demoState demoState_reachable).1,
    (gaze_within_disk demoGraphics demoState demoState_reachable).2.1,
    (gaze_within_disk demoGraphics demoState demoState_reachable).2.2 [300, 700] 300 700 []
      (by decide)⟩

/-- C10: for every eye and every completed tick from a reachable state, the
blink state after the tick is unchanged or the immediate successor in the
cycle NOBLINK -> ENBLINK -> DEBLINK -> NOBLINK; it is always one of these
three states, and an eye that was idle before the tick is not opening after
it. -/
theorem blink_cycle_step (g : Graphics) (st st' : AnimState) (rands rands' : List Nat)
    (t iScale : Nat) (args : DrawArgs) (e : Nat)
    (hr : Reachable g st) (h : frame g st rands t iScale = some (st', rands', args)) :
    (st.blink e).state ≤ DEBLINK ∧ (st'.blink e).state ≤ DEBLINK ∧
    ((st'.blink e).state = (st.blink e).state ∨
      (st'.blink e).state = blinkSucc (st.blink e).state) ∧
    ((st.blink e).state = NOBLINK → (st'.blink e).state ≠ DEBLINK) := by
  have h0 := reachable_blink_state hr e
  have h1 := reachable_blink_state (Reachable.tick hr h) e
  have h2 := frame_blink_step h e h0
  refine ⟨h0, h1, h2, ?_⟩
  intro hidle
  rw [hidle] at h2
  unfold blinkSucc NOBLINK ENBLINK DEBLINK at *
  simp at h2
  omega

/-- Witness for C10: in `demoTick` the autoblink trigger moves both eyes from
NOBLINK to ENBLINK. -/
theorem blink_cycle_step_witness :
    (AnimState.init.blink 0).state = NOBLINK ∧ (demoState.blink 0).state = ENBLINK ∧
    ((demoState.blink 0).state = (AnimState.init.blink 0).state ∨
      (demoState.blink 0).state = blinkSucc (AnimState.init.blink 0).state) :=
  ⟨by decide, by decide,
    (blink_cycle_step demoGraphics AnimState.init demoState [300, 700, 5, 1, 2] _ 10 420 _ 0
      Reachable.init (Option.some_get demoTick_isSome).symm).2.2.1⟩



/-! ## Theorems: split -/

theorem leafValue_bounds (startValue endValue dt duration : Int) :
    (IRIS_MIN : Int) ≤ leafValue startValue endValue dt duration ∧
      leafValue startValue endValue dt duration ≤ (IRIS_MAX : Int) := by
  unfold leafValue IRIS_MIN IRIS_MAX
  simp only []
  split_ifs <;> omega

theorem frame_iScale {g : Graphics} {st st' : AnimState} {rands rands' : List Nat}
    {t : Nat} {v : Int} {args : DrawArgs}
    (hv : (IRIS_MIN : Int) ≤ v ∧ v ≤ (IRIS_MAX : Int))
    (h : frame g st rands t (wrapU 16 v) = some (st', rands', args)) :
    (args.iScale : Int) = v := by
  obtain ⟨_, _, _, _, _, -, -, -, -, hi⟩ := frame_some h
  rw [hi]
  unfold IRIS_MIN IRIS_MAX at hv
  unfold wrapU
  norm_num
  omega

/-- Property of a recorded `frame(v)` call: `v` is within the configured iris
range and is the `iScale` that the frame hands to `drawEye`. -/
theorem splitLeaf_calls (g : Graphics) (startValue endValue : Int) (startTime : Nat)
    (duration : Int) :
    ∀ (n : Nat) (clock : List Nat) (anim : AnimState) (rands : List Nat),
      clock.length ≤ n →
      ∀ c ∈ (splitLeaf g startValue endValue startTime duration clock anim rands).1,
        (IRIS_MIN : Int) ≤ c.iScale ∧ c.iScale ≤ (IRIS_MAX : Int) ∧
          ∀ a, c.draw = some a → (a.iScale : Int) = c.iScale := by
  intro n
  induction n with
  | zero =>
    intro clock anim rands hlen c hc
    have hnil : clock = [] := List.length_eq_zero.mp (Nat.le_zero.mp hlen)
    subst hnil
    simp [splitLeaf] at hc
  | succ n ih =>
    intro clock anim rands hlen c hc
    match clock, hlen, hc with
    | [], _, hc => simp [splitLeaf] at hc
    | [c1], _, hc =>
      rw [splitLeaf] at hc
      have hb := leafValue_bounds startValue endValue
        (wrapS32 (((c1 % 2 ^ 32 : Nat) : Int) - (startTime : Int))) duration
      split at hc
      · split at hc
        · simp at hc
        · simp only [List.mem_singleton] at hc
          subst hc
          exact ⟨hb.1, hb.2, fun a ha => by simp at ha⟩
      · simp at hc
    | c1 :: c2 :: clock2, hlen, hc =>
      rw [splitLeaf] at hc
      have hb := leafValue_bounds startValue endValue
        (wrapS32 (((c1 % 2 ^ 32 : Nat) : Int) - (startTime : Int))) duration
      split at hc
      · split at hc
        · simp at hc
        · cases hfr : frame g anim rands c2 (wrapU 16 (leafValue startValue endValue
              (wrapS32 (((c1 % 2 ^ 32 : Nat) : Int) - (startTime : Int))) duration)) with
          | none =>
            simp only [hfr, List.mem_singleton] at hc
            subst hc
            exact ⟨hb.1, hb.2, fun a ha => by simp at ha⟩
          | some r =>
            obtain ⟨anim2, rands2, args⟩ := r
            simp only [hfr, List.mem_cons] at hc
            rcases hc with hc | hc
            · subst hc
              refine ⟨hb.1, hb.2, ?_⟩
              intro a ha
              simp only [Option.some.injEq] at ha
              subst ha
              exact frame_iScale hb hfr
            · exact ih clock2 anim2 rands2 (by simp at hlen; omega) c hc
      · simp at hc


theorem split_calls (g : Graphics) :
    ∀ (fuel : Nat) (startValue endValue : Int) (startTime : Nat) (duration range : Int)
      (w : World),
      ∀ c ∈ (split g fuel startValue endValue startTime duration range w).1,
        (IRIS_MIN : Int) ≤ c.iScale ∧ c.iScale ≤ (IRIS_MAX : Int) ∧
          ∀ a, c.draw = some a → (a.iScale : Int) = c.iScale := by
  intro fuel
  induction fuel with
  | zero =>
    intro startValue endValue startTime duration range w c hc
    simp [split] at hc
  | succ fuel ih =>
    intro startValue endValue startTime duration range w c hc
    rw [split] at hc
    split at hc
    · cases hr : w.rands with
      | nil => simp [hr] at hc
      | cons r rands =>
        simp only [hr] at hc
        split at hc
        · exact ih _ _ _ _ _ _ c hc
        · simp only [List.mem_append] at hc
          rcases hc with hc | hc
          · exact ih _ _ _ _ _ _ c hc
          · exact ih _ _ _ _ _ _ c hc
    · exact splitLeaf_calls g startValue endValue startTime duration _ w.clock w.anim w.rands
        (Nat.le_refl _) c hc

/-- C6: every iris value that `split` passes to `frame` satisfies
`IRIS_MIN <= v <= IRIS_MAX` and is the `iScale` that the frame passes on to
`drawEye`, for every start value, end value, start time, duration, range,
timer readings and random values; the random midpoints themselves may fall
outside the range (here `-30`). -/
theorem split_iris_clipped (g : Graphics) (fuel : Nat) (startValue endValue : Int)
    (startTime : Nat) (duration range : Int) (w : World) (c : FrameCall)
    (hc : c ∈ (split g fuel startValue endValue startTime duration range w).1) :
    ((IRIS_MIN : Int) ≤ c.iScale ∧ c.iScale ≤ (IRIS_MAX : Int) ∧
      (120 ≤ c.iScale ∧ c.iScale ≤ 720) ∧
      ∀ a, c.draw = some a → (a.iScale : Int) = c.iScale) ∧
    midValue 120 120 300 0 = -30 := by
  have h := split_calls g fuel startValue endValue startTime duration range w c hc
  refine ⟨⟨h.1, h.2.1, ?_, h.2.2⟩, by decide⟩
  have h1 := h.1
  have h2 := h.2.1
  unfold IRIS_MIN at h1
  unfold IRIS_MAX at h2
  omega

/-- Witness for C6: the first frame of `demoSplit` is called with the start
value 100 clipped to 120. -/
theorem split_iris_clipped_witness :
    demoSplit.1.head? = some demoCall ∧
    (IRIS_MIN : Int) ≤ demoCall.iScale ∧ demoCall.iScale ≤ (IRIS_MAX : Int) :=
  ⟨by decide,
    (split_iris_clipped demoGraphics 3 100 900 0 100 8
      ⟨AnimState.init, [3, 1, 2, 5, 6, 7, 8, 9, 10],
        [0, 0, 10, 11, 49, 50, 60, 60, 70, 70, 99, 100, 120]⟩
      demoCall (by decide)).1.1,
    (split_iris_clipped demoGraphics 3 100 900 0 100 8
      ⟨AnimState.init, [3, 1, 2, 5, 6, 7, 8, 9, 10],
        [0, 0, 10, 11, 49, 50, 60, 60, 70, 70, 99, 100, 120]⟩
      demoCall (by decide)).1.2.1⟩


/-! ## Theorems: SSD1351 colours -/

set_option maxRecDepth 100000 in
theorem mask_F8 (r : Nat) (h : r < 256) : (r &&& 0xF8) <<< 8 = 2 ^ 11 * (r >>> 3) :=
  (by decide : ∀ r : Fin 256, (r.val &&& 0xF8) <<< 8 = 2 ^ 11 * (r.val >>> 3)) ⟨r, h⟩

set_option maxRecDepth 100000 in
theorem mask_FC (g : Nat) (h : g < 256) : (g &&& 0xFC) <<< 3 = 2 ^ 5 * (g >>> 2) :=
  (by decide : ∀ g : Fin 256, (g.val &&& 0xFC) <<< 3 = 2 ^ 5 * (g.val >>> 2)) ⟨g, h⟩

theorem RGBto565_eq (r g b : Nat) (hr : r < 256) (hg : g < 256) (hb : b < 256) :
    RGBto565 r g b = (r >>> 3) * 2048 + (g >>> 2) * 32 + (b >>> 3) := by
  unfold RGBto565
  rw [mask_F8 r hr, mask_FC g hg]
  have h1 : g >>> 2 < 64 := by rw [Nat.shiftRight_eq_div_pow]; omega
  have h2 : b >>> 3 < 32 := by rw [Nat.shiftRight_eq_div_pow]; omega
  have h3 : 2 ^ 5 * (g >>> 2) < 2 ^ 11 := by omega
  rw [← Nat.mul_add_lt_is_or h3]
  have h4 : 2 ^ 11 * (r >>> 3) + 2 ^ 5 * (g >>> 2) = 2 ^ 5 * (64 * (r >>> 3) + (g >>> 2)) := by
    omega
  rw [h4, ← Nat.mul_add_lt_is_or h2]
  omega

/-- C15: for all 8-bit `r`, `g`, `b`, `Color565(r, g, b)` is the 16-bit value
`(r>>3)*2048 + (g>>2)*32 + (b>>3)`: bits 15-11 are `r >> 3`, bits 10-5 are
`g >> 2`, bits 4-0 are `b >> 3`; it agrees with the `RGBto565` macro and maps
pure red, green, blue and white to `TFT_RED`, `TFT_GREEN`, `TFT_BLUE`,
`TFT_WHITE`. -/
theorem Color565_layout (r g b : Nat) (hr : r < 256) (hg : g < 256) (hb : b < 256) :
    Color565 r g b = (r >>> 3) * 2048 + (g >>> 2) * 32 + (b >>> 3) ∧
    Color565 r g b < 65536 ∧
    Color565 r g b / 2048 = r >>> 3 ∧
    (Color565 r g b / 32) % 64 = g >>> 2 ∧
    Color565 r g b % 32 = b >>> 3 ∧
    Color565 r g b = RGBto565 r g b ∧
    Color565 255 0 0 = TFT_RED ∧ Color565 0 255 0 = TFT_GREEN ∧
    Color565 0 0 255 = TFT_BLUE ∧ Color565 255 255 255 = TFT_WHITE := by
  have hm := RGBto565_eq r g b hr hg hb
  have h0 : r >>> 3 < 32 := by rw [Nat.shiftRight_eq_div_pow]; omega
  have h1 : g >>> 2 < 64 := by rw [Nat.shiftRight_eq_div_pow]; omega
  have h2 : b >>> 3 < 32 := by rw [Nat.shiftRight_eq_div_pow]; omega
  have hc : Color565 r g b = RGBto565 r g b := by
    unfold Color565
    simp only [Nat.mod_eq_of_lt hr, Nat.mod_eq_of_lt hg, Nat.mod_eq_of_lt hb]
    unfold RGBto565 at hm ⊢
    rw [hm]
    omega
  rw [hc, hm]
  refine ⟨rfl, by omega, by omega, by omega, by omega, rfl, by decide, by decide, by decide,
    by decide⟩

/-- Witness for C15: an orange pixel. -/
theorem Color565_layout_witness : Color565 255 128 8 = 31 * 2048 + 32 * 32 + 1 :=
  (Color565_layout 255 128 8 (by decide) (by decide) (by decide)).1.trans (by decide)

/-! ## Theorems: SSD1351 drawing -/

/-- C16 (failing input): on the 128x128 display, `fillRect(-5, 0, 10, 1, c)`
and `drawFastHLine(-5, 0, 10, c)` pass the guard (`x >= _width` is false for a
negative `x`), set the address window with first column `(uint16_t)-5 = 65531`
(transmitted as the byte 251) and last column 4, and write 10 pixels;
`drawFastVLine(0, -5, 10, c)` does the same with the rows. The window is not
inside `0 <= x0 <= x1 < _width`, `0 <= y0 <= y1 < _height`. -/
theorem fillRect_negative_origin :
    fillRect oled (-5) 0 10 1 0xF800 =
      setAddrWindow oled 65531 0 4 0 ++ writePixels 0xF8 0 10 ∧
    drawFastHLine oled (-5) 0 10 0xF800 =
      setAddrWindow oled 65531 0 4 0 ++ writePixels 0xF8 0 10 ∧
    drawFastVLine oled 0 (-5) 10 0xF800 =
      setAddrWindow oled 0 65531 0 4 ++ writePixels 0xF8 0 10 ∧
    setAddrWindow oled 65531 0 4 0 =
      [SpiByte.command 0x15, SpiByte.data 251, SpiByte.data 4,
        SpiByte.command 0x75, SpiByte.data 0, SpiByte.data 0, SpiByte.command 0x5C] ∧
    ¬ ((65531 : Int) < oled._width) ∧ ¬ ((251 : Int) < oled._width) := by
  decide

/-! ## Theorems: iris map indices -/

theorem irisRow_lt (H T d : Nat) (hH0 : 1 ≤ H) (hd : d < T) :
    d * (H * 65536 / T) < H * 65536 := by
  have h2 : T * (H * 65536 / T) ≤ H * 65536 := Nat.mul_div_le _ _
  have h3 : (d + 1) * (H * 65536 / T) ≤ T * (H * 65536 / T) := Nat.mul_le_mul_right _ hd
  rw [Nat.add_mul, Nat.one_mul] at h3
  generalize H * 65536 / T = q at h2 h3 ⊢
  by_cases hq : q = 0
  · rw [hq]; omega
  · omega

/-- C18: for every `irisThreshold` `T` (in particular `1..128`), every distance `d < T` and
every 16-bit polar value `p`, with `IRIS_MAP_HEIGHT` in `1..128` and
`IRIS_MAP_WIDTH` in `1..512`: the row index `(d * irisScale) / 65536` is below
`IRIS_MAP_HEIGHT`, the column index `(IRIS_MAP_WIDTH * (p >> 7)) / 512` is below
`IRIS_MAP_WIDTH`, and no intermediate product leaves 32 bits (31 bits for the
signed ones), so the stored indices are the exact quotients. -/
theorem iris_lookup_in_range (g : Graphics) (T d p : Nat)
    (hH0 : 1 ≤ g.IRIS_MAP_HEIGHT) (hH : g.IRIS_MAP_HEIGHT ≤ 128)
    (hW0 : 1 ≤ g.IRIS_MAP_WIDTH) (hW : g.IRIS_MAP_WIDTH ≤ 512)
    (hd : d < T) (hp : p < 65536) :
    g.IRIS_MAP_HEIGHT * 65536 < 2 ^ 31 ∧
    irisScaleOf g T = g.IRIS_MAP_HEIGHT * 65536 / T ∧
    d * irisScaleOf g T < 2 ^ 32 ∧
    (d * irisScaleOf g T) % 2 ^ 32 / 65536 = (d * (g.IRIS_MAP_HEIGHT * 65536 / T)) / 65536 ∧
    (d * (g.IRIS_MAP_HEIGHT * 65536 / T)) / 65536 < g.IRIS_MAP_HEIGHT ∧
    g.IRIS_MAP_WIDTH * (p >>> 7) < 2 ^ 31 ∧
    ((g.IRIS_MAP_WIDTH * (p >>> 7)) / 512) % 65536 = (g.IRIS_MAP_WIDTH * (p >>> 7)) / 512 ∧
    (g.IRIS_MAP_WIDTH * (p >>> 7)) / 512 < g.IRIS_MAP_WIDTH := by
  have hrow := irisRow_lt g.IRIS_MAP_HEIGHT T d hH0 hd
  have hq : g.IRIS_MAP_HEIGHT * 65536 / T ≤ g.IRIS_MAP_HEIGHT * 65536 := Nat.div_le_self _ _
  have hs : irisScaleOf g T = g.IRIS_MAP_HEIGHT * 65536 / T := by
    unfold irisScaleOf
    exact Nat.mod_eq_of_lt (by omega)
  have hsh : p >>> 7 ≤ 511 := by
    rw [Nat.shiftRight_eq_div_pow]; omega
  have hcol : g.IRIS_MAP_WIDTH * (p >>> 7) ≤ g.IRIS_MAP_WIDTH * 511 :=
    Nat.mul_le_mul_left _ hsh
  refine ⟨by omega, hs, ?_, ?_, by omega, by omega, ?_, by omega⟩
  · rw [hs]; omega
  · rw [hs, Nat.mod_eq_of_lt (by omega)]
  · exact Nat.mod_eq_of_lt (by omega)

/-- Witness for C18: the 4x4 iris map of `demoGraphics` at threshold 64. -/
theorem iris_lookup_in_range_witness :
    (1 * (demoGraphics.IRIS_MAP_HEIGHT * 65536 / 64)) / 65536 < demoGraphics.IRIS_MAP_HEIGHT ∧
    (demoGraphics.IRIS_MAP_WIDTH * (65535 >>> 7)) / 512 < demoGraphics.IRIS_MAP_WIDTH :=
  ⟨(iris_lookup_in_range demoGraphics 64 1 65535 (by decide) (by decide) (by decide)
      (by decide) (by decide) (by decide)).2.2.2.2.1,
    (iris_lookup_in_range demoGraphics 64 1 65535 (by decide) (by decide) (by decide)
      (by decide) (by decide) (by decide)).2.2.2.2.2.2.2⟩

/-! ## Theorems: blocks of frame, exact forms -/

/-- Decomposition of a completed tick with the full `drawEye` arguments. -/
theorem frame_full {g : Graphics} {st st' : AnimState} {rands rands' : List Nat}
    {t iScale : Nat} {args : DrawArgs}
    (h : frame g st rands t iScale = some (st', rands', args)) :
    ∃ st1 rands1 eyeX eyeY st2,
      gazeStep (nextEye st) rands (t % 2 ^ 32) = some (st1, rands1, eyeX, eyeY) ∧
      blinkTrigger st1 rands1 (t % 2 ^ 32) = some (st2, rands') ∧
      st'.blink = (blinkAdvance st2 (t % 2 ^ 32)).blink ∧
      st'.eyeIndex = (blinkAdvance st2 (t % 2 ^ 32)).eyeIndex ∧
      st'.uThreshold = (trackLids g st2.uThreshold
          (gazeToSclera g st2.eyeIndex eyeX eyeY).1
          (gazeToSclera g st2.eyeIndex eyeX eyeY).2).1 ∧
      args.e = st2.eyeIndex ∧
      args.scleraX = wrapU 8 (gazeToSclera g st2.eyeIndex eyeX eyeY).1 ∧
      args.scleraY = wrapU 8 (gazeToSclera g st2.eyeIndex eyeX eyeY).2 ∧
      args.uT = (blinkBlend ((blinkAdvance st2 (t % 2 ^ 32)).blink st2.eyeIndex) (t % 2 ^ 32)
          (trackLids g st2.uThreshold (gazeToSclera g st2.eyeIndex eyeX eyeY).1
            (gazeToSclera g st2.eyeIndex eyeX eyeY).2).1
          (trackLids g st2.uThreshold (gazeToSclera g st2.eyeIndex eyeX eyeY).1
            (gazeToSclera g st2.eyeIndex eyeX eyeY).2).2).1 ∧
      args.lT = (blinkBlend ((blinkAdvance st2 (t % 2 ^ 32)).blink st2.eyeIndex) (t % 2 ^ 32)
          (trackLids g st2.uThreshold (gazeToSclera g st2.eyeIndex eyeX eyeY).1
            (gazeToSclera g st2.eyeIndex eyeX eyeY).2).1
          (trackLids g st2.uThreshold (gazeToSclera g st2.eyeIndex eyeX eyeY).1
            (gazeToSclera g st2.eyeIndex eyeX eyeY).2).2).2 := by
  have hidx : ∀ s : AnimState, ∀ u : Nat, (blinkAdvance s u).eyeIndex = s.eyeIndex :=
    fun s u => (blinkAdvance_spec s u).1
  have hu : ∀ s : AnimState, ∀ u : Nat, (blinkAdvance s u).uThreshold = s.uThreshold := by
    intro s u
    unfold blinkAdvance
    simp only []
    split_ifs <;> rfl
  unfold frame at h
  generalize t % 2 ^ 32 = t' at h ⊢
  simp only [] at h
  cases hg : gazeStep (nextEye st) rands t' with
  | none => simp [hg] at h
  | some r1 =>
    obtain ⟨st1, rands1, eyeX, eyeY⟩ := r1
    simp only [hg] at h
    cases hb : blinkTrigger st1 rands1 t' with
    | none => simp [hb] at h
    | some r2 =>
      obtain ⟨st2, rands2⟩ := r2
      simp only [hb, Option.some.injEq, Prod.mk.injEq] at h
      obtain ⟨h1, h2, h3⟩ := h
      subst h2
      refine ⟨st1, rands1, eyeX, eyeY, st2, rfl, hb, ?_, ?_, ?_, ?_, ?_, ?_, ?_, ?_⟩
      · rw [← h1]
      · rw [← h1]
      · rw [← h1]; simp only [hidx, hu]
      · rw [← h3]; simp only [hidx]
      · rw [← h3]; simp only [hidx]
      · rw [← h3]; simp only [hidx]
      · rw [← h3]; simp only [hidx, hu]
      · rw [← h3]; simp only [hidx, hu]

/-- The four ways in which the gaze block of `frame` completes: a move ends,
a move is interpolated, a move starts, or the gaze holds. -/
theorem gazeStep_cases {st st1 : AnimState} {rands rands1 : List Nat} {t : Nat}
    {eyeX eyeY : Int}
    (h : gazeStep st rands t = some (st1, rands1, eyeX, eyeY)) :
    (st.eyeInMotion = true ∧
      wrapS32 ((t : Int) - (st.eyeMoveStartTime : Int)) ≥ st.eyeMoveDuration ∧
      ∃ r, rands = r :: rands1 ∧
        st1 = { st with
                eyeInMotion := false
                eyeMoveDuration := ((r % 3000000 : Nat) : Int)
                eyeMoveStartTime := t
                eyeOldX := st.eyeNewX
                eyeOldY := st.eyeNewY } ∧
        eyeX = st.eyeNewX ∧ eyeY = st.eyeNewY) ∨
    (st.eyeInMotion = true ∧
      wrapS32 ((t : Int) - (st.eyeMoveStartTime : Int)) < st.eyeMoveDuration ∧
      st.eyeMoveDuration ≠ 0 ∧ st1 = st ∧ rands1 = rands ∧
      ∃ v, easeAt (Int.tdiv (wrapS32 (255 * wrapS32 ((t : Int) - (st.eyeMoveStartTime : Int))))
            st.eyeMoveDuration) = some v ∧
        eyeX = wrapS16 (st.eyeOldX +
          Int.tdiv ((st.eyeNewX - st.eyeOldX) * wrapS16 ((v : Int) + 1)) 256) ∧
        eyeY = wrapS16 (st.eyeOldY +
          Int.tdiv ((st.eyeNewY - st.eyeOldY) * wrapS16 ((v : Int) + 1)) 256)) ∨
    (st.eyeInMotion = false ∧
      wrapS32 ((t : Int) - (st.eyeMoveStartTime : Int)) > st.eyeMoveDuration ∧
      ∃ nx ny r, pickTarget rands = some (nx, ny, r :: rands1) ∧
        st1 = { st with
                eyeNewX := nx
                eyeNewY := ny
                eyeMoveDuration := ((r % (144000 - 72000) + 72000 : Nat) : Int)
                eyeMoveStartTime := t
                eyeInMotion := true } ∧
        eyeX = st.eyeOldX ∧ eyeY = st.eyeOldY) ∨
    (st.eyeInMotion = false ∧
      ¬ wrapS32 ((t : Int) - (st.eyeMoveStartTime : Int)) > st.eyeMoveDuration ∧
      st1 = st ∧ rands1 = rands ∧ eyeX = st.eyeOldX ∧ eyeY = st.eyeOldY) := by
  unfold gazeStep at h
  simp only [] at h
  by_cases hm : st.eyeInMotion = true
  · rw [if_pos hm] at h
    by_cases hd : wrapS32 ((t : Int) - (st.eyeMoveStartTime : Int)) ≥ st.eyeMoveDuration
    · rw [if_pos hd] at h
      cases rands with
      | nil => simp at h
      | cons r rest =>
        simp only [Option.some.injEq, Prod.mk.injEq] at h
        obtain ⟨h1, h2, h3, h4⟩ := h
        left
        exact ⟨hm, hd, r, by rw [h2], h1.symm, h3.symm, h4.symm⟩
    · rw [if_neg hd] at h
      by_cases hz : st.eyeMoveDuration = 0
      · rw [if_pos hz] at h
        simp at h
      · rw [if_neg hz] at h
        cases he : easeAt (Int.tdiv (wrapS32 (255 * wrapS32 ((t : Int) -
            (st.eyeMoveStartTime : Int)))) st.eyeMoveDuration) with
        | none => simp [he] at h
        | some v =>
          simp only [he, Option.some.injEq, Prod.mk.injEq] at h
          obtain ⟨h1, h2, h3, h4⟩ := h
          right; left
          exact ⟨hm, not_le.mp hd, hz, h1.symm, h2.symm, v, rfl, h3.symm, h4.symm⟩
  · rw [if_neg hm] at h
    have hm' : st.eyeInMotion = false := by
      cases hv : st.eyeInMotion
      · rfl
      · exact absurd hv hm
    by_cases hd : wrapS32 ((t : Int) - (st.eyeMoveStartTime : Int)) > st.eyeMoveDuration
    · rw [if_pos hd] at h
      cases hp : pickTarget rands with
      | none => simp [hp] at h
      | some r3 =>
        obtain ⟨nx, ny, rest⟩ := r3
        simp only [hp] at h
        cases rest with
        | nil => simp at h
        | cons r rest2 =>
          simp only [Option.some.injEq, Prod.mk.injEq] at h
          obtain ⟨h1, h2, h3, h4⟩ := h
          right; right; left
          exact ⟨hm', hd, nx, ny, r, by rw [h2], h1.symm, h3.symm, h4.symm⟩
    · rw [if_neg hd] at h
      simp only [Option.some.injEq, Prod.mk.injEq] at h
      obtain ⟨h1, h2, h3, h4⟩ := h
      right; right; right
      exact ⟨hm', hd, h1.symm, h2.symm, h3.symm, h4.symm⟩

/-- The two ways in which the autoblink block of `frame` completes. -/
theorem blinkTrigger_cases {st st2 : AnimState} {rands rands2 : List Nat} {t : Nat}
    (h : blinkTrigger st rands t = some (st2, rands2)) :
    (wrapU 32 ((t : Int) - (st.timeOfLastBlink : Int)) ≥ st.timeToNextBlink ∧
      ∃ r1 r2, rands = r1 :: r2 :: rands2 ∧
        st2 = { st with
                timeOfLastBlink := t
                blink := (List.range NUM_EYES).foldl
                  (startBlink t (r1 % (72000 - 36000) + 36000)) st.blink
                timeToNextBlink :=
                  ((r1 % (72000 - 36000) + 36000) * 3 + r2 % 4000000) % 2 ^ 32 }) ∨
    (¬ wrapU 32 ((t : Int) - (st.timeOfLastBlink : Int)) ≥ st.timeToNextBlink ∧
      st2 = st ∧ rands2 = rands) := by
  unfold blinkTrigger at h
  by_cases hf : wrapU 32 ((t : Int) - (st.timeOfLastBlink : Int)) ≥ st.timeToNextBlink
  · rw [if_pos hf] at h
    match rands, h with
    | r1 :: r2 :: rest, h =>
      simp only [Option.some.injEq, Prod.mk.injEq] at h
      obtain ⟨h1, h2⟩ := h
      left
      exact ⟨hf, r1, r2, by rw [h2], h1.symm⟩
    | [_], h => simp at h
    | [], h => simp at h
  · rw [if_neg hf] at h
    simp only [Option.some.injEq, Prod.mk.injEq] at h
    right
    exact ⟨hf, h.1.symm, h.2.symm⟩

theorem gazeStep_keeps {st st1 : AnimState} {rands rands1 : List Nat} {t : Nat}
    {eyeX eyeY : Int}
    (h : gazeStep st rands t = some (st1, rands1, eyeX, eyeY)) :
    st1.blink = st.blink ∧ st1.eyeIndex = st.eyeIndex ∧ st1.uThreshold = st.uThreshold ∧
    st1.timeOfLastBlink = st.timeOfLastBlink ∧ st1.timeToNextBlink = st.timeToNextBlink ∧
    st1.frames = st.frames := by
  rcases gazeStep_cases h with ⟨-, -, r, -, h1, -, -⟩ | ⟨-, -, -, h1, -, -⟩ |
    ⟨-, -, nx, ny, r, -, h1, -, -⟩ | ⟨-, -, h1, -, -, -⟩ <;>
  · subst h1
    exact ⟨rfl, rfl, rfl, rfl, rfl, rfl⟩

theorem blinkTrigger_keeps {st st2 : AnimState} {rands rands2 : List Nat} {t : Nat}
    (h : blinkTrigger st rands t = some (st2, rands2)) :
    st2.eyeIndex = st.eyeIndex ∧ st2.uThreshold = st.uThreshold ∧
    st2.eyeInMotion = st.eyeInMotion ∧ st2.eyeMoveDuration = st.eyeMoveDuration ∧
    st2.eyeMoveStartTime = st.eyeMoveStartTime ∧ st2.frames = st.frames := by
  rcases blinkTrigger_cases h with ⟨-, r1, r2, -, h1⟩ | ⟨-, h1, -⟩ <;>
  · subst h1
    exact ⟨rfl, rfl, rfl, rfl, rfl, rfl⟩

theorem blinkAdvance_keeps (st : AnimState) (t : Nat) :
    (blinkAdvance st t).eyeIndex = st.eyeIndex ∧
    (blinkAdvance st t).uThreshold = st.uThreshold ∧
    (blinkAdvance st t).eyeInMotion = st.eyeInMotion ∧
    (blinkAdvance st t).eyeMoveDuration = st.eyeMoveDuration ∧
    (blinkAdvance st t).eyeMoveStartTime = st.eyeMoveStartTime ∧
    (blinkAdvance st t).frames = st.frames ∧
    (blinkAdvance st t).timeOfLastBlink = st.timeOfLastBlink ∧
    (blinkAdvance st t).timeToNextBlink = st.timeToNextBlink := by
  unfold blinkAdvance
  simp only []
  split_ifs <;> exact ⟨rfl, rfl, rfl, rfl, rfl, rfl, rfl, rfl⟩

/-- Blink record of eye `e` after the blink-advance block. -/
theorem blinkAdvance_blink (st : AnimState) (t e : Nat) :
    (blinkAdvance st t).blink e =
      if e = st.eyeIndex ∧ (st.blink e).state ≠ 0 ∧
          wrapU 32 ((t : Int) - ((st.blink e).startTime : Int)) ≥ (st.blink e).duration then
        if ((st.blink e).state + 1) % 256 > DEBLINK then
          { state := NOBLINK, duration := (st.blink e).duration,
            startTime := (st.blink e).startTime }
        else
          { state := ((st.blink e).state + 1) % 256,
            duration := ((st.blink e).duration * 2) % 2 ^ 32, startTime := t }
      else st.blink e := by
  unfold blinkAdvance
  simp only []
  by_cases he : e = st.eyeIndex
  · subst he
    by_cases h0 : (st.blink st.eyeIndex).state ≠ 0
    · by_cases h1 : wrapU 32 ((t : Int) - ((st.blink st.eyeIndex).startTime : Int)) ≥
          (st.blink st.eyeIndex).duration
      · by_cases h2 : ((st.blink st.eyeIndex).state + 1) % 256 > DEBLINK
        · rw [if_pos h0, if_pos h1, if_pos h2, if_pos ⟨rfl, h0, h1⟩, if_pos h2]
          simp [Function.update]
        · rw [if_pos h0, if_pos h1, if_neg h2, if_pos ⟨rfl, h0, h1⟩, if_neg h2]
          simp [Function.update]
      · rw [if_pos h0, if_neg h1, if_neg (fun hc => h1 hc.2.2)]
    · rw [if_neg h0, if_neg (fun hc => h0 hc.2.1)]
  · have hc : ¬ (e = st.eyeIndex ∧ (st.blink e).state ≠ 0 ∧
        wrapU 32 ((t : Int) - ((st.blink e).startTime : Int)) ≥ (st.blink e).duration) :=
      fun hc => he hc.1
    simp only [hc, if_false]
    split_ifs <;> simp [Function.update, he]

/-- Blink record after a tick of an eye that was not idle before it: the
autoblink trigger leaves it alone, and it advances exactly when it is the eye
being rendered and its duration has elapsed. -/
theorem frame_blink_busy {g : Graphics} {st st' : AnimState} {rands rands' : List Nat}
    {t iScale : Nat} {args : DrawArgs}
    (h : frame g st rands t iScale = some (st', rands', args)) (e : Nat)
    (hb : (st.blink e).state ≠ NOBLINK) :
    st'.blink e =
      if e = (nextEye st).eyeIndex ∧
          wrapU 32 (((t % 2 ^ 32 : Nat) : Int) - ((st.blink e).startTime : Int)) ≥
            (st.blink e).duration then
        if ((st.blink e).state + 1) % 256 > DEBLINK then
          { state := NOBLINK, duration := (st.blink e).duration,
            startTime := (st.blink e).startTime }
        else
          { state := ((st.blink e).state + 1) % 256,
            duration := ((st.blink e).duration * 2) % 2 ^ 32, startTime := t % 2 ^ 32 }
      else st.blink e := by
  obtain ⟨st1, rands1, eyeX, eyeY, st2, hg, htr, hbl, -⟩ := frame_full h
  have hk := gazeStep_keeps hg
  have hk2 := blinkTrigger_keeps htr
  have h1 : st1.blink e = st.blink e := by rw [hk.1]; rfl
  have h2 : st2.blink e = st.blink e := by
    rcases (blinkTrigger_spec htr).2.2.2.2.2 e with hs | ⟨hidle, -⟩
    · rw [hs, h1]
    · rw [h1] at hidle; exact absurd hidle hb
  have hidx : st2.eyeIndex = (nextEye st).eyeIndex := by rw [hk2.1, hk.2.1]
  rw [hbl, blinkAdvance_blink, h2, hidx]
  unfold NOBLINK at hb
  by_cases hc : e = (nextEye st).eyeIndex ∧
      wrapU 32 (((t % 2 ^ 32 : Nat) : Int) - ((st.blink e).startTime : Int)) ≥
        (st.blink e).duration
  · rw [if_pos ⟨hc.1, hb, hc.2⟩, if_pos hc]
  · rw [if_neg (fun hx => hc ⟨hx.1, hx.2.2⟩), if_neg hc]

/-- Blink record after a tick of an eye that was idle before it: it starts
closing exactly when the autoblink trigger fires in that tick (and the eye is
one of the `NUM_EYES` eyes), with a duration in `[36000, 72000)` and the tick
time as start time. -/
theorem frame_blink_idle {g : Graphics} {st st' : AnimState} {rands rands' : List Nat}
    {t iScale : Nat} {args : DrawArgs}
    (h : frame g st rands t iScale = some (st', rands', args)) (e : Nat)
    (hi : (st.blink e).state = NOBLINK) :
    (wrapU 32 (((t % 2 ^ 32 : Nat) : Int) - (st.timeOfLastBlink : Int)) ≥ st.timeToNextBlink →
      e < NUM_EYES →
      ∃ d, 36000 ≤ d ∧ d < 72000 ∧
        st'.blink e = { state := ENBLINK, duration := d, startTime := t % 2 ^ 32 }) ∧
    (¬ (wrapU 32 (((t % 2 ^ 32 : Nat) : Int) - (st.timeOfLastBlink : Int)) ≥
          st.timeToNextBlink ∧ e < NUM_EYES) →
      st'.blink e = st.blink e) := by
  obtain ⟨st1, rands1, eyeX, eyeY, st2, hg, htr, hbl, -⟩ := frame_full h
  have hk := gazeStep_keeps hg
  have h1 : st1.blink e = st.blink e := by rw [hk.1]; rfl
  have hl : st1.timeOfLastBlink = st.timeOfLastBlink := by rw [hk.2.2.2.1]; rfl
  have hn : st1.timeToNextBlink = st.timeToNextBlink := by rw [hk.2.2.2.2.1]; rfl
  rw [hbl, blinkAdvance_blink]
  rcases blinkTrigger_cases htr with ⟨hf, r1, r2, -, hst2⟩ | ⟨hf, hst2, -⟩
  · rw [hl, hn] at hf
    have hbe : st2.blink e =
        if e < NUM_EYES ∧ (st.blink e).state = NOBLINK then
          { state := ENBLINK, duration := r1 % (72000 - 36000) + 36000,
            startTime := t % 2 ^ 32 }
        else st.blink e := by
      rw [hst2]
      simp only [startBlink_fold, h1]
    constructor
    · intro _ he
      rw [if_pos ⟨he, hi⟩] at hbe
      refine ⟨r1 % (72000 - 36000) + 36000, by omega, by omega, ?_⟩
      rw [hbe]
      have hw : wrapU 32 (((t % 2 ^ 32 : Nat) : Int) - ((t % 2 ^ 32 : Nat) : Int)) = 0 := by
        rw [sub_self]; decide
      simp only [hw]
      rw [if_neg (by omega)]
    · intro hnot
      have he : ¬ e < NUM_EYES := fun he => hnot ⟨hf, he⟩
      rw [if_neg (fun hx => he hx.1)] at hbe
      rw [hbe, if_neg (fun hx => hx.2.1 hi)]
  · rw [hl, hn] at hf
    constructor
    · intro hf'
      exact absurd hf' hf
    · intro _
      rw [hst2, h1, if_neg (fun hx => hx.2.1 hi)]

/-! ## Theorems: blink cycle -/

/-- What one tick does to the blink record of a closing, an opening and an
idle eye, given the range of a closing duration. -/
theorem frame_blink_cycle {g : Graphics} {st st' : AnimState} {rands rands' : List Nat}
    {t iScale : Nat} {args : DrawArgs}
    (h : frame g st rands t iScale = some (st', rands', args)) (e : Nat) :
    ((st.blink e).state = ENBLINK → (st.blink e).duration < 72000 →
      st'.blink e = st.blink e ∨
      st'.blink e = { state := DEBLINK, duration := 2 * (st.blink e).duration,
                      startTime := t % 2 ^ 32 }) ∧
    ((st.blink e).state = DEBLINK →
      st'.blink e = st.blink e ∨
      st'.blink e = { state := NOBLINK, duration := (st.blink e).duration,
                      startTime := (st.blink e).startTime }) ∧
    ((st.blink e).state = NOBLINK →
      st'.blink e = st.blink e ∨
      ∃ d, 36000 ≤ d ∧ d < 72000 ∧
        st'.blink e = { state := ENBLINK, duration := d, startTime := t % 2 ^ 32 }) := by
  refine ⟨?_, ?_, ?_⟩
  · intro hs hd
    have hb := frame_blink_busy h e (by rw [hs]; decide)
    rw [hb, hs]
    split_ifs with hc h2
    · exact absurd h2 (by decide)
    · right
      have : (st.blink e).duration * 2 % 2 ^ 32 = 2 * (st.blink e).duration := by omega
      rw [this]
      rfl
    · left; rfl
  · intro hs
    have hb := frame_blink_busy h e (by rw [hs]; decide)
    rw [hb, hs]
    split_ifs with hc h2
    · right; rfl
    · exact absurd h2 (by decide)
    · left; rfl
  · intro hs
    have hi := frame_blink_idle h e hs
    by_cases hc : wrapU 32 (((t % 2 ^ 32 : Nat) : Int) - (st.timeOfLastBlink : Int)) ≥
        st.timeToNextBlink ∧ e < NUM_EYES
    · right
      exact hi.1 hc.1 hc.2
    · left
      exact hi.2 hc

theorem reachable_blink_duration {g : Graphics} {st : AnimState} (h : Reachable g st)
    (e : Nat) :
    ((st.blink e).state = ENBLINK →
      36000 ≤ (st.blink e).duration ∧ (st.blink e).duration < 72000) ∧
    ((st.blink e).state = DEBLINK →
      72000 ≤ (st.blink e).duration ∧ (st.blink e).duration < 144000) := by
  have n01 : NOBLINK ≠ ENBLINK := by decide
  have n02 : NOBLINK ≠ DEBLINK := by decide
  have n12 : ENBLINK ≠ DEBLINK := by decide
  have n21 : DEBLINK ≠ ENBLINK := by decide
  induction h with
  | init => exact ⟨fun hs => absurd hs n01, fun hs => absurd hs n02⟩
  | @tick st st' rands rands' t iScale args hr hf ih =>
    have hle := reachable_blink_state hr e
    have hc := frame_blink_cycle hf e
    have hcases : (st.blink e).state = NOBLINK ∨ (st.blink e).state = ENBLINK ∨
        (st.blink e).state = DEBLINK := by
      unfold NOBLINK ENBLINK DEBLINK at *
      omega
    rcases hcases with hs | hs | hs
    · rcases hc.2.2 hs with hk | ⟨d, hd1, hd2, hk⟩
      · rw [hk, hs]
        exact ⟨fun hx => absurd hx n01, fun hx => absurd hx n02⟩
      · rw [hk]
        exact ⟨fun _ => ⟨hd1, hd2⟩, fun hx => absurd hx n12⟩
    · rcases hc.1 hs (ih.1 hs).2 with hk | hk
      · rw [hk]; exact ih
      · rw [hk]
        have h36 := ih.1 hs
        refine ⟨fun hx => absurd hx n21, fun _ => ?_⟩
        show 72000 ≤ 2 * (st.blink e).duration ∧ 2 * (st.blink e).duration < 144000
        omega
    · rcases hc.2.1 hs with hk | hk
      · rw [hk]; exact ih
      · rw [hk]
        exact ⟨fun hx => absurd hx n01, fun hx => absurd hx n02⟩

set_option maxRecDepth 100000 in
theorem demoTick2_isSome : demoTick2.isSome = true := by decide

set_option maxRecDepth 100000 in
theorem demoTick2_eq :
    frame demoGraphics demoState [] 40000 420 =
      some (demoState2, (demoTick2.get demoTick2_isSome).2.1,
        (demoTick2.get demoTick2_isSome).2.2) :=
  (Option.some_get demoTick2_isSome).symm

/-- C11: in every tick from a reachable state, a closing eye has a duration in
`[36000, 72000)` and either keeps its blink record (duration and start time
unchanged) or becomes opening with exactly twice that duration (no 32-bit
wrap) and the tick time as start time; an opening eye has a duration in
`[72000, 144000)` and keeps its record until it becomes idle. -/
theorem blink_opening_duration (g : Graphics) (st st' : AnimState) (rands rands' : List Nat)
    (t iScale : Nat) (args : DrawArgs) (e : Nat)
    (hr : Reachable g st) (h : frame g st rands t iScale = some (st', rands', args)) :
    ((st.blink e).state = ENBLINK →
      (36000 ≤ (st.blink e).duration ∧ (st.blink e).duration < 72000) ∧
      2 * (st.blink e).duration < 2 ^ 32 ∧
      (st'.blink e = st.blink e ∨
        st'.blink e = { state := DEBLINK, duration := 2 * (st.blink e).duration,
                        startTime := t % 2 ^ 32 })) ∧
    ((st.blink e).state = DEBLINK →
      (72000 ≤ (st.blink e).duration ∧ (st.blink e).duration < 144000) ∧
      (st'.blink e = st.blink e ∨ (st'.blink e).state = NOBLINK)) := by
  have hd := reachable_blink_duration hr e
  have hc := frame_blink_cycle h e
  constructor
  · intro hs
    have h1 := hd.1 hs
    exact ⟨h1, by omega, hc.1 hs h1.2⟩
  · intro hs
    refine ⟨hd.2 hs, ?_⟩
    rcases hc.2.1 hs with hk | hk
    · left; exact hk
    · right; rw [hk]

set_option maxRecDepth 100000 in
/-- Witness for C11: eye 0 closes at `t = 10` for 36001 us and is opening
after its tick at `t = 40000`, for 72002 us from `t = 40000`. -/
theorem blink_opening_duration_witness :
    demoState.blink 0 = { state := ENBLINK, duration := 36001, startTime := 10 } ∧
    demoState2.blink 0 = { state := DEBLINK, duration := 72002, startTime := 40000 } ∧
    (demoState2.blink 0 = demoState.blink 0 ∨
      demoState2.blink 0 = { state := DEBLINK, duration := 2 * (demoState.blink 0).duration,
                             startTime := 40000 % 2 ^ 32 }) :=
  ⟨by decide, by decide,
    ((blink_opening_duration demoGraphics demoState demoState2 [] _ 40000 420 _ 0
      demoState_reachable demoTick2_eq).1 (by decide)).2.2⟩

/-! ## Theorems: round-robin rendering -/

theorem frame_eyeIndex {g : Graphics} {st st' : AnimState} {rands rands' : List Nat}
    {t iScale : Nat} {args : DrawArgs}
    (h : frame g st rands t iScale = some (st', rands', args)) :
    st'.eyeIndex = (nextEye st).eyeIndex ∧ args.e = (nextEye st).eyeIndex := by
  obtain ⟨st1, rands1, eyeX, eyeY, st2, hg, htr, -, hidx, -, he, -⟩ := frame_full h
  have h1 := (gazeStep_keeps hg).2.1
  have h2 := (blinkTrigger_keeps htr).1
  have h3 := (blinkAdvance_keeps st2 (t % 2 ^ 32)).1
  exact ⟨by rw [hidx, h3, h2, h1], by rw [he, h2, h1]⟩

theorem nextEye_eyeIndex (st : AnimState) (n : Nat) (h : st.eyeIndex = n % NUM_EYES) :
    (nextEye st).eyeIndex = (n + 1) % NUM_EYES := by
  unfold NUM_EYES at *
  show (if (st.eyeIndex + 1) % 256 ≥ 2 then 0 else (st.eyeIndex + 1) % 256) = (n + 1) % 2
  rw [h]
  split_ifs <;> omega

theorem reachableIn_eyeIndex {g : Graphics} {n : Nat} {st : AnimState}
    (h : ReachableIn g n st) : st.eyeIndex = n % NUM_EYES := by
  induction h with
  | init => rfl
  | tick _ hf ih => rw [(frame_eyeIndex hf).1]; exact nextEye_eyeIndex _ _ ih

/-- C13: a tick makes one `drawEye` call, for the eye `args.e`; the `(n+1)`-th
tick after `setup()` renders eye `(n+1) mod NUM_EYES` (eye 1 first), a
different eye than the tick before and the tick after it, so that two
consecutive ticks render both eyes; and an eye that is closing or opening and
is not the one rendered keeps its blink record in that tick. -/
theorem eyes_round_robin (g : Graphics) (n : Nat) (st st' st'' : AnimState)
    (rands rands' rands2 rands2' : List Nat) (t iScale t2 iScale2 : Nat)
    (args args2 : DrawArgs)
    (hr : ReachableIn g n st)
    (h : frame g st rands t iScale = some (st', rands', args))
    (h2 : frame g st' rands2 t2 iScale2 = some (st'', rands2', args2)) :
    st.eyeIndex = n % NUM_EYES ∧
    args.e = (n + 1) % NUM_EYES ∧ st'.eyeIndex = args.e ∧
    args2.e = (n + 2) % NUM_EYES ∧
    args.e ≠ st.eyeIndex ∧ args2.e ≠ args.e ∧
    (∀ e, e < NUM_EYES → (e = args.e ∨ e = args2.e) ∧ ¬ (e = args.e ∧ e = args2.e)) ∧
    (∀ e, e ≠ args.e → (st.blink e).state ≠ NOBLINK → st'.blink e = st.blink e) := by
  have h0 := reachableIn_eyeIndex hr
  have h1 := frame_eyeIndex h
  have hn1 := nextEye_eyeIndex st n h0
  have h3 := frame_eyeIndex h2
  have hn2 := nextEye_eyeIndex st' (n + 1) (by rw [h1.1, hn1])
  have e1 : args.e = (n + 1) % NUM_EYES := by rw [h1.2, hn1]
  have e2 : args2.e = (n + 2) % NUM_EYES := by rw [h3.2, hn2]
  refine ⟨h0, e1, by rw [h1.1, h1.2], e2, ?_, ?_, ?_, ?_⟩
  · rw [e1, h0]; unfold NUM_EYES; omega
  · rw [e1, e2]; unfold NUM_EYES; omega
  · intro e he
    rw [e1, e2]
    unfold NUM_EYES at *
    omega
  · intro e he hb
    rw [frame_blink_busy h e hb, ← h1.2, if_neg (fun hc => he hc.1)]

set_option maxRecDepth 100000 in
/-- Witness for C13: the first tick renders eye 1, the second eye 0, and the
closing eye 0 keeps its blink record in the first. -/
theorem eyes_round_robin_witness :
    (demoTick.get demoTick_isSome).2.2.e = 1 ∧ (demoTick2.get demoTick2_isSome).2.2.e = 0 :=
  ⟨(eyes_round_robin demoGraphics 0 AnimState.init demoState demoState2
      [300, 700, 5, 1, 2] _ [] _ 10 420 40000 420 _ _ ReachableIn.init
      (Option.some_get demoTick_isSome).symm demoTick2_eq).2.1,
    (eyes_round_robin demoGraphics 0 AnimState.init demoState demoState2
      [300, 700, 5, 1, 2] _ [] _ 10 420 40000 420 _ _ ReachableIn.init
      (Option.some_get demoTick_isSome).symm demoTick2_eq).2.2.2.1⟩

/-! ## Theorems: blink scenario -/

set_option maxRecDepth 1000000 in
theorem scenTick0_eq :
    ∃ rands' args, frame demoGraphics AnimState.init [14000, 7] 0 420 =
      some (tickState scenTick0, rands', args) :=
  ⟨_, _, (Option.some_get (by decide : scenTick0.isSome = true)).symm⟩

set_option maxRecDepth 1000000 in
theorem scenTick1_eq :
    ∃ rands' args, frame demoGraphics (tickState scenTick0) [300, 700, 5] 25000 420 =
      some (tickState scenTick1, rands', args) :=
  ⟨_, _, (Option.some_get (by decide : scenTick1.isSome = true)).symm⟩

set_option maxRecDepth 1000000 in
theorem scenTick3_eq :
    ∃ rands' args, frame demoGraphics (tickState scenTick2) [] 50001 420 =
      some (tickState scenTick3, rands', args) :=
  ⟨_, _, (Option.some_get (by decide : scenTick3.isSome = true)).symm⟩

set_option maxRecDepth 1000000 in
theorem scenTick5_eq :
    ∃ rands' args, frame demoGraphics (tickState scenTick4) [400, 400, 6] 150002 420 =
      some (tickState scenTick5, rands', args) :=
  ⟨_, _, (Option.some_get (by decide : scenTick5.isSome = true)).symm⟩

/-- C12: if the autoblink trigger fires in a tick at `t = 0` while eye `e` is
idle and chooses the duration 50000, the eye is closing from `t = 0`; after a
tick at `t = 25000` (of that eye or not) it is still closing; after a tick of that eye
at `t = 50001` it is opening with duration 100000 and start time 50001; and
after a tick of that eye at `t = 150002` it is idle. Between the listed ticks
the blink record of the eye is carried over unchanged; nothing is assumed about
the next-trigger interval. -/
theorem blink_scenario (g : Graphics) (e : Nat)
    (s0 s0' s1 s1' s2 s2' s3 s3' : AnimState)
    (r0 r0' r1 r1' r2 r2' r3 r3' : List Nat) (i0 i1 i2 i3 : Nat) (a0 a1 a2 a3 : DrawArgs)
    (h0 : frame g s0 r0 0 i0 = some (s0', r0', a0))
    (hidle : (s0.blink e).state = NOBLINK) (he : e < NUM_EYES)
    (hfire : wrapU 32 (((0 % 2 ^ 32 : Nat) : Int) - (s0.timeOfLastBlink : Int)) ≥
      s0.timeToNextBlink)
    (hdur : (s0'.blink e).duration = 50000)
    (c1 : s1.blink e = s0'.blink e)
    (h1 : frame g s1 r1 25000 i1 = some (s1', r1', a1))
    (c2 : s2.blink e = s1'.blink e)
    (h2 : frame g s2 r2 50001 i2 = some (s2', r2', a2)) (e2 : a2.e = e)
    (c3 : s3.blink e = s2'.blink e)
    (h3 : frame g s3 r3 150002 i3 = some (s3', r3', a3)) (e3 : a3.e = e) :
    s0'.blink e = { state := ENBLINK, duration := 50000, startTime := 0 } ∧
    s1'.blink e = { state := ENBLINK, duration := 50000, startTime := 0 } ∧
    s2'.blink e = { state := DEBLINK, duration := 100000, startTime := 50001 } ∧
    (s3'.blink e).state = NOBLINK := by
  have n10 : ENBLINK ≠ NOBLINK := by decide
  have n20 : DEBLINK ≠ NOBLINK := by decide
  have k0 : s0'.blink e = { state := ENBLINK, duration := 50000, startTime := 0 } := by
    obtain ⟨d, -, -, hd⟩ := (frame_blink_idle h0 e hidle).1 hfire he
    rw [hd] at hdur
    have hd50 : d = 50000 := hdur
    rw [hd, hd50]
    rfl
  have k1 : s1'.blink e = { state := ENBLINK, duration := 50000, startTime := 0 } := by
    have hb := frame_blink_busy h1 e (by rw [c1, k0]; exact n10)
    rw [hb, c1, k0]
    rw [if_neg]
    intro hc
    have hw : wrapU 32 (((25000 % 2 ^ 32 : Nat) : Int) - ((0 : Nat) : Int)) = 25000 := by decide
    have := hc.2
    simp only [hw] at this
    omega
  have k2 : s2'.blink e = { state := DEBLINK, duration := 100000, startTime := 50001 } := by
    have hb := frame_blink_busy h2 e (by rw [c2, k1]; exact n10)
    have hidx := (frame_eyeIndex h2).2
    rw [hb, c2, k1]
    have hw : wrapU 32 (((50001 % 2 ^ 32 : Nat) : Int) - ((0 : Nat) : Int)) = 50001 := by decide
    rw [if_pos ⟨by rw [← hidx, e2], by simp only [hw]; omega⟩]
    rw [if_neg (by decide)]
    rfl
  refine ⟨k0, k1, k2, ?_⟩
  have hb := frame_blink_busy h3 e (by rw [c3, k2]; exact n20)
  have hidx := (frame_eyeIndex h3).2
  rw [hb, c3, k2]
  have hw : wrapU 32 (((150002 % 2 ^ 32 : Nat) : Int) - ((50001 : Nat) : Int)) = 100001 := by
    decide
  rw [if_pos ⟨by rw [← hidx, e3], by simp only [hw]; omega⟩]
  rw [if_pos (by decide)]

set_option maxRecDepth 1000000 in
/-- Witness for C12: the scenario run of six ticks for eye 0, with ticks of
eye 1 at `t = 30000` and `t = 100000` in between. -/
theorem blink_scenario_witness :
    (tickState scenTick0).blink 0 = { state := ENBLINK, duration := 50000, startTime := 0 } ∧
    (tickState scenTick1).blink 0 = { state := ENBLINK, duration := 50000, startTime := 0 } ∧
    (tickState scenTick3).blink 0 =
      { state := DEBLINK, duration := 100000, startTime := 50001 } ∧
    ((tickState scenTick5).blink 0).state = NOBLINK := by
  obtain ⟨r0', a0, h0⟩ := scenTick0_eq
  obtain ⟨r1', a1, h1⟩ := scenTick1_eq
  obtain ⟨r2', a2, h2⟩ := scenTick3_eq
  obtain ⟨r3', a3, h3⟩ := scenTick5_eq
  exact blink_scenario demoGraphics 0 AnimState.init (tickState scenTick0)
    (tickState scenTick0) (tickState scenTick1) (tickState scenTick2) (tickState scenTick3)
    (tickState scenTick4) (tickState scenTick5) _ r0' _ r1' _ r2' _ r3' 420 420 420 420
    a0 a1 a2 a3 h0 (by decide) (by decide) (by decide) (by decide) rfl h1
    (by decide) h2 ((frame_eyeIndex h2).2.trans (by decide)) (by decide) h3
    ((frame_eyeIndex h3).2.trans (by decide))

/-! ## Theorems: eyelid tracking -/

theorem trackLids_spec (g : Graphics) (u : Nat) (eyeX eyeY : Int) (hu : u ≤ 254) :
    ∃ n, n ≤ 255 ∧
      (trackLids g u eyeX eyeY).1 = (3 * u + n) / 4 ∧
      (trackLids g u eyeX eyeY).1 ≤ 254 ∧
      ((trackLids g u eyeX eyeY).2 : Int) = 254 - ((trackLids g u eyeX eyeY).1 : Int) := by
  unfold trackLids
  simp only []
  generalize wrapS16 (Int.tdiv (g.SCLERA_WIDTH : Int) 2 - Int.tdiv eyeX 2) = sampleX
  generalize wrapS16 (Int.tdiv (g.SCLERA_HEIGHT : Int) 2 -
    (eyeY + Int.tdiv (g.IRIS_HEIGHT : Int) 4)) = sampleY
  have ha := (g.upper sampleY.toNat sampleX.toNat).isLt
  have hb := (g.upper sampleY.toNat ((g.SCREEN_WIDTH : Int) - 1 - sampleX).toNat).isLt
  generalize (g.upper sampleY.toNat sampleX.toNat).val = a at ha ⊢
  generalize (g.upper sampleY.toNat ((g.SCREEN_WIDTH : Int) - 1 - sampleX).toNat).val = b
    at hb ⊢
  have hn : (if sampleY < 0 then 0 else (a + b) / 2 % 256) ≤ 255 := by
    split_ifs <;> omega
  generalize (if sampleY < 0 then 0 else (a + b) / 2 % 256) = n at hn ⊢
  have e1 : (u * 3 + n) / 4 ≤ 254 := by omega
  have e2 : (u * 3 + n) / 4 % 256 = (3 * u + n) / 4 := by
    rw [Nat.mod_eq_of_lt (by omega), Nat.mul_comm]
  rw [e2]
  have e3 : (3 * u + n) / 4 ≤ 254 := by omega
  refine ⟨n, hn, rfl, e3, ?_⟩
  generalize (3 * u + n) / 4 = v at e3 ⊢
  unfold wrapU
  norm_num
  omega

theorem frame_uThreshold {g : Graphics} {st st' : AnimState} {rands rands' : List Nat}
    {t iScale : Nat} {args : DrawArgs}
    (h : frame g st rands t iScale = some (st', rands', args)) :
    ∃ eyeX eyeY : Int,
      st'.uThreshold = (trackLids g st.uThreshold eyeX eyeY).1 ∧
      ((st'.blink args.e).state = NOBLINK →
        args.uT = (trackLids g st.uThreshold eyeX eyeY).1 ∧
        args.lT = (trackLids g st.uThreshold eyeX eyeY).2) := by
  obtain ⟨st1, rands1, eyeX, eyeY, st2, hg, htr, hbl, -, hu, he, -, -, huT, hlT⟩ :=
    frame_full h
  have h1 := (gazeStep_keeps hg).2.2.1
  have h2 := (blinkTrigger_keeps htr).2.1
  have hu2 : st2.uThreshold = st.uThreshold := by rw [h2, h1]; rfl
  refine ⟨(gazeToSclera g st2.eyeIndex eyeX eyeY).1, (gazeToSclera g st2.eyeIndex eyeX eyeY).2,
    by rw [hu, hu2], ?_⟩
  intro hidle
  rw [hbl, he] at hidle
  rw [huT, hlT, hu2]
  unfold blinkBlend
  unfold NOBLINK at hidle
  rw [if_neg (fun hc => hc hidle)]
  exact ⟨rfl, rfl⟩

theorem reachable_uThreshold {g : Graphics} {st : AnimState} (h : Reachable g st) :
    st.uThreshold ≤ 254 := by
  induction h with
  | init => decide
  | tick _ hf ih =>
    obtain ⟨eyeX, eyeY, hu, -⟩ := frame_uThreshold hf
    obtain ⟨n, -, -, hle, -⟩ := trackLids_spec _ _ eyeX eyeY ih
    rw [hu]
    exact hle

/-! ## Theorems: gaze motion -/

theorem frame_motion {g : Graphics} {st st' : AnimState} {rands rands' : List Nat}
    {t iScale : Nat} {args : DrawArgs}
    (h : frame g st rands t iScale = some (st', rands', args)) :
    ∃ st1 rands1 eyeX eyeY,
      gazeStep (nextEye st) rands (t % 2 ^ 32) = some (st1, rands1, eyeX, eyeY) ∧
      st'.eyeInMotion = st1.eyeInMotion ∧ st'.eyeMoveDuration = st1.eyeMoveDuration ∧
      st'.eyeMoveStartTime = st1.eyeMoveStartTime := by
  obtain ⟨st1, rands1, eyeX, eyeY, st2, hg, hb, hst', -, -⟩ := frame_some h
  have k2 := blinkTrigger_keeps hb
  have k3 := blinkAdvance_keeps st2 (t % 2 ^ 32)
  refine ⟨st1, rands1, eyeX, eyeY, hg, ?_, ?_, ?_⟩
  · rw [hst']; exact k3.2.2.1.trans k2.2.2.1
  · rw [hst']; exact k3.2.2.2.1.trans k2.2.2.2.1
  · rw [hst']; exact k3.2.2.2.2.1.trans k2.2.2.2.2.1

/-- What the gaze block does to the motion flag and the stored duration. -/
theorem gazeStep_motion {st st1 : AnimState} {rands rands1 : List Nat} {t : Nat}
    {eyeX eyeY : Int}
    (h : gazeStep st rands t = some (st1, rands1, eyeX, eyeY)) :
    (st1.eyeInMotion = st.eyeInMotion ∧ st1.eyeMoveDuration = st.eyeMoveDuration) ∨
    (st.eyeInMotion = true ∧ st1.eyeInMotion = false ∧
      0 ≤ st1.eyeMoveDuration ∧ st1.eyeMoveDuration < 3000000) ∨
    (st.eyeInMotion = false ∧ st1.eyeInMotion = true ∧
      72000 ≤ st1.eyeMoveDuration ∧ st1.eyeMoveDuration < 144000) := by
  rcases gazeStep_cases h with ⟨hm, -, r, -, h1, -, -⟩ | ⟨-, -, -, h1, -, -⟩ |
    ⟨hm, -, nx, ny, r, -, h1, -, -⟩ | ⟨-, -, h1, -, -, -⟩
  · right; left
    subst h1
    refine ⟨hm, rfl, ?_, ?_⟩
    · show (0 : Int) ≤ ((r % 3000000 : Nat) : Int)
      omega
    · show ((r % 3000000 : Nat) : Int) < 3000000
      omega
  · left; subst h1; exact ⟨rfl, rfl⟩
  · right; right
    subst h1
    refine ⟨hm, rfl, ?_, ?_⟩
    · show (72000 : Int) ≤ ((r % (144000 - 72000) + 72000 : Nat) : Int)
      omega
    · show ((r % (144000 - 72000) + 72000 : Nat) : Int) < 144000
      omega
  · left; subst h1; exact ⟨rfl, rfl⟩

theorem reachable_moveDuration {g : Graphics} {st : AnimState} (h : Reachable g st) :
    (st.eyeInMotion = true → 72000 ≤ st.eyeMoveDuration ∧ st.eyeMoveDuration < 144000) ∧
    (st.eyeInMotion = false → 0 ≤ st.eyeMoveDuration ∧ st.eyeMoveDuration < 3000000) := by
  induction h with
  | init =>
    exact ⟨fun hx => absurd hx (by decide), fun _ => ⟨by decide, by decide⟩⟩
  | @tick st st' rands rands' t iScale args hr hf ih =>
    obtain ⟨st1, rands1, eyeX, eyeY, hg, m1, m2, -⟩ := frame_motion hf
    have hn1 : (nextEye st).eyeInMotion = st.eyeInMotion := rfl
    have hn2 : (nextEye st).eyeMoveDuration = st.eyeMoveDuration := rfl
    rw [m1, m2]
    rcases gazeStep_motion hg with ⟨k1, k2⟩ | ⟨-, k1, k2, k3⟩ | ⟨-, k1, k2, k3⟩
    · rw [k1, k2, hn1, hn2]; exact ih
    · rw [k1]
      exact ⟨fun hx => absurd hx (by decide), fun _ => ⟨k2, k3⟩⟩
    · rw [k1]
      exact ⟨fun _ => ⟨k2, k3⟩, fun hx => absurd hx (by decide)⟩

set_option maxRecDepth 100000 in
theorem ease_length : ease.length = 256 := by decide

theorem easeAt_some (i : Int) (h0 : 0 ≤ i) (h1 : i ≤ 255) : ∃ v, easeAt i = some v := by
  unfold easeAt
  rw [if_pos h0]
  have hlen := ease_length
  have hlt : i.toNat < ease.length := by rw [hlen]; omega
  exact ⟨ease[i.toNat], List.getElem?_eq_getElem hlt⟩

/-- C20: in every reachable state with the gaze moving, the stored move
duration is in `[72000, 144000)`; a tick that ends a move stores a dwell
duration in `[0, 3000000)`; hence for `0 <= dt < eyeMoveDuration` the divisor
of `255*dt/eyeMoveDuration` is non-zero, the product does not leave 32 bits
and the quotient is an index in `[0, 254]`, inside the `ease` table. -/
theorem gaze_move_duration (g : Graphics) (st st' : AnimState) (rands rands' : List Nat)
    (t iScale : Nat) (args : DrawArgs)
    (hr : Reachable g st) (h : frame g st rands t iScale = some (st', rands', args)) :
    (st.eyeInMotion = true → 72000 ≤ st.eyeMoveDuration ∧ st.eyeMoveDuration < 144000) ∧
    (st.eyeInMotion = true → st'.eyeInMotion = false →
      0 ≤ st'.eyeMoveDuration ∧ st'.eyeMoveDuration < 3000000) ∧
    (∀ dt : Int, st.eyeInMotion = true → 0 ≤ dt → dt < st.eyeMoveDuration →
      st.eyeMoveDuration ≠ 0 ∧ 255 * dt < 2 ^ 31 ∧ wrapS32 (255 * dt) = 255 * dt ∧
      0 ≤ Int.tdiv (255 * dt) st.eyeMoveDuration ∧
      Int.tdiv (255 * dt) st.eyeMoveDuration ≤ 254 ∧
      ∃ v, easeAt (Int.tdiv (wrapS32 (255 * dt)) st.eyeMoveDuration) = some v) := by
  have hinv := reachable_moveDuration hr
  have hinv' := reachable_moveDuration (Reachable.tick hr h)
  refine ⟨hinv.1, fun _ hx => hinv'.2 hx, ?_⟩
  intro dt hm h0 h1
  have hd := hinv.1 hm
  have hw : wrapS32 (255 * dt) = 255 * dt := by unfold wrapS32; omega
  have hq : Int.tdiv (255 * dt) st.eyeMoveDuration = 255 * dt / st.eyeMoveDuration :=
    Int.tdiv_eq_ediv (by omega) (by omega)
  have hq0 : 0 ≤ 255 * dt / st.eyeMoveDuration := Int.ediv_nonneg (by omega) (by omega)
  have hq1 : 255 * dt / st.eyeMoveDuration < 255 :=
    Int.ediv_lt_of_lt_mul (by omega) (by omega)
  refine ⟨by omega, by omega, hw, by rw [hq]; exact hq0, by rw [hq]; omega, ?_⟩
  rw [hw, hq]
  exact easeAt_some _ hq0 (by omega)

set_option maxRecDepth 100000 in
/-- Witness for C20: after `demoTick` the gaze is moving with duration 72005;
at `dt = 39990` the table index is 141. -/
theorem gaze_move_duration_witness :
    demoState.eyeInMotion = true ∧ demoState.eyeMoveDuration = 72005 ∧
    Int.tdiv (255 * 39990) demoState.eyeMoveDuration = 141 ∧
    Int.tdiv (255 * 39990) demoState.eyeMoveDuration ≤ 254 :=
  ⟨by decide, by decide, by decide,
    ((gaze_move_duration demoGraphics demoState demoState2 [] _ 40000 420 _
      demoState_reachable demoTick2_eq).2.2 39990 (by decide) (by decide)
      (by decide)).2.2.2.2.1⟩

/-! ## Theorems: gaze position and sclera offsets -/

set_option maxRecDepth 100000 in
theorem ease_le : ∀ v ∈ ease, v ≤ 255 := by decide

theorem easeAt_le {i : Int} {v : Nat} (h : easeAt i = some v) : v ≤ 255 := by
  unfold easeAt at h
  split at h
  · exact ease_le v (List.getElem?_mem h)
  · exact absurd h (by simp)

/-- The eased blend `old + ((new - old) * e) / 256` (division truncating toward
zero) with `1 <= e <= 256` lies between `old` and `new`. -/
theorem interp_between (old new e : Int) (h1 : 1 ≤ e) (h2 : e ≤ 256) :
    min old new ≤ old + Int.tdiv ((new - old) * e) 256 ∧
      old + Int.tdiv ((new - old) * e) 256 ≤ max old new := by
  by_cases hle : old ≤ new
  · have ha : 0 ≤ new - old := by omega
    have hp0 : 0 ≤ (new - old) * e := mul_nonneg ha (by omega)
    have hp1 : (new - old) * e ≤ (new - old) * 256 := mul_le_mul_of_nonneg_left h2 ha
    rw [Int.tdiv_eq_ediv hp0 (by omega)]
    generalize (new - old) * e = p at hp0 hp1 ⊢
    rw [min_eq_left hle, max_eq_right hle]
    omega
  · have ha : 0 ≤ old - new := by omega
    have hp0 : 0 ≤ (old - new) * e := mul_nonneg ha (by omega)
    have hp1 : (old - new) * e ≤ (old - new) * 256 := mul_le_mul_of_nonneg_left h2 ha
    have hneg : (new - old) * e = -((old - new) * e) := by ring
    rw [hneg, Int.neg_tdiv, Int.tdiv_eq_ediv hp0 (by omega)]
    generalize (old - new) * e = p at hp0 hp1 ⊢
    rw [min_eq_right (by omega), max_eq_left (by omega)]
    omega

/-- The un-calibrated gaze `eyeX`, `eyeY` produced by the gaze block lies in
`0..1023` when target and source do. -/
theorem gazeStep_range {st st1 : AnimState} {rands rands1 : List Nat} {t : Nat}
    {eyeX eyeY : Int}
    (h : gazeStep st rands t = some (st1, rands1, eyeX, eyeY))
    (hn : inDisk st.eyeNewX st.eyeNewY) (ho : inDisk st.eyeOldX st.eyeOldY) :
    (0 ≤ eyeX ∧ eyeX ≤ 1023) ∧ (0 ≤ eyeY ∧ eyeY ≤ 1023) := by
  obtain ⟨nx0, nx1, ny0, ny1, -⟩ := hn
  obtain ⟨ox0, ox1, oy0, oy1, -⟩ := ho
  rcases gazeStep_cases h with ⟨-, -, r, -, -, hx, hy⟩ | ⟨-, -, -, -, -, v, hv, hx, hy⟩ |
    ⟨-, -, nx, ny, r, -, -, hx, hy⟩ | ⟨-, -, -, -, hx, hy⟩
  · rw [hx, hy]; exact ⟨⟨nx0, nx1⟩, ⟨ny0, ny1⟩⟩
  · have hv255 := easeAt_le hv
    have he : wrapS16 ((v : Int) + 1) = (v : Int) + 1 := by unfold wrapS16; omega
    rw [he] at hx hy
    have bx := interp_between st.eyeOldX st.eyeNewX ((v : Int) + 1) (by omega) (by omega)
    have by' := interp_between st.eyeOldY st.eyeNewY ((v : Int) + 1) (by omega) (by omega)
    have mx0 : 0 ≤ min st.eyeOldX st.eyeNewX := le_min ox0 nx0
    have mx1 : max st.eyeOldX st.eyeNewX ≤ 1023 := max_le ox1 nx1
    have my0 : 0 ≤ min st.eyeOldY st.eyeNewY := le_min oy0 ny0
    have my1 : max st.eyeOldY st.eyeNewY ≤ 1023 := max_le oy1 ny1
    rw [hx, hy]
    generalize st.eyeOldX + Int.tdiv ((st.eyeNewX - st.eyeOldX) * ((v : Int) + 1)) 256 = px
      at bx ⊢
    generalize st.eyeOldY + Int.tdiv ((st.eyeNewY - st.eyeOldY) * ((v : Int) + 1)) 256 = py
      at by' ⊢
    unfold wrapS16
    omega
  · rw [hx, hy]; exact ⟨⟨ox0, ox1⟩, ⟨oy0, oy1⟩⟩
  · rw [hx, hy]; exact ⟨⟨ox0, ox1⟩, ⟨oy0, oy1⟩⟩

theorem scale_exact (v H : Int) (hv0 : 0 ≤ v) (hv1 : v ≤ 1023) (hH0 : 0 ≤ H)
    (hH1 : H ≤ 32767) :
    wrapS16 (map v 0 1023 0 H) = v * H / 1023 ∧ 0 ≤ v * H / 1023 ∧ v * H / 1023 ≤ H := by
  have hp0 : 0 ≤ v * H := mul_nonneg hv0 hH0
  have hp1 : v * H ≤ 1023 * H := mul_le_mul_of_nonneg_right hv1 hH0
  have hm : map v 0 1023 0 H = v * H / 1023 := by
    unfold map
    simp only [sub_zero, add_zero]
    exact Int.tdiv_eq_ediv hp0 (by omega)
  rw [hm]
  generalize v * H = p at hp0 hp1 ⊢
  unfold wrapS16
  omega

/-- Closed form of the gaze-to-sclera mapping for a gaze in `0..1023`: eye 1
is shifted by `(-128, +224)`, clamped into `0..1023`, scaled, and its X is
mirrored; the other eye is only scaled. -/
theorem gazeToSclera_eq (g : Graphics) (eyeIndex : Nat) (eyeX eyeY : Int)
    (hx0 : 0 ≤ eyeX) (hx1 : eyeX ≤ 1023) (hy0 : 0 ≤ eyeY) (hy1 : eyeY ≤ 1023)
    (hW0 : 128 ≤ g.SCLERA_WIDTH) (hW1 : g.SCLERA_WIDTH ≤ 32895)
    (hH0 : 128 ≤ g.SCLERA_HEIGHT) (hH1 : g.SCLERA_HEIGHT ≤ 32895) :
    gazeToSclera g eyeIndex eyeX eyeY =
      if eyeIndex = 1 then
        (((g.SCLERA_WIDTH : Int) - 128) -
            max 0 (eyeX - 128) * ((g.SCLERA_WIDTH : Int) - 128) / 1023,
          min 1023 (eyeY + 224) * ((g.SCLERA_HEIGHT : Int) - 128) / 1023)
      else
        (eyeX * ((g.SCLERA_WIDTH : Int) - 128) / 1023,
          eyeY * ((g.SCLERA_HEIGHT : Int) - 128) / 1023) := by
  unfold gazeToSclera
  by_cases hidx : eyeIndex = 1
  · simp only [hidx, if_true]
    have ex : wrapS16 (eyeX - 128) = eyeX - 128 := by unfold wrapS16; omega
    have ey : wrapS16 (eyeY + 224) = eyeY + 224 := by unfold wrapS16; omega
    have cx : (if (if wrapS16 (eyeX - 128) > 1023 then 1023 else wrapS16 (eyeX - 128)) < 0
        then 0 else (if wrapS16 (eyeX - 128) > 1023 then 1023 else wrapS16 (eyeX - 128))) =
        max 0 (eyeX - 128) := by
      rw [ex]
      split_ifs <;> omega
    have cy : (if (if wrapS16 (eyeY + 224) > 1023 then 1023 else wrapS16 (eyeY + 224)) < 0
        then 0 else (if wrapS16 (eyeY + 224) > 1023 then 1023 else wrapS16 (eyeY + 224))) =
        min 1023 (eyeY + 224) := by
      rw [ey]
      split_ifs <;> omega
    rw [cx, cy]
    obtain ⟨sx, sx0, sx1⟩ := scale_exact (max 0 (eyeX - 128)) ((g.SCLERA_WIDTH : Int) - 128)
      (by omega) (by omega) (by omega) (by omega)
    obtain ⟨sy, -, -⟩ := scale_exact (min 1023 (eyeY + 224)) ((g.SCLERA_HEIGHT : Int) - 128)
      (by omega) (by omega) (by omega) (by omega)
    rw [sx, sy]
    generalize max 0 (eyeX - 128) * ((g.SCLERA_WIDTH : Int) - 128) / 1023 = q at sx0 sx1 ⊢
    have hm : wrapS16 ((g.SCLERA_WIDTH : Int) - 128 - q) = (g.SCLERA_WIDTH : Int) - 128 - q := by
      unfold wrapS16; omega
    rw [hm, if_neg (by omega)]
  · simp only [hidx, if_false]
    obtain ⟨sx, sx0, sx1⟩ := scale_exact eyeX ((g.SCLERA_WIDTH : Int) - 128)
      hx0 hx1 (by omega) (by omega)
    obtain ⟨sy, -, -⟩ := scale_exact eyeY ((g.SCLERA_HEIGHT : Int) - 128)
      hy0 hy1 (by omega) (by omega)
    rw [sx, sy, if_neg (by omega)]

theorem gazeToSclera_fst (g : Graphics) (eyeIndex : Nat) (eyeX eyeY : Int)
    (hx0 : 0 ≤ eyeX) (hx1 : eyeX ≤ 1023)
    (hW0 : 128 ≤ g.SCLERA_WIDTH) (hW1 : g.SCLERA_WIDTH ≤ 32895) :
    0 ≤ (gazeToSclera g eyeIndex eyeX eyeY).1 ∧
      (gazeToSclera g eyeIndex eyeX eyeY).1 ≤ (g.SCLERA_WIDTH : Int) - 128 := by
  unfold gazeToSclera
  by_cases hidx : eyeIndex = 1
  · simp only [hidx, if_true]
    have ex : wrapS16 (eyeX - 128) = eyeX - 128 := by unfold wrapS16; omega
    have cx : (if (if wrapS16 (eyeX - 128) > 1023 then 1023 else wrapS16 (eyeX - 128)) < 0
        then 0 else (if wrapS16 (eyeX - 128) > 1023 then 1023 else wrapS16 (eyeX - 128))) =
        max 0 (eyeX - 128) := by
      rw [ex]
      split_ifs <;> omega
    rw [cx]
    obtain ⟨sx, sx0, sx1⟩ := scale_exact (max 0 (eyeX - 128)) ((g.SCLERA_WIDTH : Int) - 128)
      (by omega) (by omega) (by omega) (by omega)
    rw [sx]
    generalize max 0 (eyeX - 128) * ((g.SCLERA_WIDTH : Int) - 128) / 1023 = q at sx0 sx1 ⊢
    have hm : wrapS16 ((g.SCLERA_WIDTH : Int) - 128 - q) = (g.SCLERA_WIDTH : Int) - 128 - q := by
      unfold wrapS16; omega
    rw [hm, if_neg (by omega)]
    omega
  · simp only [hidx, if_false]
    obtain ⟨sx, sx0, sx1⟩ := scale_exact eyeX ((g.SCLERA_WIDTH : Int) - 128)
      hx0 hx1 (by omega) (by omega)
    rw [sx, if_neg (by omega)]
    exact ⟨sx0, sx1⟩

theorem gazeToSclera_snd (g : Graphics) (eyeIndex : Nat) (eyeX eyeY : Int)
    (hy0 : 0 ≤ eyeY) (hy1 : eyeY ≤ 1023)
    (hH0 : 128 ≤ g.SCLERA_HEIGHT) (hH1 : g.SCLERA_HEIGHT ≤ 32895) :
    0 ≤ (gazeToSclera g eyeIndex eyeX eyeY).2 ∧
      (gazeToSclera g eyeIndex eyeX eyeY).2 ≤ (g.SCLERA_HEIGHT : Int) - 128 := by
  unfold gazeToSclera
  by_cases hidx : eyeIndex = 1
  · simp only [hidx, if_true]
    have ey : wrapS16 (eyeY + 224) = eyeY + 224 := by unfold wrapS16; omega
    have cy : (if (if wrapS16 (eyeY + 224) > 1023 then 1023 else wrapS16 (eyeY + 224)) < 0
        then 0 else (if wrapS16 (eyeY + 224) > 1023 then 1023 else wrapS16 (eyeY + 224))) =
        min 1023 (eyeY + 224) := by
      rw [ey]
      split_ifs <;> omega
    rw [cy]
    obtain ⟨sy, sy0, sy1⟩ := scale_exact (min 1023 (eyeY + 224))
      ((g.SCLERA_HEIGHT : Int) - 128) (by omega) (by omega) (by omega) (by omega)
    rw [sy]
    exact ⟨sy0, sy1⟩
  · simp only [hidx, if_false]
    obtain ⟨sy, sy0, sy1⟩ := scale_exact eyeY ((g.SCLERA_HEIGHT : Int) - 128)
      hy0 hy1 (by omega) (by omega)
    rw [sy]
    exact ⟨sy0, sy1⟩

theorem wrapU8_le (x : Int) (b : Int) (h : (0 ≤ x ∧ x ≤ b) ∨ 255 ≤ b) :
    ((wrapU 8 x : Nat) : Int) ≤ b := by
  unfold wrapU
  norm_num
  omega

/-- The sclera offsets that a tick passes to `drawEye`, for a gaze in
`0..1023`. -/
theorem frame_sclera_offsets {g : Graphics} {st st' : AnimState} {rands rands' : List Nat}
    {t iScale : Nat} {args : DrawArgs}
    (h : frame g st rands t iScale = some (st', rands', args))
    (hn : inDisk st.eyeNewX st.eyeNewY) (ho : inDisk st.eyeOldX st.eyeOldY)
    (hW : 128 ≤ g.SCLERA_WIDTH) (hH : 128 ≤ g.SCLERA_HEIGHT) :
    (args.scleraX : Int) ≤ (g.SCLERA_WIDTH : Int) - 128 ∧
      (args.scleraY : Int) ≤ (g.SCLERA_HEIGHT : Int) - 128 := by
  obtain ⟨st1, rands1, eyeX, eyeY, st2, hg, -, -, -, -, -, hsx, hsy, -, -⟩ := frame_full h
  obtain ⟨⟨x0, x1⟩, ⟨y0, y1⟩⟩ := gazeStep_range hg hn ho
  rw [hsx, hsy]
  constructor
  · apply wrapU8_le
    by_cases hb : g.SCLERA_WIDTH ≤ 32895
    · left; exact gazeToSclera_fst g _ eyeX eyeY x0 x1 hW hb
    · right; omega
  · apply wrapU8_le
    by_cases hb : g.SCLERA_HEIGHT ≤ 32895
    · left; exact gazeToSclera_snd g _ eyeX eyeY y0 y1 hH hb
    · right; omega

/-- C19: in every tick from a reachable state, with a sclera map at least 128
wide and high, the offsets passed to `drawEye` satisfy
`0 <= scleraX <= SCLERA_WIDTH - 128` and `0 <= scleraY <= SCLERA_HEIGHT - 128`
for both eyes, so that for every screen position of a 128x128 screen the
lookup `sclera[scleraY + y][scleraX + x]` (and the 8-bit counters used for it)
is inside the sclera map; for a gaze in `0..1023` the mapping shifts eye 1 by
`(-128, +224)`, clamps it back into `0..1023`, scales, and mirrors its X as
`(SCLERA_WIDTH - 128) - X`. -/
theorem sclera_offsets_in_range (g : Graphics) (st st' : AnimState)
    (rands rands' : List Nat) (t iScale : Nat) (args : DrawArgs)
    (hr : Reachable g st) (h : frame g st rands t iScale = some (st', rands', args))
    (hW : 128 ≤ g.SCLERA_WIDTH) (hH : 128 ≤ g.SCLERA_HEIGHT) :
    (0 ≤ args.scleraX ∧ args.scleraX ≤ g.SCLERA_WIDTH - 128) ∧
    (0 ≤ args.scleraY ∧ args.scleraY ≤ g.SCLERA_HEIGHT - 128) ∧
    (∀ x y, x < 128 → y < 128 →
      args.scleraX + x < g.SCLERA_WIDTH ∧ args.scleraY + y < g.SCLERA_HEIGHT ∧
      scleraXAt args.scleraX x < g.SCLERA_WIDTH ∧
      scleraYAt args.scleraY y < g.SCLERA_HEIGHT) ∧
    (∀ (eyeIndex : Nat) (eyeX eyeY : Int), 0 ≤ eyeX → eyeX ≤ 1023 → 0 ≤ eyeY →
      eyeY ≤ 1023 → g.SCLERA_WIDTH ≤ 32895 → g.SCLERA_HEIGHT ≤ 32895 →
      gazeToSclera g eyeIndex eyeX eyeY =
        if eyeIndex = 1 then
          (((g.SCLERA_WIDTH : Int) - 128) -
              max 0 (eyeX - 128) * ((g.SCLERA_WIDTH : Int) - 128) / 1023,
            min 1023 (eyeY + 224) * ((g.SCLERA_HEIGHT : Int) - 128) / 1023)
        else
          (eyeX * ((g.SCLERA_WIDTH : Int) - 128) / 1023,
            eyeY * ((g.SCLERA_HEIGHT : Int) - 128) / 1023)) := by
  have hinv := reachable_inDisk hr
  obtain ⟨bx, by'⟩ := frame_sclera_offsets h hinv.1 hinv.2 hW hH
  have bx' : args.scleraX ≤ g.SCLERA_WIDTH - 128 := by omega
  have by'' : args.scleraY ≤ g.SCLERA_HEIGHT - 128 := by omega
  refine ⟨⟨Nat.zero_le _, bx'⟩, ⟨Nat.zero_le _, by''⟩, ?_, ?_⟩
  · intro x y hx hy
    unfold scleraXAt scleraYAt
    omega
  · intro eyeIndex eyeX eyeY hx0 hx1 hy0 hy1 hW1 hH1
    exact gazeToSclera_eq g eyeIndex eyeX eyeY hx0 hx1 hy0 hy1 hW hW1 hH hH1

set_option maxRecDepth 100000 in
theorem wideTick_isSome : wideTick.isSome = true := by decide

set_option maxRecDepth 100000 in
/-- Witness for C19: eye 1 with the gaze at the centre gets the offsets
`(172 - 384*172/1023, 736*172/1023) = (108, 123)` on a 300x300 sclera map. -/
theorem sclera_offsets_in_range_witness :
    (wideTick.get wideTick_isSome).2.2.scleraX = 108 ∧
    (wideTick.get wideTick_isSome).2.2.scleraY = 123 ∧
    (wideTick.get wideTick_isSome).2.2.scleraX ≤ wideGraphics.SCLERA_WIDTH - 128 ∧
    (wideTick.get wideTick_isSome).2.2.scleraY ≤ wideGraphics.SCLERA_HEIGHT - 128 :=
  ⟨by decide, by decide,
    (sclera_offsets_in_range wideGraphics AnimState.init _ [300, 700, 5, 1, 2] _ 10 420 _
      Reachable.init (Option.some_get wideTick_isSome).symm (by decide) (by decide)).1.2,
    (sclera_offsets_in_range wideGraphics AnimState.init _ [300, 700, 5, 1, 2] _ 10 420 _
      Reachable.init (Option.some_get wideTick_isSome).symm (by decide) (by decide)).2.1.2⟩

/-! ## Theorems: eased gaze interpolation -/

/-- The interpolation branch of the gaze block, for a move in progress. -/
theorem gazeStep_moving (st : AnimState) (rands : List Nat) (t v : Nat)
    (hm : st.eyeInMotion = true)
    (hd : wrapS32 ((t : Int) - (st.eyeMoveStartTime : Int)) < st.eyeMoveDuration)
    (hz : st.eyeMoveDuration ≠ 0)
    (hv : easeAt (Int.tdiv (wrapS32 (255 * wrapS32 ((t : Int) - (st.eyeMoveStartTime : Int))))
      st.eyeMoveDuration) = some v) :
    gazeStep st rands t = some (st, rands,
      wrapS16 (st.eyeOldX + Int.tdiv ((st.eyeNewX - st.eyeOldX) * wrapS16 ((v : Int) + 1)) 256),
      wrapS16 (st.eyeOldY + Int.tdiv ((st.eyeNewY - st.eyeOldY) * wrapS16 ((v : Int) + 1)) 256)) := by
  unfold gazeStep
  simp only []
  rw [if_pos hm, if_neg (not_le.mpr hd), if_neg hz, hv]

/-- The branch of the gaze block that ends a move. -/
theorem gazeStep_arrive (st : AnimState) (r : Nat) (rands : List Nat) (t : Nat)
    (hm : st.eyeInMotion = true)
    (hd : wrapS32 ((t : Int) - (st.eyeMoveStartTime : Int)) ≥ st.eyeMoveDuration) :
    gazeStep st (r :: rands) t =
      some ({ st with
              eyeInMotion := false
              eyeMoveDuration := ((r % 3000000 : Nat) : Int)
              eyeMoveStartTime := t
              eyeOldX := st.eyeNewX
              eyeOldY := st.eyeNewY },
            rands, st.eyeNewX, st.eyeNewY) := by
  unfold gazeStep
  simp only []
  rw [if_pos hm, if_pos hd]

/-- C21: from every reachable state with the gaze moving and every tick time
with `0 <= dt < eyeMoveDuration`, the gaze block completes with
`e = ease[255*dt/eyeMoveDuration] + 1`, `1 <= e <= 256`, and the position
`old + ((new - old) * e) / 256` on each axis (no 16-bit wrap), which lies
between `old` and `new` inclusive; whenever the gaze block completes the
un-calibrated `eyeX`, `eyeY` are in `[0, 1023]`; and when the move completes
(`dt >= eyeMoveDuration`) the position is the target exactly and the target
becomes the new source. -/
theorem gaze_interpolation (g : Graphics) (st : AnimState) (rands : List Nat) (t : Nat)
    (hr : Reachable g st) :
    (st.eyeInMotion = true →
      0 ≤ wrapS32 ((t : Int) - (st.eyeMoveStartTime : Int)) →
      wrapS32 ((t : Int) - (st.eyeMoveStartTime : Int)) < st.eyeMoveDuration →
      ∃ v : Nat,
        easeAt (Int.tdiv (255 * wrapS32 ((t : Int) - (st.eyeMoveStartTime : Int)))
          st.eyeMoveDuration) = some v ∧
        1 ≤ (v : Int) + 1 ∧ (v : Int) + 1 ≤ 256 ∧
        gazeStep (nextEye st) rands t = some (nextEye st, rands,
          st.eyeOldX + Int.tdiv ((st.eyeNewX - st.eyeOldX) * ((v : Int) + 1)) 256,
          st.eyeOldY + Int.tdiv ((st.eyeNewY - st.eyeOldY) * ((v : Int) + 1)) 256) ∧
        min st.eyeOldX st.eyeNewX ≤
          st.eyeOldX + Int.tdiv ((st.eyeNewX - st.eyeOldX) * ((v : Int) + 1)) 256 ∧
        st.eyeOldX + Int.tdiv ((st.eyeNewX - st.eyeOldX) * ((v : Int) + 1)) 256 ≤
          max st.eyeOldX st.eyeNewX ∧
        min st.eyeOldY st.eyeNewY ≤
          st.eyeOldY + Int.tdiv ((st.eyeNewY - st.eyeOldY) * ((v : Int) + 1)) 256 ∧
        st.eyeOldY + Int.tdiv ((st.eyeNewY - st.eyeOldY) * ((v : Int) + 1)) 256 ≤
          max st.eyeOldY st.eyeNewY) ∧
    (∀ (st1 : AnimState) (rands1 : List Nat) (eyeX eyeY : Int),
      gazeStep (nextEye st) rands t = some (st1, rands1, eyeX, eyeY) →
      (0 ≤ eyeX ∧ eyeX ≤ 1023) ∧ (0 ≤ eyeY ∧ eyeY ≤ 1023)) ∧
    (st.eyeInMotion = true →
      wrapS32 ((t : Int) - (st.eyeMoveStartTime : Int)) ≥ st.eyeMoveDuration →
      ∀ (r : Nat) (rest : List Nat), rands = r :: rest →
      ∃ st1, gazeStep (nextEye st) rands t = some (st1, rest, st.eyeNewX, st.eyeNewY) ∧
        st1.eyeOldX = st.eyeNewX ∧ st1.eyeOldY = st.eyeNewY ∧ st1.eyeInMotion = false) := by
  have hdisk := reachable_inDisk hr
  have hdur := reachable_moveDuration hr
  refine ⟨?_, ?_, ?_⟩
  · intro hm h0 h1
    have hd := hdur.1 hm
    generalize hdt : wrapS32 ((t : Int) - (st.eyeMoveStartTime : Int)) = dt at h0 h1
    have hw : wrapS32 (255 * dt) = 255 * dt := by unfold wrapS32; omega
    have hq : Int.tdiv (255 * dt) st.eyeMoveDuration = 255 * dt / st.eyeMoveDuration :=
      Int.tdiv_eq_ediv (by omega) (by omega)
    have hq0 : 0 ≤ 255 * dt / st.eyeMoveDuration := Int.ediv_nonneg (by omega) (by omega)
    have hq1 : 255 * dt / st.eyeMoveDuration < 255 :=
      Int.ediv_lt_of_lt_mul (by omega) (by omega)
    obtain ⟨v, hv⟩ := easeAt_some (Int.tdiv (255 * dt) st.eyeMoveDuration)
      (by rw [hq]; exact hq0) (by rw [hq]; omega)
    have hv255 := easeAt_le hv
    have he : wrapS16 ((v : Int) + 1) = (v : Int) + 1 := by unfold wrapS16; omega
    obtain ⟨nx0, nx1, ny0, ny1, -⟩ := hdisk.1
    obtain ⟨ox0, ox1, oy0, oy1, -⟩ := hdisk.2
    have bx := interp_between st.eyeOldX st.eyeNewX ((v : Int) + 1) (by omega) (by omega)
    have by' := interp_between st.eyeOldY st.eyeNewY ((v : Int) + 1) (by omega) (by omega)
    have mx0 : 0 ≤ min st.eyeOldX st.eyeNewX := le_min ox0 nx0
    have mx1 : max st.eyeOldX st.eyeNewX ≤ 1023 := max_le ox1 nx1
    have my0 : 0 ≤ min st.eyeOldY st.eyeNewY := le_min oy0 ny0
    have my1 : max st.eyeOldY st.eyeNewY ≤ 1023 := max_le oy1 ny1
    have hg := gazeStep_moving (nextEye st) rands t v hm
      (by show wrapS32 ((t : Int) - (st.eyeMoveStartTime : Int)) < st.eyeMoveDuration
          rw [hdt]; exact h1)
      (by show st.eyeMoveDuration ≠ 0
          omega)
      (by show easeAt (Int.tdiv (wrapS32 (255 * wrapS32 ((t : Int) -
            (st.eyeMoveStartTime : Int)))) st.eyeMoveDuration) = some v
          rw [hdt, hw]; exact hv)
    refine ⟨v, hv, by omega, by omega, ?_, bx.1, bx.2, by'.1, by'.2⟩
    rw [hg, he]
    show some (nextEye st, rands,
      wrapS16 (st.eyeOldX + Int.tdiv ((st.eyeNewX - st.eyeOldX) * ((v : Int) + 1)) 256),
      wrapS16 (st.eyeOldY + Int.tdiv ((st.eyeNewY - st.eyeOldY) * ((v : Int) + 1)) 256)) = _
    have wx : wrapS16 (st.eyeOldX + Int.tdiv ((st.eyeNewX - st.eyeOldX) * ((v : Int) + 1)) 256)
        = st.eyeOldX + Int.tdiv ((st.eyeNewX - st.eyeOldX) * ((v : Int) + 1)) 256 := by
      generalize st.eyeOldX + Int.tdiv ((st.eyeNewX - st.eyeOldX) * ((v : Int) + 1)) 256 = px
        at bx ⊢
      unfold wrapS16
      omega
    have wy : wrapS16 (st.eyeOldY + Int.tdiv ((st.eyeNewY - st.eyeOldY) * ((v : Int) + 1)) 256)
        = st.eyeOldY + Int.tdiv ((st.eyeNewY - st.eyeOldY) * ((v : Int) + 1)) 256 := by
      generalize st.eyeOldY + Int.tdiv ((st.eyeNewY - st.eyeOldY) * ((v : Int) + 1)) 256 = py
        at by' ⊢
      unfold wrapS16
      omega
    rw [wx, wy]
  · intro st1 rands1 eyeX eyeY hg
    exact gazeStep_range hg hdisk.1 hdisk.2
  · intro hm hd r rest hrands
    subst hrands
    refine ⟨_, gazeStep_arrive (nextEye st) r rest t hm hd, rfl, rfl, rfl⟩

set_option maxRecDepth 100000 in
/-- Witness for C21: after `demoTick` the gaze moves from `(512, 512)` to
`(300, 700)` for 72005 us from `t = 10`; at `t = 40000` the table entry is
`ease[141] = 148` and the position is `(389, 621)`. -/
theorem gaze_interpolation_witness :
    demoState.eyeInMotion = true ∧
    wrapS32 ((40000 : Int) - (demoState.eyeMoveStartTime : Int)) = 39990 ∧
    easeAt (Int.tdiv (255 * 39990) 72005) = some 148 ∧
    (512 : Int) + Int.tdiv ((300 - 512) * (148 + 1)) 256 = 389 ∧
    ∃ v : Nat,
      easeAt (Int.tdiv (255 * wrapS32 (((40000 : Nat) : Int) -
        (demoState.eyeMoveStartTime : Int))) demoState.eyeMoveDuration) = some v ∧
      1 ≤ (v : Int) + 1 ∧ (v : Int) + 1 ≤ 256 ∧
      gazeStep (nextEye demoState) [] 40000 = some (nextEye demoState, [],
        demoState.eyeOldX +
          Int.tdiv ((demoState.eyeNewX - demoState.eyeOldX) * ((v : Int) + 1)) 256,
        demoState.eyeOldY +
          Int.tdiv ((demoState.eyeNewY - demoState.eyeOldY) * ((v : Int) + 1)) 256) ∧
      min demoState.eyeOldX demoState.eyeNewX ≤
        demoState.eyeOldX +
          Int.tdiv ((demoState.eyeNewX - demoState.eyeOldX) * ((v : Int) + 1)) 256 ∧
      demoState.eyeOldX +
          Int.tdiv ((demoState.eyeNewX - demoState.eyeOldX) * ((v : Int) + 1)) 256 ≤
        max demoState.eyeOldX demoState.eyeNewX ∧
      min demoState.eyeOldY demoState.eyeNewY ≤
        demoState.eyeOldY +
          Int.tdiv ((demoState.eyeNewY - demoState.eyeOldY) * ((v : Int) + 1)) 256 ∧
      demoState.eyeOldY +
          Int.tdiv ((demoState.eyeNewY - demoState.eyeOldY) * ((v : Int) + 1)) 256 ≤
        max demoState.eyeOldY demoState.eyeNewY :=
  ⟨by decide, by decide, by decide, by decide,
    (gaze_interpolation demoGraphics demoState [] 40000 demoState_reachable).1
      (by decide) (by decide) (by decide)⟩

/-! ## Theorems: blink blending -/

theorem wrapU32_cast (n : Nat) (h : n < 2 ^ 32) : wrapU 32 (n : Int) = n := by
  unfold wrapU
  omega

/-- The blend `(T*s + 254*(257 - s)) / 256` of a threshold `T` in `0..255`
toward 254 with `s` in `1..256`. -/
theorem blend_bounds (T s : Nat) (hT : T ≤ 255) (h1 : 1 ≤ s) (h2 : s ≤ 256) :
    min T 254 ≤ (T * s + 254 * (257 - s)) / 256 ∧
    (T * s + 254 * (257 - s)) / 256 ≤ max T 254 := by
  by_cases h : T = 255
  · subst h
    rw [min_eq_right (by omega), max_eq_left (by omega)]
    omega
  · have hk : T * s + (254 - T) * s = 254 * s := by
      rw [← Nat.add_mul]
      congr 1
      omega
    have hm1 : (254 - T) * 1 ≤ (254 - T) * s := Nat.mul_le_mul_left _ h1
    have hm2 : (254 - T) * s ≤ (254 - T) * 256 := Nat.mul_le_mul_left _ h2
    generalize (254 - T) * s = m at hk hm1 hm2
    generalize T * s = q at hk ⊢
    rw [min_eq_left (by omega), max_eq_right (by omega)]
    omega

/-- The thresholds that the blink scaling at the end of `frame` computes for
an eye that is not idle and whose blink sub-state has not yet run out. -/
theorem blinkBlend_eq (b : EyeBlink) (t T L : Nat) (hs : b.state ≠ 0) (hT : T ≤ 255)
    (hL : L ≤ 255) (he : wrapU 32 ((t : Int) - (b.startTime : Int)) < b.duration)
    (hd : b.duration ≤ 2 ^ 24) :
    ∃ p s : Nat, p = 255 * wrapU 32 ((t : Int) - (b.startTime : Int)) / b.duration ∧
      p ≤ 254 ∧ s = (if b.state = DEBLINK then 1 + p else 256 - p) ∧ 1 ≤ s ∧ s ≤ 256 ∧
      blinkBlend b t T L =
        ((T * s + 254 * (257 - s)) / 256, (L * s + 254 * (257 - s)) / 256) := by
  unfold blinkBlend
  rw [if_pos hs]
  simp only []
  generalize wrapU 32 ((t : Int) - (b.startTime : Int)) = el at he ⊢
  rw [if_neg (not_le.mpr he)]
  have hel : 255 * el % 2 ^ 32 = 255 * el := Nat.mod_eq_of_lt (by omega)
  rw [hel]
  have hp : 255 * el / b.duration ≤ 254 := by
    have : 255 * el / b.duration < 255 :=
      (Nat.div_lt_iff_lt_mul (by omega)).mpr (by omega)
    omega
  generalize 255 * el / b.duration = p at hp ⊢
  have key : ∀ (U s : Nat), U ≤ 255 → 1 ≤ s → s ≤ 256 →
      wrapU 32 ((U : Int) * (s : Int) + 254 * (257 - (s : Int))) / 256 % 256 =
        (U * s + 254 * (257 - s)) / 256 := by
    intro U s hU h1 h2
    have hc : (U : Int) * (s : Int) + 254 * (257 - (s : Int)) =
        ((U * s + 254 * (257 - s) : Nat) : Int) := by
      push_cast [Nat.cast_sub (show s ≤ 257 by omega)]
      ring
    have hb := blend_bounds U s hU h1 h2
    have hmax : max U 254 ≤ 255 := max_le hU (by omega)
    have hlt : U * s + 254 * (257 - s) < 2 ^ 32 := by
      have : U * s ≤ 255 * 256 := Nat.mul_le_mul hU h2
      omega
    rw [hc, wrapU32_cast _ hlt]
    exact Nat.mod_eq_of_lt (by omega)
  by_cases hde : b.state = DEBLINK
  · rw [if_pos hde]
    have h1 : (1 + p) % 2 ^ 32 = 1 + p := Nat.mod_eq_of_lt (by omega)
    rw [h1]
    refine ⟨p, 1 + p, rfl, hp, by rw [if_pos hde], by omega, by omega, ?_⟩
    rw [key T (1 + p) hT (by omega) (by omega), key L (1 + p) hL (by omega) (by omega)]
  · rw [if_neg hde]
    have h1 : wrapU 32 (256 - (p : Int)) = 256 - p := by
      unfold wrapU
      omega
    rw [h1]
    refine ⟨p, 256 - p, rfl, hp, by rw [if_neg hde], by omega, by omega, ?_⟩
    rw [key T (256 - p) hT (by omega) (by omega), key L (256 - p) hL (by omega) (by omega)]

/-- The thresholds computed for a blink record that starts at the tick time:
the nominal ones for a closing eye, 254 for an opening eye. -/
theorem blinkBlend_start (state d t T L : Nat) (hs : state ≠ 0) (hT : T ≤ 255)
    (hL : L ≤ 255) (h0 : 0 < d) (hd : d ≤ 2 ^ 24) :
    blinkBlend { state := state, duration := d, startTime := t } t T L =
      if state = DEBLINK then (254, 254) else (T, L) := by
  have hw : wrapU 32 ((t : Int) - (t : Int)) = 0 := by
    rw [sub_self]; decide
  obtain ⟨p, s, hp, -, hs', -, -, hb⟩ :=
    blinkBlend_eq { state := state, duration := d, startTime := t } t T L hs hT hL
      (by show wrapU 32 ((t : Int) - (t : Int)) < d
          rw [hw]; exact h0) hd
  have hp0 : p = 0 := by
    rw [hp]
    show 255 * wrapU 32 ((t : Int) - (t : Int)) / d = 0
    rw [hw]
    simp
  rw [hb, hs', hp0]
  show ((T * (if state = DEBLINK then 1 + 0 else 256 - 0) +
      254 * (257 - (if state = DEBLINK then 1 + 0 else 256 - 0))) / 256,
    (L * (if state = DEBLINK then 1 + 0 else 256 - 0) +
      254 * (257 - (if state = DEBLINK then 1 + 0 else 256 - 0))) / 256) = _
  by_cases hde : state = DEBLINK
  · rw [if_pos hde, if_pos hde]
    have e1 : (T * (1 + 0) + 254 * (257 - (1 + 0))) / 256 = 254 := by omega
    have e2 : (L * (1 + 0) + 254 * (257 - (1 + 0))) / 256 = 254 := by omega
    rw [e1, e2]
  · rw [if_neg hde, if_neg hde]
    have e1 : (T * (256 - 0) + 254 * (257 - (256 - 0))) / 256 = T := by omega
    have e2 : (L * (256 - 0) + 254 * (257 - (256 - 0))) / 256 = L := by omega
    rw [e1, e2]

/-- The thresholds passed to `drawEye` are the blink scaling of the tracked
thresholds `uThreshold` and `254 - uThreshold` of the state after the tick. -/
theorem frame_thresholds {g : Graphics} {st st' : AnimState} {rands rands' : List Nat}
    {t iScale : Nat} {args : DrawArgs}
    (hr : Reachable g st) (h : frame g st rands t iScale = some (st', rands', args)) :
    ∃ L : Nat, st'.uThreshold ≤ 254 ∧ (L : Int) = 254 - (st'.uThreshold : Int) ∧
      args.uT = (blinkBlend (st'.blink args.e) (t % 2 ^ 32) st'.uThreshold L).1 ∧
      args.lT = (blinkBlend (st'.blink args.e) (t % 2 ^ 32) st'.uThreshold L).2 := by
  obtain ⟨st1, rands1, eyeX, eyeY, st2, hg, htr, hbl, -, hu, he, -, -, huT, hlT⟩ :=
    frame_full h
  have h1 := (gazeStep_keeps hg).2.2.1
  have h2 := (blinkTrigger_keeps htr).2.1
  have hu2 : st2.uThreshold = st.uThreshold := by rw [h2, h1]; rfl
  obtain ⟨n, -, -, hle, hl⟩ := trackLids_spec g st2.uThreshold
    (gazeToSclera g st2.eyeIndex eyeX eyeY).1 (gazeToSclera g st2.eyeIndex eyeX eyeY).2
    (by rw [hu2]; exact reachable_uThreshold hr)
  refine ⟨_, by rw [hu]; exact hle, by rw [hu]; exact hl, ?_, ?_⟩
  · rw [huT, hbl, he, hu]
  · rw [hlT, hbl, he, hu]

/-- C22: the blend `(T*s + 254*(257 - s)) / 256` of a threshold `T` in `0..255`
with `s` in `1..256` lies between `min T 254` and `max T 254`, fits in 8 bits,
equals `T` at `s = 256` and 254 at `s = 1`; these are the values that the
blink scaling of `frame` computes for an eye that is not idle; and in a tick
from a reachable state in which the rendered eye starts closing the
thresholds passed to `drawEye` are the nominal `uThreshold` and
`254 - uThreshold`, while in a tick in which the rendered eye switches from
closing to opening both thresholds passed are 254. -/
theorem blink_blend_endpoints (g : Graphics) (st st' : AnimState) (rands rands' : List Nat)
    (t iScale : Nat) (args : DrawArgs)
    (hr : Reachable g st) (h : frame g st rands t iScale = some (st', rands', args)) :
    (∀ T s : Nat, T ≤ 255 → 1 ≤ s → s ≤ 256 →
      min T 254 ≤ (T * s + 254 * (257 - s)) / 256 ∧
      (T * s + 254 * (257 - s)) / 256 ≤ max T 254 ∧
      (T * s + 254 * (257 - s)) / 256 < 256 ∧
      (T * 256 + 254 * (257 - 256)) / 256 = T ∧
      (T * 1 + 254 * (257 - 1)) / 256 = 254) ∧
    (∀ (b : EyeBlink) (u T L : Nat), b.state ≠ NOBLINK → T ≤ 255 → L ≤ 255 →
      wrapU 32 ((u : Int) - (b.startTime : Int)) < b.duration → b.duration ≤ 2 ^ 24 →
      ∃ s : Nat, 1 ≤ s ∧ s ≤ 256 ∧
        blinkBlend b u T L =
          ((T * s + 254 * (257 - s)) / 256, (L * s + 254 * (257 - s)) / 256)) ∧
    ((st.blink args.e).state = NOBLINK → (st'.blink args.e).state = ENBLINK →
      args.uT = st'.uThreshold ∧ (args.lT : Int) = 254 - (st'.uThreshold : Int)) ∧
    ((st.blink args.e).state = ENBLINK → (st'.blink args.e).state = DEBLINK →
      args.uT = 254 ∧ args.lT = 254) := by
  have n01 : NOBLINK ≠ ENBLINK := by decide
  have n10 : ENBLINK ≠ 0 := by decide
  have n12 : ENBLINK ≠ DEBLINK := by decide
  have n20 : DEBLINK ≠ 0 := by decide
  obtain ⟨L, hu, hL, huT, hlT⟩ := frame_thresholds hr h
  refine ⟨?_, ?_, ?_, ?_⟩
  · intro T s hT h1 h2
    have hb := blend_bounds T s hT h1 h2
    have hmax : max T 254 ≤ 255 := max_le hT (by omega)
    exact ⟨hb.1, hb.2, by omega, by omega, by omega⟩
  · intro b u T L hs hT hL he hd
    obtain ⟨p, s, -, -, -, h1, h2, hb⟩ := blinkBlend_eq b u T L hs hT hL he hd
    exact ⟨s, h1, h2, hb⟩
  · intro hi hc
    have hidle := frame_blink_idle h args.e hi
    by_cases hcond : wrapU 32 (((t % 2 ^ 32 : Nat) : Int) - (st.timeOfLastBlink : Int)) ≥
        st.timeToNextBlink ∧ args.e < NUM_EYES
    · obtain ⟨d, hd1, hd2, hb⟩ := hidle.1 hcond.1 hcond.2
      rw [hb] at huT hlT
      rw [blinkBlend_start ENBLINK d (t % 2 ^ 32) st'.uThreshold L n10 (by omega) (by omega)
        (by omega) (by omega), if_neg n12] at huT hlT
      exact ⟨huT, by rw [hlT]; exact hL⟩
    · rw [hidle.2 hcond, hi] at hc
      exact absurd hc n01
  · intro hcl hop
    have hdur := (reachable_blink_duration hr args.e).1 hcl
    have hbusy := frame_blink_busy h args.e (by rw [hcl]; exact n01.symm)
    rw [hcl] at hbusy
    by_cases hcond : args.e = (nextEye st).eyeIndex ∧
        wrapU 32 (((t % 2 ^ 32 : Nat) : Int) - ((st.blink args.e).startTime : Int)) ≥
          (st.blink args.e).duration
    · rw [if_pos hcond, if_neg (by decide)] at hbusy
      rw [hbusy] at huT hlT
      have hdd : (st.blink args.e).duration * 2 % 2 ^ 32 = (st.blink args.e).duration * 2 :=
        Nat.mod_eq_of_lt (by omega)
      rw [hdd] at huT hlT
      have hst : (ENBLINK + 1) % 256 = DEBLINK := rfl
      rw [hst, blinkBlend_start DEBLINK _ (t % 2 ^ 32) st'.uThreshold L n20 (by omega)
        (by omega) (by omega) (by omega), if_pos rfl] at huT hlT
      exact ⟨huT, hlT⟩
    · rw [if_neg hcond] at hbusy
      rw [hbusy, hcl] at hop
      exact absurd hop n12

set_option maxRecDepth 100000 in
/-- Witness for C22: in `demoTick` eye 1 starts closing and is drawn with the
nominal thresholds 159 and 95; in `demoTick2` eye 0 switches from closing to
opening and is drawn with both thresholds 254. -/
theorem blink_blend_endpoints_witness :
    ((AnimState.init.blink 1).state = NOBLINK ∧ (demoState.blink 1).state = ENBLINK ∧
      (demoTick.get demoTick_isSome).2.2.e = 1 ∧
      (demoTick.get demoTick_isSome).2.2.uT = 159 ∧
      (demoTick.get demoTick_isSome).2.2.lT = 95) ∧
    (demoState.blink 0).state = ENBLINK ∧ (demoState2.blink 0).state = DEBLINK ∧
    (demoTick2.get demoTick2_isSome).2.2.e = 0 ∧
    (demoTick2.get demoTick2_isSome).2.2.uT = 254 ∧
    (demoTick2.get demoTick2_isSome).2.2.lT = 254 :=
  ⟨by decide, by decide, by decide, by decide,
    ((blink_blend_endpoints demoGraphics demoState demoState2 [] _ 40000 420 _
      demoState_reachable demoTick2_eq).2.2.2 (by decide) (by decide)).1,
    ((blink_blend_endpoints demoGraphics demoState demoState2 [] _ 40000 420 _
      demoState_reachable demoTick2_eq).2.2.2 (by decide) (by decide)).2⟩

/-! ## Theorems: blink timing -/

/-- At the blending step of a tick from a reachable state, the blink record of
the rendered eye, if not idle, has been running for less than its duration. -/
theorem frame_blink_elapsed {g : Graphics} {st st' : AnimState} {rands rands' : List Nat}
    {t iScale : Nat} {args : DrawArgs}
    (hr : Reachable g st) (h : frame g st rands t iScale = some (st', rands', args))
    (hb : (st'.blink args.e).state ≠ NOBLINK) :
    wrapU 32 (((t % 2 ^ 32 : Nat) : Int) - ((st'.blink args.e).startTime : Int)) <
      (st'.blink args.e).duration := by
  have n12 : ENBLINK ≠ DEBLINK := by decide
  have hw : wrapU 32 (((t % 2 ^ 32 : Nat) : Int) - ((t % 2 ^ 32 : Nat) : Int)) = 0 := by
    rw [sub_self]; decide
  have he := (frame_eyeIndex h).2
  by_cases hi : (st.blink args.e).state = NOBLINK
  · have hidle := frame_blink_idle h args.e hi
    by_cases hcond : wrapU 32 (((t % 2 ^ 32 : Nat) : Int) - (st.timeOfLastBlink : Int)) ≥
        st.timeToNextBlink ∧ args.e < NUM_EYES
    · obtain ⟨d, hd1, hd2, hrec⟩ := hidle.1 hcond.1 hcond.2
      rw [hrec]
      show wrapU 32 (((t % 2 ^ 32 : Nat) : Int) - ((t % 2 ^ 32 : Nat) : Int)) < d
      rw [hw]
      omega
    · rw [hidle.2 hcond] at hb
      exact absurd hi hb
  · have hbusy := frame_blink_busy h args.e hi
    have hst := reachable_blink_state hr args.e
    have hdur := reachable_blink_duration hr args.e
    by_cases hcond : args.e = (nextEye st).eyeIndex ∧
        wrapU 32 (((t % 2 ^ 32 : Nat) : Int) - ((st.blink args.e).startTime : Int)) ≥
          (st.blink args.e).duration
    · rw [if_pos hcond] at hbusy
      have hcases : (st.blink args.e).state = ENBLINK ∨ (st.blink args.e).state = DEBLINK := by
        unfold NOBLINK ENBLINK DEBLINK at *
        omega
      rcases hcases with hs | hs
      · rw [hs, if_neg (by decide)] at hbusy
        rw [hbusy]
        have h36 := hdur.1 hs
        show wrapU 32 (((t % 2 ^ 32 : Nat) : Int) - ((t % 2 ^ 32 : Nat) : Int)) <
          (st.blink args.e).duration * 2 % 2 ^ 32
        rw [hw]
        omega
      · rw [hs, if_pos (by decide)] at hbusy
        rw [hbusy] at hb
        exact absurd rfl hb
    · rw [if_neg hcond] at hbusy
      rw [hbusy]
      exact not_le.mp (fun hx => hcond ⟨he, hx⟩)

/-- C23: in every reachable state an eye that is not idle has a blink
duration of at least 36000 (closing: in `[36000, 72000)`; opening: in
`[72000, 144000)`), also after the tick; and at the blending step of a tick
from a reachable state the rendered eye, if not idle, has
`0 <= t - startTime < duration` (32-bit unsigned difference) with a non-zero
duration and `255 * (t - startTime)` inside 32 bits, so the branch
`s >= duration` is not taken and the thresholds passed to `drawEye` are the
blend for `s = 255 * (t - startTime) / duration <= 254`. -/
theorem blink_elapsed_in_range (g : Graphics) (st st' : AnimState) (rands rands' : List Nat)
    (t iScale : Nat) (args : DrawArgs)
    (hr : Reachable g st) (h : frame g st rands t iScale = some (st', rands', args)) :
    (∀ s : AnimState, Reachable g s → ∀ e : Nat,
      ((s.blink e).state ≠ NOBLINK → 36000 ≤ (s.blink e).duration) ∧
      ((s.blink e).state = ENBLINK →
        36000 ≤ (s.blink e).duration ∧ (s.blink e).duration < 72000) ∧
      ((s.blink e).state = DEBLINK →
        72000 ≤ (s.blink e).duration ∧ (s.blink e).duration < 144000)) ∧
    ((st'.blink args.e).state ≠ NOBLINK →
      0 ≤ wrapU 32 (((t % 2 ^ 32 : Nat) : Int) - ((st'.blink args.e).startTime : Int)) ∧
      wrapU 32 (((t % 2 ^ 32 : Nat) : Int) - ((st'.blink args.e).startTime : Int)) <
        (st'.blink args.e).duration ∧
      (st'.blink args.e).duration ≠ 0 ∧
      255 * wrapU 32 (((t % 2 ^ 32 : Nat) : Int) - ((st'.blink args.e).startTime : Int)) <
        2 ^ 32 ∧
      ¬ wrapU 32 (((t % 2 ^ 32 : Nat) : Int) - ((st'.blink args.e).startTime : Int)) ≥
        (st'.blink args.e).duration ∧
      ∃ p s L : Nat,
        p = 255 * wrapU 32 (((t % 2 ^ 32 : Nat) : Int) -
          ((st'.blink args.e).startTime : Int)) / (st'.blink args.e).duration ∧
        p ≤ 254 ∧
        s = (if (st'.blink args.e).state = DEBLINK then 1 + p else 256 - p) ∧
        (L : Int) = 254 - (st'.uThreshold : Int) ∧
        args.uT = (st'.uThreshold * s + 254 * (257 - s)) / 256 ∧
        args.lT = (L * s + 254 * (257 - s)) / 256) := by
  have hinv : ∀ s : AnimState, Reachable g s → ∀ e : Nat,
      ((s.blink e).state ≠ NOBLINK → 36000 ≤ (s.blink e).duration) ∧
      ((s.blink e).state = ENBLINK →
        36000 ≤ (s.blink e).duration ∧ (s.blink e).duration < 72000) ∧
      ((s.blink e).state = DEBLINK →
        72000 ≤ (s.blink e).duration ∧ (s.blink e).duration < 144000) := by
    intro s hs e
    have hst := reachable_blink_state hs e
    have hdur := reachable_blink_duration hs e
    refine ⟨?_, hdur.1, hdur.2⟩
    intro hne
    have hcases : (s.blink e).state = ENBLINK ∨ (s.blink e).state = DEBLINK := by
      unfold NOBLINK ENBLINK DEBLINK at *
      omega
    rcases hcases with hc | hc
    · exact (hdur.1 hc).1
    · have := hdur.2 hc
      omega
  refine ⟨hinv, ?_⟩
  intro hb
  have hel := frame_blink_elapsed hr h hb
  have hr' : Reachable g st' := Reachable.tick hr h
  have hst := reachable_blink_state hr' args.e
  have hdur := reachable_blink_duration hr' args.e
  have hd : (st'.blink args.e).duration < 144000 := by
    have hcases : (st'.blink args.e).state = ENBLINK ∨ (st'.blink args.e).state = DEBLINK := by
      unfold NOBLINK ENBLINK DEBLINK at *
      omega
    rcases hcases with hc | hc
    · have := hdur.1 hc
      omega
    · exact (hdur.2 hc).2
  obtain ⟨L, hu, hL, huT, hlT⟩ := frame_thresholds hr h
  obtain ⟨p, s, hp, hp254, hs, -, -, hblend⟩ :=
    blinkBlend_eq (st'.blink args.e) (t % 2 ^ 32) st'.uThreshold L hb (by omega) (by omega)
      hel (by omega)
  rw [hblend] at huT hlT
  exact ⟨Nat.zero_le _, hel, by omega, by omega, by omega, p, s, L, hp, hp254, hs, hL, huT,
    hlT⟩

set_option maxRecDepth 100000 in
/-- Witness for C23: after `demoTick2`, at `t = 40000`, the rendered eye 0 is
opening since `t = 40000` for 72002 us: the elapsed time 0 is below the
duration. -/
theorem blink_elapsed_in_range_witness :
    (demoTick2.get demoTick2_isSome).2.2.e = 0 ∧
    demoState2.blink 0 = { state := DEBLINK, duration := 72002, startTime := 40000 } ∧
    wrapU 32 (((40000 % 2 ^ 32 : Nat) : Int) -
      ((demoState2.blink (demoTick2.get demoTick2_isSome).2.2.e).startTime : Int)) <
        (demoState2.blink (demoTick2.get demoTick2_isSome).2.2.e).duration :=
  ⟨by decide, by decide,
    ((blink_elapsed_in_range demoGraphics demoState demoState2 [] _ 40000 420 _
      demoState_reachable demoTick2_eq).2 (by decide)).2.1⟩

/-! ## Theorems: recursion of split -/

theorem split_leaf (g : Graphics) (fuel : Nat) (startValue endValue : Int) (startTime : Nat)
    (duration range : Int) (w : World) (h : range < 8) :
    split g (fuel + 1) startValue endValue startTime duration range w =
      splitLeaf g startValue endValue startTime duration w.clock w.anim w.rands := by
  rw [split, if_neg (not_le.mpr h)]

theorem split_node (g : Graphics) (fuel : Nat) (startValue endValue : Int) (startTime : Nat)
    (duration range : Int) (w : World) (r : Nat) (rest : List Nat) (h : 8 ≤ range)
    (hr : w.rands = r :: rest) :
    (∀ w1, (split g fuel startValue
        (midValue startValue endValue (wrapS16 (Int.tdiv range 2)) r) startTime
        (Int.tdiv duration 2) (wrapS16 (Int.tdiv range 2)) { w with rands := rest }).2 = some w1 →
      split g (fuel + 1) startValue endValue startTime duration range w =
        ((split g fuel startValue
            (midValue startValue endValue (wrapS16 (Int.tdiv range 2)) r) startTime
            (Int.tdiv duration 2) (wrapS16 (Int.tdiv range 2)) { w with rands := rest }).1 ++
          (split g fuel (midValue startValue endValue (wrapS16 (Int.tdiv range 2)) r) endValue
            (wrapU 32 ((startTime : Int) + Int.tdiv duration 2)) (Int.tdiv duration 2)
            (wrapS16 (Int.tdiv range 2)) w1).1,
         (split g fuel (midValue startValue endValue (wrapS16 (Int.tdiv range 2)) r) endValue
            (wrapU 32 ((startTime : Int) + Int.tdiv duration 2)) (Int.tdiv duration 2)
            (wrapS16 (Int.tdiv range 2)) w1).2)) ∧
    ((split g fuel startValue
        (midValue startValue endValue (wrapS16 (Int.tdiv range 2)) r) startTime
        (Int.tdiv duration 2) (wrapS16 (Int.tdiv range 2)) { w with rands := rest }).2 = none →
      split g (fuel + 1) startValue endValue startTime duration range w =
        split g fuel startValue
          (midValue startValue endValue (wrapS16 (Int.tdiv range 2)) r) startTime
          (Int.tdiv duration 2) (wrapS16 (Int.tdiv range 2)) { w with rands := rest }) := by
  constructor
  · intro w1 h1
    rw [split, if_pos h]
    simp only [hr, h1]
  · intro h1
    rw [split, if_pos h]
    simp only [hr, h1]

theorem splitLeaves_leaf (g : Graphics) (fuel depth : Nat) (startValue endValue : Int)
    (startTime : Nat) (duration range : Int) (w : World) (h : range < 8) :
    splitLeaves g (fuel + 1) depth startValue endValue startTime duration range w =
      ([{ startValue := startValue, endValue := endValue, startTime := startTime,
          duration := duration, depth := depth }],
        (splitLeaf g startValue endValue startTime duration w.clock w.anim w.rands).1,
        (splitLeaf g startValue endValue startTime duration w.clock w.anim w.rands).2) := by
  rw [splitLeaves, if_neg (not_le.mpr h)]

theorem splitLeaves_nil (g : Graphics) (fuel depth : Nat) (startValue endValue : Int)
    (startTime : Nat) (duration range : Int) (w : World) (h : 8 ≤ range) (hr : w.rands = []) :
    splitLeaves g (fuel + 1) depth startValue endValue startTime duration range w =
      ([], [], none) := by
  rw [splitLeaves, if_pos h]
  simp only [hr]

theorem splitLeaves_node (g : Graphics) (fuel depth : Nat) (startValue endValue : Int)
    (startTime : Nat) (duration range : Int) (w : World) (r : Nat) (rest : List Nat)
    (h : 8 ≤ range) (hr : w.rands = r :: rest) :
    (∀ w1, (splitLeaves g fuel (depth + 1) startValue
        (midValue startValue endValue (wrapS16 (Int.tdiv range 2)) r) startTime
        (Int.tdiv duration 2) (wrapS16 (Int.tdiv range 2)) { w with rands := rest }).2.2 =
          some w1 →
      splitLeaves g (fuel + 1) depth startValue endValue startTime duration range w =
        ((splitLeaves g fuel (depth + 1) startValue
            (midValue startValue endValue (wrapS16 (Int.tdiv range 2)) r) startTime
            (Int.tdiv duration 2) (wrapS16 (Int.tdiv range 2)) { w with rands := rest }).1 ++
          (splitLeaves g fuel (depth + 1)
            (midValue startValue endValue (wrapS16 (Int.tdiv range 2)) r) endValue
            (wrapU 32 ((startTime : Int) + Int.tdiv duration 2)) (Int.tdiv duration 2)
            (wrapS16 (Int.tdiv range 2)) w1).1,
         (splitLeaves g fuel (depth + 1) startValue
            (midValue startValue endValue (wrapS16 (Int.tdiv range 2)) r) startTime
            (Int.tdiv duration 2) (wrapS16 (Int.tdiv range 2)) { w with rands := rest }).2.1 ++
          (splitLeaves g fuel (depth + 1)
            (midValue startValue endValue (wrapS16 (Int.tdiv range 2)) r) endValue
            (wrapU 32 ((startTime : Int) + Int.tdiv duration 2)) (Int.tdiv duration 2)
            (wrapS16 (Int.tdiv range 2)) w1).2.1,
         (splitLeaves g fuel (depth + 1)
            (midValue startValue endValue (wrapS16 (Int.tdiv range 2)) r) endValue
            (wrapU 32 ((startTime : Int) + Int.tdiv duration 2)) (Int.tdiv duration 2)
            (wrapS16 (Int.tdiv range 2)) w1).2.2)) ∧
    ((splitLeaves g fuel (depth + 1) startValue
        (midValue startValue endValue (wrapS16 (Int.tdiv range 2)) r) startTime
        (Int.tdiv duration 2) (wrapS16 (Int.tdiv range 2)) { w with rands := rest }).2.2 = none →
      splitLeaves g (fuel + 1) depth startValue endValue startTime duration range w =
        splitLeaves g fuel (depth + 1) startValue
          (midValue startValue endValue (wrapS16 (Int.tdiv range 2)) r) startTime
          (Int.tdiv duration 2) (wrapS16 (Int.tdiv range 2)) { w with rands := rest }) := by
  constructor
  · intro w1 h1
    rw [splitLeaves, if_pos h]
    simp only [hr, h1]
  · intro h1
    rw [splitLeaves, if_pos h]
    simp only [hr, h1]

/-- The record of leaf calls does not change the run: `splitLeaves` makes the
`frame` calls of `split` and ends in the same world. -/
theorem splitLeaves_run (g : Graphics) (fuel depth : Nat) (startValue endValue : Int)
    (startTime : Nat) (duration range : Int) (w : World) :
    (splitLeaves g fuel depth startValue endValue startTime duration range w).2 =
      split g fuel startValue endValue startTime duration range w := by
  induction fuel generalizing depth startValue endValue startTime duration range w with
  | zero => rfl
  | succ fuel ih =>
    by_cases h : 8 ≤ range
    · cases hr : w.rands with
      | nil =>
        rw [splitLeaves_nil g fuel depth _ _ _ _ _ w h hr, split, if_pos h]
        simp only [hr]
      | cons r rest =>
        have hL := splitLeaves_node g fuel depth startValue endValue startTime duration range
          w r rest h hr
        have hS := split_node g fuel startValue endValue startTime duration range w r rest h hr
        have ih1 := ih (depth + 1) startValue
          (midValue startValue endValue (wrapS16 (Int.tdiv range 2)) r) startTime
          (Int.tdiv duration 2) (wrapS16 (Int.tdiv range 2)) { w with rands := rest }
        cases h1 : (split g fuel startValue
            (midValue startValue endValue (wrapS16 (Int.tdiv range 2)) r) startTime
            (Int.tdiv duration 2) (wrapS16 (Int.tdiv range 2)) { w with rands := rest }).2 with
        | none =>
          have h1' : (splitLeaves g fuel (depth + 1) startValue
              (midValue startValue endValue (wrapS16 (Int.tdiv range 2)) r) startTime
              (Int.tdiv duration 2) (wrapS16 (Int.tdiv range 2))
              { w with rands := rest }).2.2 = none := by rw [ih1]; exact h1
          rw [hL.2 h1', hS.2 h1, ih1]
        | some w1 =>
          have h1' : (splitLeaves g fuel (depth + 1) startValue
              (midValue startValue endValue (wrapS16 (Int.tdiv range 2)) r) startTime
              (Int.tdiv duration 2) (wrapS16 (Int.tdiv range 2))
              { w with rands := rest }).2.2 = some w1 := by rw [ih1]; exact h1
          have ih2 := ih (depth + 1)
            (midValue startValue endValue (wrapS16 (Int.tdiv range 2)) r) endValue
            (wrapU 32 ((startTime : Int) + Int.tdiv duration 2)) (Int.tdiv duration 2)
            (wrapS16 (Int.tdiv range 2)) w1
          rw [hL.1 w1 h1', hS.1 w1 h1]
          simp only [ih1, ih2]
    · rw [splitLeaves_leaf g fuel depth _ _ _ _ _ w (not_le.mp h),
        split_leaf g fuel _ _ _ _ _ w (not_le.mp h)]

theorem halve_range (P range : Int) (hlo : 4 * (2 * P) ≤ range)
    (hhi : range < 8 * (2 * P)) (h16 : range ≤ 32767) :
    8 ≤ range ∧ wrapS16 (Int.tdiv range 2) = range / 2 ∧ 4 * P ≤ range / 2 ∧
      range / 2 < 8 * P ∧ range / 2 ≤ 32767 := by
  have hq : Int.tdiv range 2 = range / 2 := Int.tdiv_eq_ediv (by omega) (by omega)
  rw [hq]
  unfold wrapS16
  omega

/-- Shape of the recursion of `split` for a range that can be halved `D` times
while it is at least 8: every leaf call is at depth `D` below the call, and a
run that completes makes `2^D` leaf calls, which for a duration `2^D * q` start
at `startTime + i*q` (as `uint32_t`) and last `q`. -/
theorem splitLeaves_shape (g : Graphics) (D : Nat) :
    ∀ (fuel depth : Nat) (startValue endValue : Int) (startTime : Nat)
      (duration range : Int) (w : World),
      D + 1 ≤ fuel → (D = 0 ∨ 4 * (2 : Int) ^ D ≤ range) → range < 8 * (2 : Int) ^ D →
      range ≤ 32767 →
      (∀ seg ∈ (splitLeaves g fuel depth startValue endValue startTime duration range w).1,
        seg.depth = depth + D) ∧
      ((splitLeaves g fuel depth startValue endValue startTime duration range w).2.2.isSome
          = true →
        (splitLeaves g fuel depth startValue endValue startTime duration range w).1.length
          = 2 ^ D ∧
        ∀ q : Int, duration = (2 : Int) ^ D * q → startTime < 2 ^ 32 →
          (splitLeaves g fuel depth startValue endValue startTime duration range w).1.map
              (fun s => (s.startTime, s.duration)) =
            (List.range (2 ^ D)).map
              (fun (i : Nat) => (wrapU 32 ((startTime : Int) + (i : Int) * q), q))) := by
  induction D with
  | zero =>
    intro fuel depth startValue endValue startTime duration range w hf _ hhi _
    obtain ⟨f, rfl⟩ : ∃ f, fuel = f + 1 := ⟨fuel - 1, by omega⟩
    have h8 : range < 8 := by simpa using hhi
    rw [splitLeaves_leaf g f depth _ _ _ _ _ w h8]
    refine ⟨?_, ?_⟩
    · intro seg hseg
      simp only [List.mem_singleton] at hseg
      rw [hseg]
      rfl
    · intro _
      refine ⟨rfl, ?_⟩
      intro q hq hst
      have hw : wrapU 32 ((startTime : Int) + ((0 : Nat) : Int) * q) = startTime := by
        unfold wrapU
        simp only [Nat.cast_zero, zero_mul, add_zero]
        omega
      have hq' : duration = q := by simpa using hq
      have hr1 : List.range (2 ^ 0) = [0] := rfl
      rw [hr1]
      simp only [List.map_cons, List.map_nil, hw, hq']
  | succ D ih =>
    intro fuel depth startValue endValue startTime duration range w hf hlo hhi h16
    obtain ⟨f, rfl⟩ : ∃ f, fuel = f + 1 := ⟨fuel - 1, by omega⟩
    have hpow : (2 : Int) ^ (D + 1) = 2 * (2 : Int) ^ D := by rw [pow_succ]; ring
    rw [hpow] at hhi
    have hlo' : 4 * (2 * (2 : Int) ^ D) ≤ range := by
      rcases hlo with h0 | h0
      · exact absurd h0 (Nat.succ_ne_zero D)
      · rw [hpow] at h0; exact h0
    obtain ⟨h8, hw2, r1, r2, r3⟩ := halve_range _ range hlo' hhi h16
    cases hr : w.rands with
    | nil =>
      rw [splitLeaves_nil g f depth _ _ _ _ _ w h8 hr]
      exact ⟨fun seg hseg => absurd hseg (List.not_mem_nil seg), fun hx => absurd hx (by simp)⟩
    | cons r rest =>
      have hL := splitLeaves_node g f depth startValue endValue startTime duration range
        w r rest h8 hr
      rw [hw2] at hL
      have ih1 := ih f (depth + 1) startValue (midValue startValue endValue (range / 2) r)
        startTime (Int.tdiv duration 2) (range / 2) { w with rands := rest } (by omega)
        (Or.inr r1) r2 r3
      cases h1 : (splitLeaves g f (depth + 1) startValue
          (midValue startValue endValue (range / 2) r) startTime (Int.tdiv duration 2)
          (range / 2) { w with rands := rest }).2.2 with
      | none =>
        rw [hL.2 h1]
        refine ⟨fun seg hseg => by rw [ih1.1 seg hseg]; omega, fun hx => ?_⟩
        rw [h1] at hx
        exact absurd hx (by simp)
      | some w1 =>
        have ih2 := ih f (depth + 1) (midValue startValue endValue (range / 2) r) endValue
          (wrapU 32 ((startTime : Int) + Int.tdiv duration 2)) (Int.tdiv duration 2)
          (range / 2) w1 (by omega) (Or.inr r1) r2 r3
        rw [hL.1 w1 h1]
        refine ⟨?_, ?_⟩
        · intro seg hseg
          rcases List.mem_append.mp hseg with hm | hm
          · rw [ih1.1 seg hm]; omega
          · rw [ih2.1 seg hm]; omega
        · intro hdone
          have hc1 := ih1.2 (by rw [h1]; rfl)
          have hc2 := ih2.2 hdone
          refine ⟨?_, ?_⟩
          · rw [List.length_append, hc1.1, hc2.1, pow_succ]
            omega
          · intro q hq hst
            have hd2 : Int.tdiv duration 2 = (2 : Int) ^ D * q := by
              rw [hq, hpow, mul_assoc]
              exact Int.mul_tdiv_cancel_left _ (by norm_num)
            have hmid : wrapU 32 ((startTime : Int) + Int.tdiv duration 2) < 2 ^ 32 := by
              unfold wrapU
              omega
            have e1 := hc1.2 q hd2 hst
            have e2 := hc2.2 q hd2 hmid
            have hN : 2 ^ (D + 1) = 2 ^ D + 2 ^ D := by rw [pow_succ]; omega
            rw [List.map_append, e1, e2, hN, List.range_add, List.map_append, List.map_map]
            congr 1
            apply List.map_congr_left
            intro i _
            have hshift : wrapU 32 (((wrapU 32 ((startTime : Int) + Int.tdiv duration 2) : Nat)
                : Int) + (i : Int) * q) =
                wrapU 32 ((startTime : Int) + ((2 ^ D + i : Nat) : Int) * q) := by
              have hx : ((2 ^ D + i : Nat) : Int) * q = Int.tdiv duration 2 + (i : Int) * q := by
                rw [hd2]; push_cast; ring
              rw [hx]
              generalize Int.tdiv duration 2 = a
              generalize (i : Int) * q = x
              unfold wrapU
              omega
            simp only [Function.comp, hshift]

/-- Enough fuel: for a range below `8 * 2^D` the run of `split` with fuel
`D + 1` is the run with any larger fuel. -/
theorem split_fuel (g : Graphics) (D : Nat) :
    ∀ (k : Nat) (startValue endValue : Int) (startTime : Nat) (duration range : Int)
      (w : World), range < 8 * (2 : Int) ^ D → range ≤ 32767 →
      split g (D + 1 + k) startValue endValue startTime duration range w =
        split g (D + 1) startValue endValue startTime duration range w := by
  induction D with
  | zero =>
    intro k startValue endValue startTime duration range w hhi _
    have h8 : range < 8 := by simpa using hhi
    have hk : 0 + 1 + k = k + 1 := by omega
    rw [hk, split_leaf g k _ _ _ _ _ w h8, split_leaf g 0 _ _ _ _ _ w h8]
  | succ D ih =>
    intro k startValue endValue startTime duration range w hhi h16
    have hk : D + 1 + 1 + k = (D + 1 + k) + 1 := by omega
    rw [hk]
    by_cases h8 : 8 ≤ range
    · have hpow : (2 : Int) ^ (D + 1) = 2 * (2 : Int) ^ D := by rw [pow_succ]; ring
      rw [hpow] at hhi
      have hq : Int.tdiv range 2 = range / 2 := Int.tdiv_eq_ediv (by omega) (by omega)
      have hw2 : wrapS16 (Int.tdiv range 2) = range / 2 := by
        rw [hq]; unfold wrapS16; omega
      have r2 : range / 2 < 8 * (2 : Int) ^ D := by omega
      have r3 : range / 2 ≤ 32767 := by omega
      cases hr : w.rands with
      | nil =>
        rw [split, if_pos h8, split, if_pos h8]
        simp only [hr]
      | cons r rest =>
        have hA := split_node g (D + 1 + k) startValue endValue startTime duration range w r
          rest h8 hr
        have hB := split_node g (D + 1) startValue endValue startTime duration range w r
          rest h8 hr
        rw [hw2] at hA hB
        have ih1 := ih k startValue (midValue startValue endValue (range / 2) r) startTime
          (Int.tdiv duration 2) (range / 2) { w with rands := rest } r2 r3
        rw [ih1] at hA
        cases h1 : (split g (D + 1) startValue (midValue startValue endValue (range / 2) r)
            startTime (Int.tdiv duration 2) (range / 2) { w with rands := rest }).2 with
        | none => rw [hA.2 h1, hB.2 h1]
        | some w1 =>
          have ih2 := ih k (midValue startValue endValue (range / 2) r) endValue
            (wrapU 32 ((startTime : Int) + Int.tdiv duration 2)) (Int.tdiv duration 2)
            (range / 2) w1 r2 r3
          rw [hA.1 w1 h1, hB.1 w1 h1, ih2]
    · rw [split_leaf g _ _ _ _ _ _ w (not_le.mp h8), split_leaf g _ _ _ _ _ _ w (not_le.mp h8)]

/-- Values of the leaf calls of a completed run: the first starts at
`startValue`, each ends where the next starts, the last ends at `endValue`. -/
theorem splitLeaves_values (g : Graphics) (fuel : Nat) :
    ∀ (depth : Nat) (startValue endValue : Int) (startTime : Nat) (duration range : Int)
      (w : World),
      (splitLeaves g fuel depth startValue endValue startTime duration range w).2.2.isSome
        = true →
      (splitLeaves g fuel depth startValue endValue startTime duration range w).1.map
          (fun s => s.startValue) ++ [endValue] =
        startValue :: (splitLeaves g fuel depth startValue endValue startTime duration range
          w).1.map (fun s => s.endValue) := by
  induction fuel with
  | zero =>
    intro depth startValue endValue startTime duration range w hdone
    exact absurd hdone (by simp [splitLeaves])
  | succ fuel ih =>
    intro depth startValue endValue startTime duration range w hdone
    by_cases h8 : 8 ≤ range
    · cases hr : w.rands with
      | nil =>
        rw [splitLeaves_nil g fuel depth _ _ _ _ _ w h8 hr] at hdone
        exact absurd hdone (by simp)
      | cons r rest =>
        have hL := splitLeaves_node g fuel depth startValue endValue startTime duration range
          w r rest h8 hr
        cases h1 : (splitLeaves g fuel (depth + 1) startValue
            (midValue startValue endValue (wrapS16 (Int.tdiv range 2)) r) startTime
            (Int.tdiv duration 2) (wrapS16 (Int.tdiv range 2))
            { w with rands := rest }).2.2 with
        | none =>
          rw [hL.2 h1, h1] at hdone
          exact absurd hdone (by simp)
        | some w1 =>
          rw [hL.1 w1 h1] at hdone ⊢
          have e1 := ih (depth + 1) startValue
            (midValue startValue endValue (wrapS16 (Int.tdiv range 2)) r) startTime
            (Int.tdiv duration 2) (wrapS16 (Int.tdiv range 2)) { w with rands := rest }
            (by rw [h1]; rfl)
          have e2 := ih (depth + 1)
            (midValue startValue endValue (wrapS16 (Int.tdiv range 2)) r) endValue
            (wrapU 32 ((startTime : Int) + Int.tdiv duration 2)) (Int.tdiv duration 2)
            (wrapS16 (Int.tdiv range 2)) w1 hdone
          simp only [List.map_append, List.append_assoc]
          rw [e2, ← List.cons_append, ← e1]
          simp only [List.append_assoc, List.singleton_append]
    · rw [splitLeaves_leaf g fuel depth _ _ _ _ _ w (not_le.mp h8)]
      rfl

/-- Times of the leaf calls, for a non-negative `int32_t` duration: relative
to `startTime` (as `uint32_t` differences) every leaf lies inside
`[0, duration]`, and each leaf ends before or when the next one starts. -/
theorem splitLeaves_within (g : Graphics) (fuel : Nat) :
    ∀ (depth : Nat) (startValue endValue : Int) (startTime : Nat) (duration range : Int)
      (w : World), 0 ≤ duration → duration < 2 ^ 31 → startTime < 2 ^ 32 →
      (∀ s ∈ (splitLeaves g fuel depth startValue endValue startTime duration range w).1,
        0 ≤ s.duration ∧ s.startTime < 2 ^ 32 ∧
        (wrapU 32 ((s.startTime : Int) - (startTime : Int)) : Int) + s.duration ≤ duration) ∧
      (splitLeaves g fuel depth startValue endValue startTime duration range w).1.Pairwise
        (fun a b => (wrapU 32 ((a.startTime : Int) - (startTime : Int)) : Int) + a.duration ≤
          (wrapU 32 ((b.startTime : Int) - (startTime : Int)) : Int)) := by
  induction fuel with
  | zero =>
    intro depth startValue endValue startTime duration range w _ _ _
    exact ⟨fun s hs => absurd hs (by simp [splitLeaves]), by simp [splitLeaves]⟩
  | succ fuel ih =>
    intro depth startValue endValue startTime duration range w h0 h31 hst
    by_cases h8 : 8 ≤ range
    · cases hr : w.rands with
      | nil =>
        rw [splitLeaves_nil g fuel depth _ _ _ _ _ w h8 hr]
        exact ⟨fun s hs => absurd hs (List.not_mem_nil s), List.Pairwise.nil⟩
      | cons r rest =>
        have hL := splitLeaves_node g fuel depth startValue endValue startTime duration range
          w r rest h8 hr
        have hq : Int.tdiv duration 2 = duration / 2 := Int.tdiv_eq_ediv h0 (by omega)
        rw [hq] at hL
        have hmid : wrapU 32 ((startTime : Int) + duration / 2) < 2 ^ 32 := by
          unfold wrapU
          omega
        have ih1 := ih (depth + 1) startValue
          (midValue startValue endValue (wrapS16 (Int.tdiv range 2)) r) startTime
          (duration / 2) (wrapS16 (Int.tdiv range 2)) { w with rands := rest }
          (by omega) (by omega) hst
        cases h1 : (splitLeaves g fuel (depth + 1) startValue
            (midValue startValue endValue (wrapS16 (Int.tdiv range 2)) r) startTime
            (duration / 2) (wrapS16 (Int.tdiv range 2)) { w with rands := rest }).2.2 with
        | none =>
          rw [hL.2 h1]
          refine ⟨fun s hs => ?_, ih1.2⟩
          have := ih1.1 s hs
          exact ⟨this.1, this.2.1, by omega⟩
        | some w1 =>
          have ih2 := ih (depth + 1)
            (midValue startValue endValue (wrapS16 (Int.tdiv range 2)) r) endValue
            (wrapU 32 ((startTime : Int) + duration / 2)) (duration / 2)
            (wrapS16 (Int.tdiv range 2)) w1 (by omega) (by omega) hmid
          rw [hL.1 w1 h1]
          have shift : ∀ s ∈ (splitLeaves g fuel (depth + 1)
              (midValue startValue endValue (wrapS16 (Int.tdiv range 2)) r) endValue
              (wrapU 32 ((startTime : Int) + duration / 2)) (duration / 2)
              (wrapS16 (Int.tdiv range 2)) w1).1,
              (wrapU 32 ((s.startTime : Int) - (startTime : Int)) : Int) =
                (wrapU 32 ((s.startTime : Int) -
                  ((wrapU 32 ((startTime : Int) + duration / 2) : Nat) : Int)) : Int) +
                  duration / 2 := by
            intro s hs
            have hb := ih2.1 s hs
            have hd0 : 0 ≤ duration / 2 := by omega
            have hd1 : duration / 2 < 2 ^ 30 := by omega
            generalize s.duration = sd at hb
            generalize s.startTime = A at hb ⊢
            generalize duration / 2 = d2 at hb hd0 hd1 ⊢
            unfold wrapU at hb ⊢
            omega
          refine ⟨?_, ?_⟩
          · intro s hs
            rcases List.mem_append.mp hs with hm | hm
            · have := ih1.1 s hm
              exact ⟨this.1, this.2.1, by omega⟩
            · have hb := ih2.1 s hm
              rw [shift s hm]
              exact ⟨hb.1, hb.2.1, by omega⟩
          · rw [List.pairwise_append]
            refine ⟨ih1.2, ?_, ?_⟩
            · refine List.Pairwise.imp_of_mem ?_ ih2.2
              intro a b ha hb hab
              rw [shift a ha, shift b hb]
              omega
            · intro a ha b hb
              have h1a := ih1.1 a ha
              have h2b := ih2.1 b hb
              rw [shift b hb]
              omega
    · rw [splitLeaves_leaf g fuel depth _ _ _ _ _ w (not_le.mp h8)]
      have hz : wrapU 32 ((startTime : Int) - (startTime : Int)) = 0 := by
        rw [sub_self]; decide
      refine ⟨?_, List.pairwise_singleton _ _⟩
      intro s hs
      simp only [List.mem_singleton] at hs
      rw [hs]
      show 0 ≤ duration ∧ startTime < 2 ^ 32 ∧
        (wrapU 32 ((startTime : Int) - (startTime : Int)) : Int) + duration ≤ duration
      rw [hz]
      exact ⟨h0, hst, by simp⟩

/-- C24: the recursion of `split` follows the halving of `range`. A call with
`range < 8` is a leaf (no recursive call); a call with `8 <= range <= 32767`
halves the range to `range / 2 >= 4` (so `rand() % range` has a non-zero
divisor) and consists of the first recursive call followed, when that call
completes, by the second one; for a range below `8 * 2^D` fuel `D + 1` is
enough, so fuel 13 is enough for every 16-bit range; every leaf call lies
exactly `D` calls deep when `4 * 2^D <= range < 8 * 2^D`. For the top-level
call of `loop` (`range = IRIS_MAX - IRIS_MIN = 600`, fuel 16) a run that
completes has exactly 128 leaf calls, all at depth 7. -/
theorem split_recursion_depth (g : Graphics) (fuel : Nat) (startValue endValue : Int)
    (startTime : Nat) (duration : Int) (w : World)
    (hdone : (split g (8 + fuel) startValue endValue startTime duration 600 w).2.isSome
      = true) :
    wrapS16 ((IRIS_MAX : Int) - (IRIS_MIN : Int)) = 600 ∧
    (splitLeaves g (8 + fuel) 0 startValue endValue startTime duration 600 w).2 =
      split g (8 + fuel) startValue endValue startTime duration 600 w ∧
    (splitLeaves g (8 + fuel) 0 startValue endValue startTime duration 600 w).1.length = 128 ∧
    (∀ seg ∈ (splitLeaves g (8 + fuel) 0 startValue endValue startTime duration 600 w).1,
      seg.depth = 7) ∧
    split g (8 + fuel) startValue endValue startTime duration 600 w =
      split g 8 startValue endValue startTime duration 600 w ∧
    (∀ (n depth : Nat) (sv ev : Int) (st : Nat) (dur range : Int) (v : World), range < 8 →
      split g (n + 1) sv ev st dur range v = splitLeaf g sv ev st dur v.clock v.anim v.rands ∧
      (splitLeaves g (n + 1) depth sv ev st dur range v).1 =
        [{ startValue := sv, endValue := ev, startTime := st, duration := dur,
           depth := depth }]) ∧
    (∀ (n : Nat) (sv ev : Int) (st : Nat) (dur range : Int) (v : World) (r : Nat)
      (rest : List Nat), 8 ≤ range → range ≤ 32767 → v.rands = r :: rest →
      4 ≤ wrapS16 (Int.tdiv range 2) ∧ wrapS16 (Int.tdiv range 2) = range / 2 ∧
      (∀ v1, (split g n sv (midValue sv ev (range / 2) r) st (Int.tdiv dur 2) (range / 2)
          { v with rands := rest }).2 = some v1 →
        split g (n + 1) sv ev st dur range v =
          ((split g n sv (midValue sv ev (range / 2) r) st (Int.tdiv dur 2) (range / 2)
              { v with rands := rest }).1 ++
            (split g n (midValue sv ev (range / 2) r) ev
              (wrapU 32 ((st : Int) + Int.tdiv dur 2)) (Int.tdiv dur 2) (range / 2) v1).1,
           (split g n (midValue sv ev (range / 2) r) ev
              (wrapU 32 ((st : Int) + Int.tdiv dur 2)) (Int.tdiv dur 2) (range / 2) v1).2)) ∧
      ((split g n sv (midValue sv ev (range / 2) r) st (Int.tdiv dur 2) (range / 2)
          { v with rands := rest }).2 = none →
        split g (n + 1) sv ev st dur range v =
          split g n sv (midValue sv ev (range / 2) r) st (Int.tdiv dur 2) (range / 2)
            { v with rands := rest })) ∧
    (∀ (D k : Nat) (sv ev : Int) (st : Nat) (dur range : Int) (v : World),
      range < 8 * (2 : Int) ^ D → range ≤ 32767 →
      split g (D + 1 + k) sv ev st dur range v = split g (D + 1) sv ev st dur range v) ∧
    (∀ (k : Nat) (sv ev : Int) (st : Nat) (dur range : Int) (v : World), range ≤ 32767 →
      split g (13 + k) sv ev st dur range v = split g 13 sv ev st dur range v) ∧
    (∀ (D n depth : Nat) (sv ev : Int) (st : Nat) (dur range : Int) (v : World),
      D + 1 ≤ n → (D = 0 ∨ 4 * (2 : Int) ^ D ≤ range) → range < 8 * (2 : Int) ^ D →
      range ≤ 32767 →
      ∀ seg ∈ (splitLeaves g n depth sv ev st dur range v).1, seg.depth = depth + D) := by
  have hrun := splitLeaves_run g (8 + fuel) 0 startValue endValue startTime duration 600 w
  have hshape := splitLeaves_shape g 7 (8 + fuel) 0 startValue endValue startTime duration
    600 w (by omega) (Or.inr (by norm_num)) (by norm_num) (by norm_num)
  have hdone' : (splitLeaves g (8 + fuel) 0 startValue endValue startTime duration 600
      w).2.2.isSome = true := by rw [hrun]; exact hdone
  refine ⟨by decide, hrun, (hshape.2 hdone').1, ?_, ?_, ?_, ?_, ?_, ?_, ?_⟩
  · intro seg hseg
    rw [hshape.1 seg hseg]
  · have h := split_fuel g 7 fuel startValue endValue startTime duration 600 w
      (by norm_num) (by norm_num)
    have e1 : 7 + 1 + fuel = 8 + fuel := by omega
    rw [e1] at h
    exact h
  · intro n depth sv ev st dur range v hlt
    exact ⟨split_leaf g n sv ev st dur range v hlt,
      by rw [splitLeaves_leaf g n depth sv ev st dur range v hlt]⟩
  · intro n sv ev st dur range v r rest h8 h16 hr
    have hq : Int.tdiv range 2 = range / 2 := Int.tdiv_eq_ediv (by omega) (by omega)
    have hw2 : wrapS16 (Int.tdiv range 2) = range / 2 := by
      rw [hq]; unfold wrapS16; omega
    have hn := split_node g n sv ev st dur range v r rest h8 hr
    rw [hw2] at hn ⊢
    exact ⟨by omega, rfl, hn.1, hn.2⟩
  · intro D k sv ev st dur range v hhi h16
    exact split_fuel g D k sv ev st dur range v hhi h16
  · intro k sv ev st dur range v h16
    have h := split_fuel g 12 k sv ev st dur range v (by norm_num; omega) h16
    have e1 : 12 + 1 + k = 13 + k := by omega
    rw [e1] at h
    exact h
  · intro D n depth sv ev st dur range v hn hlo hhi h16
    exact (splitLeaves_shape g D n depth sv ev st dur range v hn hlo hhi h16).1

set_option maxRecDepth 1000000 in
/-- Witness for C24: the `split` call of the first `loop()` round on
`demoWorld` (from 420 to 220 in 10 s from `t = 0`, fuel 16) completes with
128 leaf calls, the first of them seven calls deep. -/
theorem split_recursion_depth_witness :
    (split demoGraphics (8 + 8) 420 220 0 10000000 600 demoSplitWorld).2.isSome = true ∧
    (splitLeaves demoGraphics (8 + 8) 0 420 220 0 10000000 600 demoSplitWorld).1.head? =
      some { startValue := 420, endValue := 408, startTime := 0, duration := 78125,
             depth := 7 } ∧
    (splitLeaves demoGraphics (8 + 8) 0 420 220 0 10000000 600 demoSplitWorld).1.length = 128 :=
  ⟨by decide, by decide,
    (split_recursion_depth demoGraphics 8 420 220 0 10000000 demoSplitWorld (by decide)).2.2.1⟩

/-- C25: for the top-level call `split(old, new, t0, 10000000, 600)` of `loop`
(fuel at least 8, `t0` a `uint32_t`) a run that completes makes leaf calls
whose start times and durations are `(t0 + i*78125, 78125)` for
`i = 0..127`, the start times taken as `uint32_t` (equal to `t0 + i*78125`
when that is below `2^32`); each leaf starts where the one before it ends,
the durations sum to 10000000, the first leaf starts at value `old`, each
leaf ends at the value at which the next one starts, and the last ends at
`new`. For every call with a non-negative `int32_t` duration the leaves lie
inside `[startTime, startTime + duration]` (as offsets from `startTime`) and
each leaf ends before or when the next one starts. -/
theorem split_leaves_tile (g : Graphics) (fuel : Nat) (startValue endValue : Int)
    (startTime : Nat) (w : World) (hst : startTime < 2 ^ 32)
    (hdone : (split g (8 + fuel) startValue endValue startTime 10000000 600 w).2.isSome
      = true) :
    (splitLeaves g (8 + fuel) 0 startValue endValue startTime 10000000 600 w).1.map
        (fun s => (s.startTime, s.duration)) =
      (List.range 128).map
        (fun (i : Nat) => (wrapU 32 ((startTime : Int) + (i : Int) * 78125), 78125)) ∧
    (∀ i : Nat, i < 128 →
      ∃ s, (splitLeaves g (8 + fuel) 0 startValue endValue startTime 10000000 600 w).1[i]?
          = some s ∧
        s.startTime = wrapU 32 ((startTime : Int) + (i : Int) * 78125) ∧
        s.duration = 78125 ∧
        (startTime + i * 78125 < 2 ^ 32 → s.startTime = startTime + i * 78125) ∧
        wrapU 32 ((s.startTime : Int) + s.duration) =
          wrapU 32 ((startTime : Int) + ((i + 1 : Nat) : Int) * 78125)) ∧
    ((splitLeaves g (8 + fuel) 0 startValue endValue startTime 10000000 600 w).1.map
        (fun s => s.duration)).sum = 10000000 ∧
    (splitLeaves g (8 + fuel) 0 startValue endValue startTime 10000000 600 w).1.map
        (fun s => s.startValue) ++ [endValue] =
      startValue :: (splitLeaves g (8 + fuel) 0 startValue endValue startTime 10000000 600
        w).1.map (fun s => s.endValue) ∧
    (∀ (n depth : Nat) (sv ev : Int) (st : Nat) (dur range : Int) (v : World),
      0 ≤ dur → dur < 2 ^ 31 → st < 2 ^ 32 →
      (∀ s ∈ (splitLeaves g n depth sv ev st dur range v).1,
        0 ≤ s.duration ∧ s.startTime < 2 ^ 32 ∧
        (wrapU 32 ((s.startTime : Int) - (st : Int)) : Int) + s.duration ≤ dur) ∧
      (splitLeaves g n depth sv ev st dur range v).1.Pairwise
        (fun a b => (wrapU 32 ((a.startTime : Int) - (st : Int)) : Int) + a.duration ≤
          (wrapU 32 ((b.startTime : Int) - (st : Int)) : Int))) := by
  have hrun := splitLeaves_run g (8 + fuel) 0 startValue endValue startTime 10000000 600 w
  have hshape := splitLeaves_shape g 7 (8 + fuel) 0 startValue endValue startTime 10000000
    600 w (by omega) (Or.inr (by norm_num)) (by norm_num) (by norm_num)
  have hdone' : (splitLeaves g (8 + fuel) 0 startValue endValue startTime 10000000 600
      w).2.2.isSome = true := by rw [hrun]; exact hdone
  have htimes := (hshape.2 hdone').2 78125 (by norm_num) hst
  have h128 : 2 ^ 7 = 128 := by norm_num
  rw [h128] at htimes
  refine ⟨htimes, ?_, ?_, splitLeaves_values g (8 + fuel) 0 startValue endValue startTime
    10000000 600 w hdone', ?_⟩
  · intro i hi
    have hi' := congrArg (fun l => l[i]?) htimes
    simp only [List.getElem?_map, List.getElem?_range hi, Option.map_some'] at hi'
    cases hs : (splitLeaves g (8 + fuel) 0 startValue endValue startTime 10000000 600
        w).1[i]? with
    | none => rw [hs] at hi'; simp at hi'
    | some s =>
      rw [hs] at hi'
      simp only [Option.map_some', Option.some.injEq, Prod.mk.injEq] at hi'
      obtain ⟨h1, h2⟩ := hi'
      refine ⟨s, rfl, h1, h2, ?_, ?_⟩
      · intro hlt
        rw [h1]
        unfold wrapU
        omega
      · rw [h1, h2]
        push_cast
        unfold wrapU
        omega
  · have hsnd : (splitLeaves g (8 + fuel) 0 startValue endValue startTime 10000000 600
        w).1.map (fun s => s.duration) =
        ((splitLeaves g (8 + fuel) 0 startValue endValue startTime 10000000 600 w).1.map
          (fun s => (s.startTime, s.duration))).map Prod.snd := by
      rw [List.map_map]
      rfl
    rw [hsnd, htimes, List.map_map]
    have hconst : (Prod.snd ∘ fun (i : Nat) =>
        (wrapU 32 ((startTime : Int) + (i : Int) * 78125), (78125 : Int))) =
        fun _ => (78125 : Int) := rfl
    rw [hconst, List.map_const', List.length_range, List.sum_replicate]
    norm_num
  · intro n depth sv ev st dur range v h0 h31 hst'
    exact splitLeaves_within g n depth sv ev st dur range v h0 h31 hst'

set_option maxRecDepth 1000000 in
/-- Witness for C25: in the `split` call of the first `loop()` round on
`demoWorld` the leaf calls start at `0, 78125, 156250, ...`; the first goes
from 420 to 408, the last ends at 220. -/
theorem split_leaves_tile_witness :
    (splitLeaves demoGraphics (8 + 8) 0 420 220 0 10000000 600 demoSplitWorld).1.take 2 =
      [{ startValue := 420, endValue := 408, startTime := 0, duration := 78125, depth := 7 },
       { startValue := 408, endValue := 395, startTime := 78125, duration := 78125,
         depth := 7 }] ∧
    (splitLeaves demoGraphics (8 + 8) 0 420 220 0 10000000 600 demoSplitWorld).1.getLast? =
      some { startValue := 211, endValue := 220, startTime := 9921875, duration := 78125,
             depth := 7 } ∧
    (splitLeaves demoGraphics (8 + 8) 0 420 220 0 10000000 600 demoSplitWorld).1.map
        (fun s => (s.startTime, s.duration)) =
      (List.range 128).map
        (fun (i : Nat) => (wrapU 32 (((0 : Nat) : Int) + (i : Int) * 78125), 78125)) :=
  ⟨by decide, by decide,
    (split_leaves_tile demoGraphics 8 420 220 0 demoSplitWorld (by decide) (by decide)).1⟩

/-! ## Theorems: SSD1351 rotation, mirroring and initialisation -/

theorem and_three (r : Nat) : (r % 256 &&& 3) % 256 = r % 4 := by
  have h := Nat.and_pow_two_sub_one_eq_mod (r % 256) 2
  have h3 : (2 ^ 2 - 1 : Nat) = 3 := rfl
  rw [h3] at h
  rw [h]
  omega

/-- The four outcomes of `setRotation`, by `r mod 4`. -/
theorem setRotation_eq (d : Display) (r : Nat) :
    setRotation d r =
      ({ d with rotation := r % 4,
                _width := if r % 4 = 0 ∨ r % 4 = 2 then d.WIDTH else d.HEIGHT,
                _height := if r % 4 = 0 ∨ r % 4 = 2 then d.HEIGHT else d.WIDTH },
        [SpiByte.command 0xA0, SpiByte.data (madctl (r % 4)),
         SpiByte.command 0xA1,
         SpiByte.data (wrapU 8 (if r % 4 < 2 then d.HEIGHT else 0))]) := by
  unfold setRotation
  simp only [and_three]
  have hk : r % 4 = 0 ∨ r % 4 = 1 ∨ r % 4 = 2 ∨ r % 4 = 3 := by omega
  rcases hk with h | h | h | h <;> rw [h] <;>
    simp [writeCmd, writeData, SSD1351_CMD_SETREMAP, SSD1351_CMD_STARTLINE, madctl, wrapU] <;>
    omega

/-- C26: for every `r` (taken as `uint8_t`), `setRotation(r)` stores
`rotation = r mod 4`,
sets the logical size to `(WIDTH, HEIGHT)` for an even rotation and to
`(HEIGHT, WIDTH)` for an odd one, and sends after `SETREMAP` a byte whose bit 0
is set exactly when the rotation is odd; `setAddrWindow` then swaps the x and
y ranges exactly when that bit is set, and the byte that `mirrorDisplay(true)`
sends for this rotation has the same bit 0. -/
theorem setRotation_remap (d : Display) (r : Nat) :
    (setRotation d r).1.rotation = r % 4 ∧
    (r % 4 % 2 = 0 →
      (setRotation d r).1._width = d.WIDTH ∧ (setRotation d r).1._height = d.HEIGHT) ∧
    (r % 4 % 2 = 1 →
      (setRotation d r).1._width = d.HEIGHT ∧ (setRotation d r).1._height = d.WIDTH) ∧
    (setRotation d r).1.WIDTH = d.WIDTH ∧ (setRotation d r).1.HEIGHT = d.HEIGHT ∧
    (setRotation d r).2 =
      [SpiByte.command SSD1351_CMD_SETREMAP, SpiByte.data (madctl (r % 4)),
       SpiByte.command SSD1351_CMD_STARTLINE,
       SpiByte.data (wrapU 8 (if r % 4 < 2 then d.HEIGHT else 0))] ∧
    madctl (r % 4) < 256 ∧
    (madctl (r % 4) &&& 1 = 1 ↔ r % 4 % 2 = 1) ∧
    (madctl (r % 4) &&& 1 = 1 ↔ (setRotation d r).1.rotation &&& 1 ≠ 0) ∧
    (∀ x1 y1 x2 y2 : Nat, x1 < 256 → y1 < 256 → x2 < 256 → y2 < 256 →
      setAddrWindow (setRotation d r).1 x1 y1 x2 y2 =
        if madctl (r % 4) &&& 1 = 1 then
          [SpiByte.command SSD1351_CMD_SETCOLUMN, SpiByte.data y1, SpiByte.data y2,
           SpiByte.command SSD1351_CMD_SETROW, SpiByte.data x1, SpiByte.data x2,
           SpiByte.command SSD1351_CMD_WRITERAM]
        else
          [SpiByte.command SSD1351_CMD_SETCOLUMN, SpiByte.data x1, SpiByte.data x2,
           SpiByte.command SSD1351_CMD_SETROW, SpiByte.data y1, SpiByte.data y2,
           SpiByte.command SSD1351_CMD_WRITERAM]) ∧
    ∃ m, mirrorOLED[r % 4]? = some m ∧
      mirrorDisplay (setRotation d r).1 true =
        some ((setRotation d r).1, [SpiByte.command SSD1351_CMD_SETREMAP, SpiByte.data m]) ∧
      m &&& 1 = madctl (r % 4) &&& 1 := by
  rw [setRotation_eq]
  have hk : r % 4 = 0 ∨ r % 4 = 1 ∨ r % 4 = 2 ∨ r % 4 = 3 := by omega
  have hw : ∀ x1 y1 x2 y2 : Nat, x1 < 256 → y1 < 256 → x2 < 256 → y2 < 256 →
      x1 % 65536 % 256 = x1 ∧ y1 % 65536 % 256 = y1 ∧ x2 % 65536 % 256 = x2 ∧
        y2 % 65536 % 256 = y2 := by
    intro x1 y1 x2 y2 h1 h2 h3 h4
    omega
  rcases hk with h | h | h | h <;> rw [h] <;>
    refine ⟨rfl, ?_, ?_, rfl, rfl, rfl, by decide, by decide, ?_, ?_, ?_⟩
  all_goals first
    | (dsimp only
       decide)
    | exact fun _ => ⟨rfl, rfl⟩
    | exact fun hx => absurd hx (by decide)
    | (intro x1 y1 x2 y2 h1 h2 h3 h4
       obtain ⟨e1, e2, e3, e4⟩ := hw x1 y1 x2 y2 h1 h2 h3 h4
       simp [setAddrWindow, writeCmd, writeData, madctl, e1, e2, e3, e4,
         SSD1351_CMD_SETCOLUMN, SSD1351_CMD_SETROW, SSD1351_CMD_WRITERAM])
    | exact ⟨_, rfl, rfl, by decide⟩

/-- Witness for C26: `setRotation(7)` on the 128x128 display stores rotation 3
and sends the remap byte `0b01100101`, with bit 0 set. -/
theorem setRotation_remap_witness :
    setRotation oled 7 =
      ({ WIDTH := 128, HEIGHT := 128, _width := 128, _height := 128, rotation := 3 },
        [SpiByte.command 0xA0, SpiByte.data 0b01100101, SpiByte.command 0xA1,
         SpiByte.data 0]) ∧
    (setRotation oled 7).1.rotation = 7 % 4 :=
  ⟨by decide, (setRotation_remap oled 7).1⟩

/-- C27: for every stored rotation in `0..3`, `mirrorDisplay(true)` sends
`SETREMAP` with a byte that differs from the byte of `setRotation(rotation)`
in exactly one bit (bit 1, value 2, for an even rotation; bit 4, value 16, for
an odd one) and leaves `rotation`, `_width` and `_height` as they are;
`mirrorDisplay(false)` is `setRotation(rotation)`; and after `setRotation(r)`
mirroring on and then off sends again exactly the bytes of `setRotation(r)`
and leaves the members as `setRotation(r)` set them. -/
theorem mirrorDisplay_toggle (d : Display) (hr : d.rotation < 4) :
    (∃ m, mirrorOLED[d.rotation]? = some m ∧
      mirrorDisplay d true =
        some (d, [SpiByte.command SSD1351_CMD_SETREMAP, SpiByte.data m]) ∧
      m ^^^ madctl d.rotation = (if d.rotation % 2 = 0 then 2 ^ 1 else 2 ^ 4) ∧
      (setRotation d d.rotation).2.take 2 =
        [SpiByte.command SSD1351_CMD_SETREMAP, SpiByte.data (madctl d.rotation)]) ∧
    mirrorDisplay d false = some (setRotation d d.rotation) ∧
    (∀ (r : Nat),
      (∃ m, mirrorDisplay (setRotation d r).1 true =
        some ((setRotation d r).1, [SpiByte.command SSD1351_CMD_SETREMAP, SpiByte.data m])) ∧
      mirrorDisplay (setRotation d r).1 false = some (setRotation d r)) := by
  refine ⟨?_, rfl, ?_⟩
  · obtain ⟨W, H, w, h, rot⟩ := d
    simp only at hr
    interval_cases rot <;> refine ⟨_, rfl, rfl, ?_, ?_⟩
    all_goals first
      | (dsimp only
         decide)
      | (rw [setRotation_eq]
         rfl)
  · intro r
    have hidem : setRotation (setRotation d r).1 (setRotation d r).1.rotation =
        setRotation d r := by
      rw [setRotation_eq d r]
      rw [setRotation_eq]
      simp only [Nat.mod_mod]
    refine ⟨?_, ?_⟩
    · rw [setRotation_eq d r]
      have hk : r % 4 = 0 ∨ r % 4 = 1 ∨ r % 4 = 2 ∨ r % 4 = 3 := by omega
      rcases hk with h | h | h | h <;> rw [h] <;> exact ⟨_, rfl⟩
    · show some (setRotation (setRotation d r).1 (setRotation d r).1.rotation) = _
      rw [hidem]

/-- Witness for C27: on the 128x128 display with rotation 0 the mirrored byte
is `0b01110110`, the unmirrored one `0b01110100`; they differ in bit 1. -/
theorem mirrorDisplay_toggle_witness :
    mirrorDisplay oled true =
      some (oled, [SpiByte.command 0xA0, SpiByte.data 0b01110110]) ∧
    (setRotation oled 0).2 =
      [SpiByte.command 0xA0, SpiByte.data 0b01110100, SpiByte.command 0xA1,
       SpiByte.data 128] ∧
    mirrorDisplay oled false = some (setRotation oled oled.rotation) :=
  ⟨by decide, by decide, (mirrorDisplay_toggle oled (by decide)).2.1⟩

/-- C28: `displayInit` on `initSSD1351` reads the 50 bytes of the table, no
others (a read outside the table makes the run `none`, as it does on the
table without its last byte): the leading count 16 is the number of entries,
16 command bytes and 17 data bytes are sent in table order, starting with
`COMMANDLOCK` and its argument `0x12` and ending with `DISPLAYON`; no argument
count has the bit `0x80` set and `wait_ms` is not called. -/
theorem displayInit_table :
    initSSD1351.length = 50 ∧ initSSD1351[0]? = some 16 ∧
    displayInit initSSD1351 = some
      { sent := [
          SpiByte.command SSD1351_CMD_COMMANDLOCK, SpiByte.data 0x12,
          SpiByte.command SSD1351_CMD_COMMANDLOCK, SpiByte.data 0xB1,
          SpiByte.command SSD1351_CMD_DISPLAYOFF,
          SpiByte.command SSD1351_CMD_CLOCKDIV, SpiByte.data 0xF1,
          SpiByte.command SSD1351_CMD_MUXRATIO, SpiByte.data 127,
          SpiByte.command SSD1351_CMD_DISPLAYOFFSET, SpiByte.data 0x0,
          SpiByte.command SSD1351_CMD_SETGPIO, SpiByte.data 0x00,
          SpiByte.command SSD1351_CMD_FUNCTIONSELECT, SpiByte.data 0x01,
          SpiByte.command SSD1351_CMD_PRECHARGE, SpiByte.data 0x32,
          SpiByte.command SSD1351_CMD_VCOMH, SpiByte.data 0x05,
          SpiByte.command SSD1351_CMD_NORMALDISPLAY,
          SpiByte.command SSD1351_CMD_CONTRASTABC, SpiByte.data 0xC8, SpiByte.data 0x80,
          SpiByte.data 0xC8,
          SpiByte.command SSD1351_CMD_CONTRASTMASTER, SpiByte.data 0x0F,
          SpiByte.command SSD1351_CMD_SETVSL, SpiByte.data 0xA0, SpiByte.data 0xB5,
          SpiByte.data 0x55,
          SpiByte.command SSD1351_CMD_PRECHARGE2, SpiByte.data 0x01,
          SpiByte.command SSD1351_CMD_DISPLAYON ],
        waits := [],
        addr := 50 } ∧
    (∀ run, displayInit initSSD1351 = some run →
      run.addr = initSSD1351.length ∧ run.waits = [] ∧
      (run.sent.filter (fun b => match b with
        | SpiByte.command _ => true
        | SpiByte.data _ => false)).length = 16 ∧
      (run.sent.filter (fun b => match b with
        | SpiByte.command _ => false
        | SpiByte.data _ => true)).length = 17 ∧
      run.sent.take 2 = [SpiByte.command SSD1351_CMD_COMMANDLOCK, SpiByte.data 0x12] ∧
      run.sent.getLast? = some (SpiByte.command SSD1351_CMD_DISPLAYON)) ∧
    displayCommands initSSD1351 17 1 = none ∧
    displayInit (initSSD1351.take 49) = none := by
  refine ⟨by decide, by decide, by decide, ?_, by decide, by decide⟩
  intro run hrun
  have h : displayInit initSSD1351 = some
      { sent := [
          SpiByte.command SSD1351_CMD_COMMANDLOCK, SpiByte.data 0x12,
          SpiByte.command SSD1351_CMD_COMMANDLOCK, SpiByte.data 0xB1,
          SpiByte.command SSD1351_CMD_DISPLAYOFF,
          SpiByte.command SSD1351_CMD_CLOCKDIV, SpiByte.data 0xF1,
          SpiByte.command SSD1351_CMD_MUXRATIO, SpiByte.data 127,
          SpiByte.command SSD1351_CMD_DISPLAYOFFSET, SpiByte.data 0x0,
          SpiByte.command SSD1351_CMD_SETGPIO, SpiByte.data 0x00,
          SpiByte.command SSD1351_CMD_FUNCTIONSELECT, SpiByte.data 0x01,
          SpiByte.command SSD1351_CMD_PRECHARGE, SpiByte.data 0x32,
          SpiByte.command SSD1351_CMD_VCOMH, SpiByte.data 0x05,
          SpiByte.command SSD1351_CMD_NORMALDISPLAY,
          SpiByte.command SSD1351_CMD_CONTRASTABC, SpiByte.data 0xC8, SpiByte.data 0x80,
          SpiByte.data 0xC8,
          SpiByte.command SSD1351_CMD_CONTRASTMASTER, SpiByte.data 0x0F,
          SpiByte.command SSD1351_CMD_SETVSL, SpiByte.data 0xA0, SpiByte.data 0xB5,
          SpiByte.data 0x55,
          SpiByte.command SSD1351_CMD_PRECHARGE2, SpiByte.data 0x01,
          SpiByte.command SSD1351_CMD_DISPLAYON ],
        waits := [],
        addr := 50 } := by decide
  rw [h] at hrun
  injection hrun with hrun
  subst hrun
  decide

/-! ## Theorems: SSD1351 filled rectangles and pixels -/

theorem writePixels_add (hi lo a b : Nat) :
    writePixels hi lo (a + b) = writePixels hi lo a ++ writePixels hi lo b := by
  induction a with
  | zero => simp [writePixels]
  | succ a ih =>
    have e : a + 1 + b = (a + b) + 1 := by omega
    rw [e, writePixels, writePixels, ih]
    rfl

theorem writePixels16_eq (hi lo n : Nat) :
    writePixels16 hi lo n = writePixels hi lo (16 * n) := by
  induction n with
  | zero => rfl
  | succ n ih =>
    have e : 16 * (n + 1) = 16 + 16 * n := by omega
    rw [writePixels16, ih, e, writePixels_add]

theorem writePixels_length (hi lo n : Nat) : (writePixels hi lo n).length = 2 * n := by
  induction n with
  | zero => rfl
  | succ n ih =>
    rw [writePixels, List.length_cons, List.length_cons, ih]
    omega

/-- The unrolled loop of `fillRect` followed by its remainder loop writes
`num` pixels, for `num` below `2^20`. -/
theorem fillRect_loops (hi lo num : Nat) (h : num < 2 ^ 20) :
    writePixels16 hi lo ((num >>> 4) % 65536) ++ writePixels hi lo ((num &&& 0xf) % 256) =
      writePixels hi lo num := by
  have h1 : num >>> 4 = num / 16 := by rw [Nat.shiftRight_eq_div_pow]
  have h2 : num &&& 0xf = num % 16 := by
    have := Nat.and_pow_two_sub_one_eq_mod num 4
    exact this
  rw [h1, h2, writePixels16_eq, ← writePixels_add]
  congr 1
  omega

/-- `fillRect` for an origin inside the logical area of a display of at most
128x128 and positive sizes. -/
theorem fillRect_inside (d : Display) (x y w h : Int) (color : Nat)
    (hx0 : 0 ≤ x) (hx1 : x < d._width) (hy0 : 0 ≤ y) (hy1 : y < d._height)
    (hw0 : 0 < w) (hw1 : w ≤ 32767) (hh0 : 0 < h) (hh1 : h ≤ 32767)
    (hW : d._width ≤ 128) (hH : d._height ≤ 128) :
    fillRect d x y w h color =
      setAddrWindow d x.toNat y.toNat (x + min w (d._width - x) - 1).toNat
          (y + min h (d._height - y) - 1).toNat ++
        writePixels ((color % 65536) >>> 8 % 256) (color % 65536 % 256)
          (min w (d._width - x) * min h (d._height - y)).toNat := by
  have ex : wrapS16 x = x := by unfold wrapS16; omega
  have ey : wrapS16 y = y := by unfold wrapS16; omega
  have ew : wrapS16 w = w := by unfold wrapS16; omega
  have eh : wrapS16 h = h := by unfold wrapS16; omega
  unfold fillRect
  simp only [ex, ey, ew, eh]
  rw [if_neg (by omega)]
  have cw : (if x + w - 1 ≥ d._width then wrapS16 (d._width - x) else w) =
      min w (d._width - x) := by
    unfold wrapS16
    split_ifs <;> omega
  have ch : (if y + h - 1 ≥ d._height then wrapS16 (d._height - y) else h) =
      min h (d._height - y) := by
    unfold wrapS16
    split_ifs <;> omega
  rw [cw, ch]
  have bw0 : 1 ≤ min w (d._width - x) := by omega
  have bw1 : min w (d._width - x) ≤ 128 := by omega
  have bh0 : 1 ≤ min h (d._height - y) := by omega
  have bh1 : min h (d._height - y) ≤ 128 := by omega
  generalize min w (d._width - x) = w' at bw0 bw1 ⊢
  generalize min h (d._height - y) = h' at bh0 bh1 ⊢
  have hp0 : 0 ≤ w' * h' := mul_nonneg (by omega) (by omega)
  have hp1 : w' * h' ≤ 128 * 128 := mul_le_mul bw1 bh1 (by omega) (by omega)
  have en : wrapU 32 (w' * h') = (w' * h').toNat := by
    generalize w' * h' = p at hp0 hp1 ⊢
    unfold wrapU
    omega
  have hn : (w' * h').toNat < 2 ^ 20 := by
    generalize w' * h' = p at hp0 hp1 ⊢
    omega
  have e1 : wrapU 16 x = x.toNat := by unfold wrapU; omega
  have e2 : wrapU 16 y = y.toNat := by unfold wrapU; omega
  have e3 : wrapU 16 (x + w' - 1) = (x + w' - 1).toNat := by unfold wrapU; omega
  have e4 : wrapU 16 (y + h' - 1) = (y + h' - 1).toNat := by unfold wrapU; omega
  rw [en, e1, e2, e3, e4, List.append_assoc, fillRect_loops _ _ _ hn]

theorem setAddrWindow_length (d : Display) (x1 y1 x2 y2 : Nat) :
    (setAddrWindow d x1 y1 x2 y2).length = 7 := by
  simp [setAddrWindow, writeCmd, writeData]

/-- C29: for `fillRect(x, y, w, h, color)` with `0 <= x < _width`,
`0 <= y < _height`, `w > 0`, `h > 0` on a display of at most 128x128, the
window set is `(x, y, x+w'-1, y+h'-1)` with `w' = min(w, _width - x)` and
`h' = min(h, _height - y)`, it lies inside the logical area, and the bytes
that follow are exactly `w' * h' = (x1-x0+1)*(y1-y0+1)` pixels, each the high
byte then the low byte of `color`: the 16-at-a-time loop and the remainder
loop together write that many. `fillScreen` therefore sets the window
`(0, 0, _width-1, _height-1)` and writes `_width * _height` pixels. -/
theorem fillRect_pixel_count (d : Display) (x y w h : Int) (color : Nat)
    (hx0 : 0 ≤ x) (hx1 : x < d._width) (hy0 : 0 ≤ y) (hy1 : y < d._height)
    (hw0 : 0 < w) (hw1 : w ≤ 32767) (hh0 : 0 < h) (hh1 : h ≤ 32767)
    (hW : d._width ≤ 128) (hH : d._height ≤ 128) :
    fillRect d x y w h color =
      setAddrWindow d x.toNat y.toNat (x + min w (d._width - x) - 1).toNat
          (y + min h (d._height - y) - 1).toNat ++
        writePixels ((color % 65536) >>> 8 % 256) (color % 65536 % 256)
          (min w (d._width - x) * min h (d._height - y)).toNat ∧
    (x ≤ x + min w (d._width - x) - 1 ∧ x + min w (d._width - x) - 1 < d._width) ∧
    (y ≤ y + min h (d._height - y) - 1 ∧ y + min h (d._height - y) - 1 < d._height) ∧
    (min w (d._width - x) * min h (d._height - y)).toNat =
      ((x + min w (d._width - x) - 1).toNat - x.toNat + 1) *
        ((y + min h (d._height - y) - 1).toNat - y.toNat + 1) ∧
    (writePixels ((color % 65536) >>> 8 % 256) (color % 65536 % 256)
      (min w (d._width - x) * min h (d._height - y)).toNat).length =
        2 * (min w (d._width - x) * min h (d._height - y)).toNat ∧
    (fillRect d x y w h color).length =
      7 + 2 * (min w (d._width - x) * min h (d._height - y)).toNat ∧
    (∀ (hi lo num : Nat), num < 2 ^ 20 →
      writePixels16 hi lo ((num >>> 4) % 65536) ++ writePixels hi lo ((num &&& 0xf) % 256) =
        writePixels hi lo num) ∧
    fillScreen d color =
      setAddrWindow d 0 0 (d._width - 1).toNat (d._height - 1).toNat ++
        writePixels ((color % 65536) >>> 8 % 256) (color % 65536 % 256)
          (d._width * d._height).toNat := by
  have hfill := fillRect_inside d x y w h color hx0 hx1 hy0 hy1 hw0 hw1 hh0 hh1 hW hH
  have hscreen := fillRect_inside d 0 0 d._width d._height color (le_refl 0) (by omega)
    (le_refl 0) (by omega) (by omega) (by omega) (by omega) (by omega) hW hH
  have bw0 : 1 ≤ min w (d._width - x) := by omega
  have bw1 : min w (d._width - x) ≤ d._width - x := by omega
  have bh0 : 1 ≤ min h (d._height - y) := by omega
  have bh1 : min h (d._height - y) ≤ d._height - y := by omega
  refine ⟨hfill, by omega, by omega, ?_, writePixels_length _ _ _, ?_, fillRect_loops, ?_⟩
  · generalize min w (d._width - x) = w' at bw0 bw1 ⊢
    generalize min h (d._height - y) = h' at bh0 bh1 ⊢
    have e1 : (x + w' - 1).toNat - x.toNat + 1 = w'.toNat := by omega
    have e2 : (y + h' - 1).toNat - y.toNat + 1 = h'.toNat := by omega
    rw [e1, e2]
    obtain ⟨a, rfl⟩ := Int.eq_ofNat_of_zero_le (show 0 ≤ w' by omega)
    obtain ⟨b, rfl⟩ := Int.eq_ofNat_of_zero_le (show 0 ≤ h' by omega)
    rw [← Nat.cast_mul]
    simp only [Int.toNat_ofNat]
  · rw [hfill, List.length_append, setAddrWindow_length, writePixels_length]
  · unfold fillScreen
    rw [hscreen]
    have m1 : min d._width (d._width - 0) = d._width := by omega
    have m2 : min d._height (d._height - 0) = d._height := by omega
    rw [m1, m2]
    have z1 : (0 : Int) + d._width - 1 = d._width - 1 := by omega
    have z2 : (0 : Int) + d._height - 1 = d._height - 1 := by omega
    rw [z1, z2]
    rfl

set_option maxRecDepth 100000 in
/-- Witness for C29: `fillRect(120, 5, 20, 3, 0xF800)` on the 128x128 display
is clipped to 8 columns and writes 24 pixels (one round of the unrolled loop
and 8 of the remainder loop) into the window `(120, 5, 127, 7)`. -/
theorem fillRect_pixel_count_witness :
    fillRect oled 120 5 20 3 0xF800 =
      [SpiByte.command 0x15, SpiByte.data 120, SpiByte.data 127,
       SpiByte.command 0x75, SpiByte.data 5, SpiByte.data 7, SpiByte.command 0x5C] ++
        writePixels 0xF8 0 24 ∧
    (fillRect oled 120 5 20 3 0xF800).length =
      7 + 2 * (min (20 : Int) (oled._width - 120) * min (3 : Int) (oled._height - 5)).toNat :=
  ⟨by decide,
    (fillRect_pixel_count oled 120 5 20 3 0xF800 (by decide) (by decide) (by decide)
      (by decide) (by decide) (by decide) (by decide) (by decide) (by decide)
      (by decide)).2.2.2.2.2.1⟩

/-- C30: `drawPixel(x, y, color)` (16-bit `x`, `y`) transmits nothing when
`x < 0`, `x >= _width`, `y < 0` or `y >= _height`. For an in-range `(x, y)` it
calls `setAddrWindow(x, y, x+1, y+1)` and writes one pixel, the high byte then
the low byte of `color`: the inclusive window declared holds
`(x1-x0+1)*(y1-y0+1) = 4` pixels, not the single pixel `(x, y)`, whereas
`fillRect(x, y, 1, 1, color)` declares the window `(x, y, x, y)` for the same
pixel. -/
theorem drawPixel_window (d : Display) (x y : Int) (color : Nat)
    (hx : -32768 ≤ x ∧ x ≤ 32767) (hy : -32768 ≤ y ∧ y ≤ 32767) :
    ((x < 0 ∨ x ≥ d._width ∨ y < 0 ∨ y ≥ d._height) → drawPixel d x y color = []) ∧
    (0 ≤ x → x < d._width → 0 ≤ y → y < d._height →
      drawPixel d x y color =
        setAddrWindow d x.toNat y.toNat (x.toNat + 1) (y.toNat + 1) ++
          [SpiByte.data ((color % 65536) >>> 8 % 256), SpiByte.data (color % 65536 % 256)] ∧
      (x.toNat + 1 - x.toNat + 1) * (y.toNat + 1 - y.toNat + 1) = 4 ∧
      [SpiByte.data ((color % 65536) >>> 8 % 256), SpiByte.data (color % 65536 % 256)] =
        writePixels ((color % 65536) >>> 8 % 256) (color % 65536 % 256) 1 ∧
      (d._width ≤ 128 → d._height ≤ 128 →
        fillRect d x y 1 1 color =
          setAddrWindow d x.toNat y.toNat x.toNat y.toNat ++
            writePixels ((color % 65536) >>> 8 % 256) (color % 65536 % 256) 1)) := by
  have ex : wrapS16 x = x := by unfold wrapS16; omega
  have ey : wrapS16 y = y := by unfold wrapS16; omega
  constructor
  · intro hout
    unfold drawPixel
    simp only [ex, ey]
    rw [if_pos hout]
  · intro hx0 hx1 hy0 hy1
    have c1 : x.toNat + 1 - x.toNat + 1 = 2 := by omega
    have c2 : y.toNat + 1 - y.toNat + 1 = 2 := by omega
    refine ⟨?_, by rw [c1, c2], rfl, ?_⟩
    · unfold drawPixel
      simp only [ex, ey]
      rw [if_neg (by omega)]
      have e1 : wrapU 16 x = x.toNat := by unfold wrapU; omega
      have e2 : wrapU 16 y = y.toNat := by unfold wrapU; omega
      have e3 : setAddrWindow d x.toNat y.toNat (wrapU 16 (x + 1)) (wrapU 16 (y + 1)) =
          setAddrWindow d x.toNat y.toNat (x.toNat + 1) (y.toNat + 1) := by
        have a1 : wrapU 16 (x + 1) % 65536 = (x.toNat + 1) % 65536 := by unfold wrapU; omega
        have a2 : wrapU 16 (y + 1) % 65536 = (y.toNat + 1) % 65536 := by unfold wrapU; omega
        unfold setAddrWindow
        simp only [a1, a2]
      rw [e1, e2, e3]
    · intro hW hH
      have hf := fillRect_inside d x y 1 1 color hx0 hx1 hy0 hy1 (by omega) (by omega)
        (by omega) (by omega) hW hH
      have m1 : min (1 : Int) (d._width - x) = 1 := by omega
      have m2 : min (1 : Int) (d._height - y) = 1 := by omega
      rw [m1, m2] at hf
      have z1 : x + 1 - 1 = x := by omega
      have z2 : y + 1 - 1 = y := by omega
      rw [z1, z2] at hf
      exact hf

/-- Failing input for C30: on the 128x128 display `drawPixel(3, 4, 0xF800)`
declares the window `(3, 4, 4, 5)` of four pixels and writes one pixel, and
`drawPixel(127, 127, 0xF800)` declares a window that ends at column and row
128, outside the display; `fillRect(3, 4, 1, 1, 0xF800)` declares
`(3, 4, 3, 4)`. -/
theorem drawPixel_window_witness :
    drawPixel oled 3 4 0xF800 =
      [SpiByte.command 0x15, SpiByte.data 3, SpiByte.data 4,
       SpiByte.command 0x75, SpiByte.data 4, SpiByte.data 5, SpiByte.command 0x5C,
       SpiByte.data 0xF8, SpiByte.data 0] ∧
    fillRect oled 3 4 1 1 0xF800 =
      [SpiByte.command 0x15, SpiByte.data 3, SpiByte.data 3,
       SpiByte.command 0x75, SpiByte.data 4, SpiByte.data 4, SpiByte.command 0x5C,
       SpiByte.data 0xF8, SpiByte.data 0] ∧
    drawPixel oled 127 127 0xF800 =
      [SpiByte.command 0x15, SpiByte.data 127, SpiByte.data 128,
       SpiByte.command 0x75, SpiByte.data 127, SpiByte.data 128, SpiByte.command 0x5C,
       SpiByte.data 0xF8, SpiByte.data 0] ∧
    drawPixel oled (-1) 4 0xF800 = [] ∧ drawPixel oled 128 4 0xF800 = [] ∧
    drawPixel oled 3 4 0xF800 =
      setAddrWindow oled (3 : Int).toNat (4 : Int).toNat ((3 : Int).toNat + 1)
          ((4 : Int).toNat + 1) ++
        [SpiByte.data ((0xF800 % 65536) >>> 8 % 256), SpiByte.data (0xF800 % 65536 % 256)] :=
  ⟨by decide, by decide, by decide, by decide, by decide,
    ((drawPixel_window oled 3 4 0xF800 (by decide) (by decide)).2 (by decide) (by decide)
      (by decide) (by decide)).1⟩

/-! ## Theorems: eyelid tracking sample -/

/-- The `#ifdef TRACKING` block with its sample written out: the two reads of
`upper` at row `sampleY`, columns `sampleX` and `SCREEN_WIDTH - 1 - sampleX`,
averaged, or 0 when `sampleY < 0`. -/
theorem trackLids_sample (g : Graphics) (u : Nat) (eyeX eyeY : Int) (hu : u ≤ 254) :
    (if wrapS16 (Int.tdiv (g.SCLERA_HEIGHT : Int) 2 -
          (eyeY + Int.tdiv (g.IRIS_HEIGHT : Int) 4)) < 0 then 0
      else ((g.upper
            (wrapS16 (Int.tdiv (g.SCLERA_HEIGHT : Int) 2 -
              (eyeY + Int.tdiv (g.IRIS_HEIGHT : Int) 4))).toNat
            (wrapS16 (Int.tdiv (g.SCLERA_WIDTH : Int) 2 - Int.tdiv eyeX 2)).toNat).val +
          (g.upper
            (wrapS16 (Int.tdiv (g.SCLERA_HEIGHT : Int) 2 -
              (eyeY + Int.tdiv (g.IRIS_HEIGHT : Int) 4))).toNat
            ((g.SCREEN_WIDTH : Int) - 1 -
              wrapS16 (Int.tdiv (g.SCLERA_WIDTH : Int) 2 - Int.tdiv eyeX 2)).toNat).val) / 2)
        ≤ 255 ∧
    (trackLids g u eyeX eyeY).1 =
      (3 * u +
        (if wrapS16 (Int.tdiv (g.SCLERA_HEIGHT : Int) 2 -
            (eyeY + Int.tdiv (g.IRIS_HEIGHT : Int) 4)) < 0 then 0
        else ((g.upper
              (wrapS16 (Int.tdiv (g.SCLERA_HEIGHT : Int) 2 -
                (eyeY + Int.tdiv (g.IRIS_HEIGHT : Int) 4))).toNat
              (wrapS16 (Int.tdiv (g.SCLERA_WIDTH : Int) 2 - Int.tdiv eyeX 2)).toNat).val +
            (g.upper
              (wrapS16 (Int.tdiv (g.SCLERA_HEIGHT : Int) 2 -
                (eyeY + Int.tdiv (g.IRIS_HEIGHT : Int) 4))).toNat
              ((g.SCREEN_WIDTH : Int) - 1 -
                wrapS16 (Int.tdiv (g.SCLERA_WIDTH : Int) 2 - Int.tdiv eyeX 2)).toNat).val) /
            2)) / 4 := by
  unfold trackLids
  simp only []
  generalize wrapS16 (Int.tdiv (g.SCLERA_WIDTH : Int) 2 - Int.tdiv eyeX 2) = sampleX
  generalize wrapS16 (Int.tdiv (g.SCLERA_HEIGHT : Int) 2 -
    (eyeY + Int.tdiv (g.IRIS_HEIGHT : Int) 4)) = sampleY
  have ha := (g.upper sampleY.toNat sampleX.toNat).isLt
  have hb := (g.upper sampleY.toNat ((g.SCREEN_WIDTH : Int) - 1 - sampleX).toNat).isLt
  generalize (g.upper sampleY.toNat sampleX.toNat).val = a at ha ⊢
  generalize (g.upper sampleY.toNat ((g.SCREEN_WIDTH : Int) - 1 - sampleX).toNat).val = b
    at hb ⊢
  have hmod : (a + b) / 2 % 256 = (a + b) / 2 := Nat.mod_eq_of_lt (by omega)
  rw [hmod]
  have hn : (if sampleY < 0 then 0 else (a + b) / 2) ≤ 255 := by
    split_ifs <;> omega
  generalize (if sampleY < 0 then 0 else (a + b) / 2) = n at hn ⊢
  refine ⟨hn, ?_⟩
  have e1 : (u * 3 + n) / 4 ≤ 254 := by omega
  rw [Nat.mod_eq_of_lt (by omega), Nat.mul_comm]

/-- The threshold state after a tick is the tracking block applied to the gaze
of that tick, scaled to sclera units for the eye rendered. -/
theorem frame_lids {g : Graphics} {st st' : AnimState} {rands rands' : List Nat}
    {t iScale : Nat} {args : DrawArgs}
    (h : frame g st rands t iScale = some (st', rands', args)) :
    ∃ st1 rands1 gx gy,
      gazeStep (nextEye st) rands (t % 2 ^ 32) = some (st1, rands1, gx, gy) ∧
      st'.uThreshold = (trackLids g st.uThreshold (gazeToSclera g args.e gx gy).1
        (gazeToSclera g args.e gx gy).2).1 ∧
      args.scleraX = wrapU 8 (gazeToSclera g args.e gx gy).1 ∧
      args.scleraY = wrapU 8 (gazeToSclera g args.e gx gy).2 ∧
      ((st'.blink args.e).state = NOBLINK →
        args.uT = st'.uThreshold ∧
        args.lT = (trackLids g st.uThreshold (gazeToSclera g args.e gx gy).1
          (gazeToSclera g args.e gx gy).2).2) := by
  obtain ⟨st1, rands1, eyeX, eyeY, st2, hg, htr, hbl, -, hu, he, hsx, hsy, huT, hlT⟩ :=
    frame_full h
  have h1 := (gazeStep_keeps hg).2.2.1
  have h2 := (blinkTrigger_keeps htr).2.1
  have hu2 : st2.uThreshold = st.uThreshold := by rw [h2, h1]; rfl
  rw [← he] at hu hsx hsy huT hlT
  rw [hu2] at hu huT hlT
  refine ⟨st1, rands1, eyeX, eyeY, hg, hu, hsx, hsy, ?_⟩
  intro hidle
  rw [hbl] at hidle
  rw [huT, hlT, hu]
  unfold blinkBlend
  unfold NOBLINK at hidle
  rw [if_neg (fun hc => hc hidle)]
  exact ⟨rfl, rfl⟩

/-- C14: in every tick from a reachable state (initially `uThreshold = 128`)
the gaze block yields a gaze `(gx, gy)`, and with `(eyeX, eyeY)` its scaling
to sclera units for the eye rendered,
`sampleX = SCLERA_WIDTH/2 - eyeX/2`,
`sampleY = SCLERA_HEIGHT/2 - (eyeY + IRIS_HEIGHT/4)` and `n` the averaged
sample `(upper[sampleY][sampleX] + upper[sampleY][SCREEN_WIDTH-1-sampleX]) / 2`
(0 when `sampleY < 0`), `n` is in `0..255` and the smoothed upper threshold
becomes `uThreshold' = (3*uThreshold + n) / 4`; it never exceeds 254, and the
nominal lower threshold is `254 - uThreshold'` as an integer identity (the
8-bit subtraction does not wrap); these are the thresholds handed to
`drawEye` when the rendered eye is not blinking. -/
theorem lids_track_gaze (g : Graphics) (st st' : AnimState) (rands rands' : List Nat)
    (t iScale : Nat) (args : DrawArgs)
    (hr : Reachable g st) (h : frame g st rands t iScale = some (st', rands', args)) :
    st.uThreshold ≤ 254 ∧
    (∃ st1 rands1 gx gy,
      gazeStep (nextEye st) rands (t % 2 ^ 32) = some (st1, rands1, gx, gy)) ∧
    ∀ (st1 : AnimState) (rands1 : List Nat) (gx gy : Int),
      gazeStep (nextEye st) rands (t % 2 ^ 32) = some (st1, rands1, gx, gy) →
      ∀ (eyeX eyeY sampleX sampleY : Int) (n : Nat),
        (eyeX, eyeY) = gazeToSclera g args.e gx gy →
        sampleX = wrapS16 (Int.tdiv (g.SCLERA_WIDTH : Int) 2 - Int.tdiv eyeX 2) →
        sampleY = wrapS16 (Int.tdiv (g.SCLERA_HEIGHT : Int) 2 -
          (eyeY + Int.tdiv (g.IRIS_HEIGHT : Int) 4)) →
        n = (if sampleY < 0 then 0
          else ((g.upper sampleY.toNat sampleX.toNat).val +
            (g.upper sampleY.toNat ((g.SCREEN_WIDTH : Int) - 1 - sampleX).toNat).val) / 2) →
        n ≤ 255 ∧
        st'.uThreshold = (3 * st.uThreshold + n) / 4 ∧
        st'.uThreshold ≤ 254 ∧
        wrapU 8 (254 - (st'.uThreshold : Int)) = 254 - st'.uThreshold ∧
        args.scleraX = wrapU 8 eyeX ∧ args.scleraY = wrapU 8 eyeY ∧
        ((st'.blink args.e).state = NOBLINK →
          args.uT = st'.uThreshold ∧ (args.lT : Int) = 254 - (st'.uThreshold : Int)) := by
  have hu := reachable_uThreshold hr
  obtain ⟨st1, rands1, gx, gy, hg, hu', hsx, hsy, hargs⟩ := frame_lids h
  refine ⟨hu, ⟨st1, rands1, gx, gy, hg⟩, ?_⟩
  intro st1' rands1' gx' gy' hg' eyeX eyeY sampleX sampleY n heye hsX hsY hn
  rw [hg] at hg'
  simp only [Option.some.injEq, Prod.mk.injEq] at hg'
  obtain ⟨-, -, hgx, hgy⟩ := hg'
  subst hgx hgy
  have hex : (gazeToSclera g args.e gx gy).1 = eyeX := by rw [← heye]
  have hey : (gazeToSclera g args.e gx gy).2 = eyeY := by rw [← heye]
  simp only [hex, hey] at hu' hsx hsy hargs
  obtain ⟨hn255, hsample⟩ := trackLids_sample g st.uThreshold eyeX eyeY hu
  rw [← hsX, ← hsY, ← hn] at hn255 hsample
  obtain ⟨m, -, -, hle, hlow⟩ := trackLids_spec g st.uThreshold eyeX eyeY hu
  refine ⟨hn255, by rw [hu', hsample], by rw [hu']; exact hle, ?_, hsx, hsy, ?_⟩
  · rw [hu']
    unfold wrapU
    omega
  · intro hidle
    obtain ⟨a1, a2⟩ := hargs hidle
    rw [a1, a2, hu']
    exact ⟨rfl, hlow⟩

set_option maxRecDepth 100000 in
theorem lidTick_isSome : lidTick.isSome = true := by decide

set_option maxRecDepth 100000 in
theorem lidGaze_isSome : lidGaze.isSome = true := by decide

set_option maxRecDepth 100000 in
/-- Witness for C14: in `lidTick` eye 1 is rendered with the gaze `(512, 512)`,
scaled to `(108, 123)`; the sample is taken at row 7, columns 96 and 31, the
two reads are 199 and 69, `n = 134`, and `uThreshold` goes from 128 to
`(3*128 + 134) / 4 = 129`. -/
theorem lids_track_gaze_witness :
    (lidGraphics.upper 7 96).val = 199 ∧ (lidGraphics.upper 7 31).val = 69 ∧
    (tickState lidTick).uThreshold = 129 ∧
    (134 ≤ 255 ∧
      (tickState lidTick).uThreshold = (3 * AnimState.init.uThreshold + 134) / 4 ∧
      (tickState lidTick).uThreshold ≤ 254 ∧
      wrapU 8 (254 - ((tickState lidTick).uThreshold : Int)) =
        254 - (tickState lidTick).uThreshold ∧
      (lidTick.get lidTick_isSome).2.2.scleraX = wrapU 8 108 ∧
      (lidTick.get lidTick_isSome).2.2.scleraY = wrapU 8 123 ∧
      (((tickState lidTick).blink (lidTick.get lidTick_isSome).2.2.e).state = NOBLINK →
        (lidTick.get lidTick_isSome).2.2.uT = (tickState lidTick).uThreshold ∧
        ((lidTick.get lidTick_isSome).2.2.lT : Int) =
          254 - ((tickState lidTick).uThreshold : Int))) :=
  ⟨by decide, by decide, by decide,
    (lids_track_gaze lidGraphics AnimState.init (tickState lidTick) [300, 700, 5, 1, 2]
      (lidTick.get lidTick_isSome).2.1 10 420 (lidTick.get lidTick_isSome).2.2
      Reachable.init (Option.some_get lidTick_isSome).symm).2.2
      (lidGaze.get lidGaze_isSome).1 (lidGaze.get lidGaze_isSome).2.1 512 512
      (Option.some_get lidGaze_isSome).symm 108 123 96 7 134
      (by decide) (by decide) (by decide) (by decide)⟩

/-! ## Theorems: reproducible iris traces -/

theorem gazeStep_setLids (u : Nat) (s : AnimState) (rands : List Nat) (t : Nat) :
    gazeStep (setLids u s) rands t =
      (gazeStep s rands t).map (fun r => (setLids u r.1, r.2.1, r.2.2.1, r.2.2.2)) := by
  unfold gazeStep
  simp only [setLids]
  split_ifs
  · cases rands <;> rfl
  · rfl
  · cases easeAt (Int.tdiv (wrapS32 (255 * wrapS32 ((t : Int) - (s.eyeMoveStartTime : Int))))
      s.eyeMoveDuration) <;> rfl
  · cases hp : pickTarget rands with
    | none => rfl
    | some r =>
      obtain ⟨nx, ny, rest⟩ := r
      cases rest <;> rfl
  · rfl

theorem blinkTrigger_setLids (u : Nat) (s : AnimState) (rands : List Nat) (t : Nat) :
    blinkTrigger (setLids u s) rands t =
      (blinkTrigger s rands t).map (fun r => (setLids u r.1, r.2)) := by
  unfold blinkTrigger
  simp only [setLids]
  split_ifs
  · match rands with
    | [] => rfl
    | [_] => rfl
    | _ :: _ :: _ => rfl
  · rfl

theorem blinkAdvance_setLids (u : Nat) (s : AnimState) (t : Nat) :
    blinkAdvance (setLids u s) t = setLids u (blinkAdvance s t) := by
  unfold blinkAdvance
  simp only [setLids]
  split_ifs <;> rfl

/-- A tick does not read `uThreshold` or the graphics tables for anything but
the eyelid thresholds and sclera offsets: on two graphics sets and from two
states that differ in `uThreshold` only, it completes or not alike, takes the
same values of `rand()`, renders the same eye with the same iris scale, and
leaves states that differ in `uThreshold` only. -/
theorem frame_setLids (g1 g2 : Graphics) (u : Nat) (s : AnimState) (rands : List Nat)
    (t iScale : Nat) :
    (frame g1 (setLids u s) rands t iScale).map
        (fun r => (setLids 0 r.1, r.2.1, r.2.2.e, r.2.2.iScale)) =
      (frame g2 s rands t iScale).map
        (fun r => (setLids 0 r.1, r.2.1, r.2.2.e, r.2.2.iScale)) := by
  unfold frame
  simp only []
  have hn : nextEye (setLids u s) = setLids u (nextEye s) := rfl
  rw [hn, gazeStep_setLids]
  cases gazeStep (nextEye s) rands (t % 2 ^ 32) with
  | none => rfl
  | some r =>
    obtain ⟨st1, rands1, eyeX, eyeY⟩ := r
    simp only [Option.map_some']
    rw [blinkTrigger_setLids]
    cases blinkTrigger st1 rands1 (t % 2 ^ 32) with
    | none => rfl
    | some r2 =>
      obtain ⟨st2, rands2⟩ := r2
      simp only [Option.map_some']
      rw [blinkAdvance_setLids]
      rfl

theorem frame_noLids (g1 g2 : Graphics) {a b : AnimState} (h : setLids 0 a = setLids 0 b)
    (rands : List Nat) (t iScale : Nat) :
    (frame g1 a rands t iScale).map
        (fun r => (setLids 0 r.1, r.2.1, r.2.2.e, r.2.2.iScale)) =
      (frame g2 b rands t iScale).map
        (fun r => (setLids 0 r.1, r.2.1, r.2.2.e, r.2.2.iScale)) := by
  have ha : a = setLids a.uThreshold b := by
    have h1 : a = setLids a.uThreshold (setLids 0 a) := rfl
    rw [h1, h]
    rfl
  rw [ha]
  exact frame_setLids g1 g2 _ b rands t iScale

theorem frame_noLids_cases (g1 g2 : Graphics) {a b : AnimState}
    (h : setLids 0 a = setLids 0 b) (rands : List Nat) (t iScale : Nat) :
    (frame g1 a rands t iScale = none ∧ frame g2 b rands t iScale = none) ∨
    ∃ a' b' rands' x y,
      frame g1 a rands t iScale = some (a', rands', x) ∧
      frame g2 b rands t iScale = some (b', rands', y) ∧
      setLids 0 a' = setLids 0 b' ∧ x.e = y.e ∧ x.iScale = y.iScale := by
  have hf := frame_noLids g1 g2 h rands t iScale
  cases h1 : frame g1 a rands t iScale with
  | none =>
    cases h2 : frame g2 b rands t iScale with
    | none => exact Or.inl ⟨rfl, rfl⟩
    | some r2 => rw [h1, h2] at hf; simp at hf
  | some r1 =>
    cases h2 : frame g2 b rands t iScale with
    | none => rw [h1, h2] at hf; simp at hf
    | some r2 =>
      rw [h1, h2] at hf
      simp only [Option.map_some', Option.some.injEq, Prod.mk.injEq] at hf
      obtain ⟨a', ra, x⟩ := r1
      obtain ⟨b', rb, y⟩ := r2
      obtain ⟨e1, e2, e3, e4⟩ := hf
      simp only at e1 e2 e3 e4
      subst e2
      exact Or.inr ⟨a', b', ra, x, y, rfl, rfl, e1, e3, e4⟩

/-- The leaf loop of `split` on two graphics sets and from two animation
states that differ in `uThreshold` only, with the same `rand()` values and
timer readings: the same iris values are passed to `frame`, and the worlds
afterwards differ in `uThreshold` only. -/
theorem splitLeaf_noLids (g1 g2 : Graphics) (startValue endValue : Int) (startTime : Nat)
    (duration : Int) :
    ∀ (n : Nat) (clock : List Nat) (a b : AnimState) (rands : List Nat),
      clock.length ≤ n → setLids 0 a = setLids 0 b →
      (splitLeaf g1 startValue endValue startTime duration clock a rands).1.map
          (fun c => c.iScale) =
        (splitLeaf g2 startValue endValue startTime duration clock b rands).1.map
          (fun c => c.iScale) ∧
      (splitLeaf g1 startValue endValue startTime duration clock a rands).2.map World.noLids =
        (splitLeaf g2 startValue endValue startTime duration clock b rands).2.map
          World.noLids := by
  intro n
  induction n with
  | zero =>
    intro clock a b rands hlen _
    have hnil : clock = [] := List.length_eq_zero.mp (Nat.le_zero.mp hlen)
    subst hnil
    exact ⟨rfl, rfl⟩
  | succ n ih =>
    intro clock a b rands hlen hab
    match clock, hlen with
    | [], _ => exact ⟨rfl, rfl⟩
    | [c1], _ =>
      rw [splitLeaf, splitLeaf]
      split_ifs
      · exact ⟨rfl, rfl⟩
      · exact ⟨rfl, rfl⟩
      · refine ⟨rfl, ?_⟩
        simp only [Option.map_some', World.noLids, hab]
    | c1 :: c2 :: clock2, hlen =>
      rw [splitLeaf, splitLeaf]
      split_ifs
      · exact ⟨rfl, rfl⟩
      · rcases frame_noLids_cases g1 g2 hab rands c2 (wrapU 16 (leafValue startValue endValue
            (wrapS32 (((c1 % 2 ^ 32 : Nat) : Int) - (startTime : Int))) duration)) with
          ⟨h1, h2⟩ | ⟨a', b', rands', x, y, h1, h2, hab', -, -⟩
        · simp only [h1, h2]
          constructor <;> trivial
        · simp only [h1, h2]
          have hrec := ih clock2 a' b' rands' (by simp at hlen; omega) hab'
          exact ⟨by simp only [List.map_cons, hrec.1], hrec.2⟩
      · refine ⟨rfl, ?_⟩
        simp only [Option.map_some', World.noLids, hab]

theorem World.noLids_eq {w1 w2 : World} (ha : setLids 0 w1.anim = setLids 0 w2.anim)
    (hr : w1.rands = w2.rands) (hc : w1.clock = w2.clock) : w1.noLids = w2.noLids := by
  cases w1
  cases w2
  simp only [World.noLids, World.mk.injEq]
  exact ⟨ha, hr, hc⟩

theorem World.noLids_fields {w1 w2 : World} (h : w1.noLids = w2.noLids) :
    setLids 0 w1.anim = setLids 0 w2.anim ∧ w1.rands = w2.rands ∧ w1.clock = w2.clock := by
  cases w1
  cases w2
  simp only [World.noLids, World.mk.injEq] at h
  exact h

/-- `split` on two graphics sets and from two worlds that differ in
`uThreshold` only: the same iris values are passed to `frame`, and the worlds
afterwards differ in `uThreshold` only. -/
theorem split_noLids (g1 g2 : Graphics) :
    ∀ (fuel : Nat) (startValue endValue : Int) (startTime : Nat) (duration range : Int)
      (w1 w2 : World), w1.noLids = w2.noLids →
      (split g1 fuel startValue endValue startTime duration range w1).1.map
          (fun c => c.iScale) =
        (split g2 fuel startValue endValue startTime duration range w2).1.map
          (fun c => c.iScale) ∧
      (split g1 fuel startValue endValue startTime duration range w1).2.map World.noLids =
        (split g2 fuel startValue endValue startTime duration range w2).2.map
          World.noLids := by
  intro fuel
  induction fuel with
  | zero =>
    intro startValue endValue startTime duration range w1 w2 _
    exact ⟨rfl, rfl⟩
  | succ fuel ih =>
    intro startValue endValue startTime duration range w1 w2 hw
    obtain ⟨ha, hr, hc⟩ := World.noLids_fields hw
    by_cases h8 : 8 ≤ range
    · cases hr1 : w1.rands with
      | nil =>
        have hr2 : w2.rands = [] := by rw [← hr, hr1]
        rw [split, if_pos h8, split, if_pos h8]
        simp only [hr1, hr2]
        constructor <;> trivial
      | cons r rest =>
        have hr2 : w2.rands = r :: rest := by rw [← hr, hr1]
        have hA := split_node g1 fuel startValue endValue startTime duration range w1 r rest
          h8 hr1
        have hB := split_node g2 fuel startValue endValue startTime duration range w2 r rest
          h8 hr2
        have ih1 := ih startValue
          (midValue startValue endValue (wrapS16 (Int.tdiv range 2)) r) startTime
          (Int.tdiv duration 2) (wrapS16 (Int.tdiv range 2))
          { w1 with rands := rest } { w2 with rands := rest }
          (World.noLids_eq ha rfl hc)
        cases h1 : (split g1 fuel startValue
            (midValue startValue endValue (wrapS16 (Int.tdiv range 2)) r) startTime
            (Int.tdiv duration 2) (wrapS16 (Int.tdiv range 2)) { w1 with rands := rest }).2 with
        | none =>
          have h2 : (split g2 fuel startValue
              (midValue startValue endValue (wrapS16 (Int.tdiv range 2)) r) startTime
              (Int.tdiv duration 2) (wrapS16 (Int.tdiv range 2))
              { w2 with rands := rest }).2 = none := by
            have := ih1.2
            rw [h1] at this
            simpa using this.symm
          rw [hA.2 h1, hB.2 h2]
          exact ih1
        | some v1 =>
          have h2 : ∃ v2, (split g2 fuel startValue
              (midValue startValue endValue (wrapS16 (Int.tdiv range 2)) r) startTime
              (Int.tdiv duration 2) (wrapS16 (Int.tdiv range 2))
              { w2 with rands := rest }).2 = some v2 ∧ v1.noLids = v2.noLids := by
            have := ih1.2
            rw [h1] at this
            simp only [Option.map_some'] at this
            obtain ⟨v2, hv2, hv⟩ := Option.map_eq_some'.mp this.symm
            exact ⟨v2, hv2, hv.symm⟩
          obtain ⟨v2, h2, hv⟩ := h2
          have ih2 := ih (midValue startValue endValue (wrapS16 (Int.tdiv range 2)) r) endValue
            (wrapU 32 ((startTime : Int) + Int.tdiv duration 2)) (Int.tdiv duration 2)
            (wrapS16 (Int.tdiv range 2)) v1 v2 hv
          rw [hA.1 v1 h1, hB.1 v2 h2]
          exact ⟨by simp only [List.map_append, ih1.1, ih2.1], ih2.2⟩
    · rw [split_leaf g1 fuel _ _ _ _ _ w1 (not_le.mp h8),
        split_leaf g2 fuel _ _ _ _ _ w2 (not_le.mp h8), hr, hc]
      exact splitLeaf_noLids g1 g2 startValue endValue startTime duration _ w2.clock
        w1.anim w2.anim w2.rands (Nat.le_refl _) ha

/-- One `loop()` round on two graphics sets and from two worlds that differ in
`uThreshold` only. -/
theorem loop_noLids (g1 g2 : Graphics) (oldIris : Nat) (w1 w2 : World)
    (hw : w1.noLids = w2.noLids) :
    (loop g1 oldIris w1).1.map (fun c => c.iScale) =
      (loop g2 oldIris w2).1.map (fun c => c.iScale) ∧
    (loop g1 oldIris w1).2.map (fun r => (r.1, r.2.noLids)) =
      (loop g2 oldIris w2).2.map (fun r => (r.1, r.2.noLids)) := by
  obtain ⟨ha, hr, hc⟩ := World.noLids_fields hw
  unfold loop
  rw [hr, hc]
  match w2.rands, w2.clock with
  | [], _ => exact ⟨rfl, rfl⟩
  | _ :: _, [] => exact ⟨rfl, rfl⟩
  | r :: rands, c :: clock =>
    simp only []
    have hs := split_noLids g1 g2 16 (wrapS16 oldIris)
      (wrapS16 ((r % (IRIS_MAX - IRIS_MIN) + IRIS_MIN) % 65536 : Nat)) (c % 2 ^ 32) 10000000
      (wrapS16 ((IRIS_MAX : Int) - (IRIS_MIN : Int)))
      { w1 with rands := rands, clock := clock } { w2 with rands := rands, clock := clock }
      (World.noLids_eq ha rfl rfl)
    refine ⟨hs.1, ?_⟩
    have h2 := congrArg (Option.map (fun w : World =>
      ((r % (IRIS_MAX - IRIS_MIN) + IRIS_MIN) % 65536, w))) hs.2
    simp only [Option.map_map] at h2 ⊢
    exact h2

/-- Any number of `loop()` rounds on two graphics sets and from two worlds
that differ in `uThreshold` only. -/
theorem mainLoop_noLids (g1 g2 : Graphics) :
    ∀ (n oldIris : Nat) (w1 w2 : World), w1.noLids = w2.noLids →
      (mainLoop g1 n oldIris w1).1.map (fun c => c.iScale) =
        (mainLoop g2 n oldIris w2).1.map (fun c => c.iScale) ∧
      (mainLoop g1 n oldIris w1).2.map (fun r => (r.1, r.2.noLids)) =
        (mainLoop g2 n oldIris w2).2.map (fun r => (r.1, r.2.noLids)) := by
  intro n
  induction n with
  | zero =>
    intro oldIris w1 w2 hw
    refine ⟨rfl, ?_⟩
    simp only [mainLoop, Option.map_some', hw]
  | succ n ih =>
    intro oldIris w1 w2 hw
    have hl := loop_noLids g1 g2 oldIris w1 w2 hw
    rw [mainLoop, mainLoop]
    cases h1 : (loop g1 oldIris w1).2 with
    | none =>
      have h2 : (loop g2 oldIris w2).2 = none := by
        have := hl.2
        rw [h1] at this
        simpa using this.symm
      simp only [h1, h2]
      constructor
      · exact hl.1
      · trivial
    | some r1 =>
      have h2 : ∃ r2, (loop g2 oldIris w2).2 = some r2 ∧ r1.1 = r2.1 ∧
          r1.2.noLids = r2.2.noLids := by
        have := hl.2
        rw [h1] at this
        simp only [Option.map_some'] at this
        obtain ⟨r2, hr2, hv⟩ := Option.map_eq_some'.mp this.symm
        simp only [Prod.mk.injEq] at hv
        exact ⟨r2, hr2, hv.1.symm, hv.2.symm⟩
      obtain ⟨r2, h2, e1, e2⟩ := h2
      simp only [h1, h2]
      have hrec := ih r1.1 r1.2 r2.2 e2
      rw [← e1]
      exact ⟨by simp only [List.map_append, hl.1, hrec.1], hrec.2⟩

set_option maxRecDepth 1000000 in
/-- C17 (counterexample): two autonomous runs from the same animation state
with the same `rand()` values but different timer readings (the leaf loop
reads 0 in one run and 40000 in the other before its first frame) pass
different iris values to `frame`: 420 and 414. -/
theorem iris_trace_timer_dependent :
    lateWorld.anim = demoWorld.anim ∧ lateWorld.rands = demoWorld.rands ∧
    demoWorld.clock = 0 :: 0 :: 0 :: List.replicate 200 20000000 ∧
    lateWorld.clock = 0 :: 40000 :: 0 :: List.replicate 200 20000000 ∧
    (mainLoop demoGraphics 1 oldIrisInit demoWorld).1.map (fun c => c.iScale) = [420] ∧
    (mainLoop demoGraphics 1 oldIrisInit lateWorld).1.map (fun c => c.iScale) = [414] ∧
    (mainLoop demoGraphics 1 oldIrisInit demoWorld).1.map (fun c => c.iScale) ≠
      (mainLoop demoGraphics 1 oldIrisInit lateWorld).1.map (fun c => c.iScale) :=
  ⟨rfl, rfl, rfl, rfl, by decide, by decide, by decide⟩

/-- C17: two autonomous runs (`split` as driven by `loop`, for any number of
`loop()` rounds) that are fed the same `rand()` values and the same timer
readings and start from the same animation state pass identical sequences of
iris-scale values to `frame`, end with the same `oldIris`, the same unused
`rand()` values and timer readings, and in the same animation state. Only
the inputs named matter: the runs may use different graphics tables and
start from different values of the eyelid threshold `uThreshold`, and then
end in states that differ in `uThreshold` only. -/
theorem iris_trace_reproducible (g1 g2 : Graphics) (n oldIris : Nat) (w1 w2 : World)
    (ha : setLids 0 w1.anim = setLids 0 w2.anim) (hr : w1.rands = w2.rands)
    (hc : w1.clock = w2.clock) :
    (mainLoop g1 n oldIris w1).1.map (fun c => c.iScale) =
      (mainLoop g2 n oldIris w2).1.map (fun c => c.iScale) ∧
    (mainLoop g1 n oldIris w1).2.map (fun r => (r.1, r.2.noLids)) =
      (mainLoop g2 n oldIris w2).2.map (fun r => (r.1, r.2.noLids)) ∧
    (loop g1 oldIris w1).1.map (fun c => c.iScale) =
      (loop g2 oldIris w2).1.map (fun c => c.iScale) ∧
    (∀ (fuel : Nat) (startValue endValue : Int) (startTime : Nat) (duration range : Int),
      (split g1 fuel startValue endValue startTime duration range w1).1.map
          (fun c => c.iScale) =
        (split g2 fuel startValue endValue startTime duration range w2).1.map
          (fun c => c.iScale) ∧
      (split g1 fuel startValue endValue startTime duration range w1).2.map World.noLids =
        (split g2 fuel startValue endValue startTime duration range w2).2.map
          World.noLids) ∧
    (w1.anim = w2.anim →
      mainLoop g1 n oldIris w1 = mainLoop g1 n oldIris w2 ∧
      (mainLoop g1 n oldIris w1).1.map (fun c => c.iScale) =
        (mainLoop g1 n oldIris w2).1.map (fun c => c.iScale)) := by
  have hw : w1.noLids = w2.noLids := World.noLids_eq ha hr hc
  have hm := mainLoop_noLids g1 g2 n oldIris w1 w2 hw
  refine ⟨hm.1, hm.2, (loop_noLids g1 g2 oldIris w1 w2 hw).1, ?_, ?_⟩
  · intro fuel startValue endValue startTime duration range
    exact split_noLids g1 g2 fuel startValue endValue startTime duration range w1 w2 hw
  · intro haa
    have hww : w1 = w2 := by
      cases w1
      cases w2
      simp only [World.mk.injEq]
      exact ⟨haa, hr, hc⟩
    subst hww
    exact ⟨rfl, rfl⟩

set_option maxRecDepth 1000000 in
/-- Witness for C17: one `loop()` round on `lateWorld` with the graphics of
`demoGraphics`, and one from a state with `uThreshold = 200` with the
graphics of `wideGraphics`; both pass the single iris value 414 to `frame`,
with different sclera offsets. -/
theorem iris_trace_reproducible_witness :
    (mainLoop demoGraphics 1 oldIrisInit lateWorld).1 =
      [⟨414, some ⟨1, 414, 132, 167, 159, 95⟩⟩] ∧
    (mainLoop wideGraphics 1 oldIrisInit
        { lateWorld with anim := setLids 200 lateWorld.anim }).1.map (fun c => c.draw) =
      [some ⟨1, 414, 108, 123, 213, 41⟩] ∧
    (mainLoop demoGraphics 1 oldIrisInit lateWorld).1.map (fun c => c.iScale) =
      (mainLoop wideGraphics 1 oldIrisInit
        { lateWorld with anim := setLids 200 lateWorld.anim }).1.map (fun c => c.iScale) :=
  ⟨by decide, by decide,
    (iris_trace_reproducible demoGraphics wideGraphics 1 oldIrisInit lateWorld
      { lateWorld with anim := setLids 200 lateWorld.anim } rfl rfl rfl).1⟩

end DragonEyes
